import Mathlib

/-!
# qOracle: a shallow embedding of the committee, the ledgers and the multisig

The definitions below follow `QuantumSignature.hpp` and
`qOracle_Production_RC2.cpp`.

* 64-bit unsigned values are natural numbers; every place where the C++
  arithmetic can wrap is reduced modulo `2 ^ 64` explicitly.
* `std::string` addresses are `String`; the asset identifier, whose bytes are
  copied into the signed message, is a list of bytes.
* A member function that can throw returns an `Outcome` next to the state it
  leaves behind: `returned v` for a normal return, `threw msg` for a
  `std::runtime_error`.
* The wall clock read by `std::chrono::system_clock::now()` is an explicit
  argument `now` (seconds).
* The SHA-256 digest and the Dilithium3 check are fields of `Crypto`: the
  theorems hold for every choice of the two functions.
-/

/-- Byte strings: `std::vector<uint8_t>`, `std::array<uint8_t, N>`. -/
abbrev Bytes := List Nat

/-- Two to the power 64, the modulus of `uint64_t` arithmetic. -/
def U64 : Nat := 18446744073709551616

/-- Result of calling a member function: a normal return or a thrown
`std::runtime_error` with its message. -/
inductive Outcome (α : Type) where
  | returned : α → Outcome α
  | threw : String → Outcome α
deriving DecidableEq, Repr

/-- The digest and the signature check used by the verifier, kept abstract. -/
structure Crypto where
  /-- `SHA256_Init` / `SHA256_Update` / `SHA256_Final` over a byte string. -/
  sha256 : Bytes → Bytes
  /-- `verify_dilithium3_signature(pubkey, message, signature)`. -/
  verify_dilithium3_signature : Bytes → Bytes → Bytes → Bool

namespace qOracle

/-- Committee size, `NUM_ORACLES`. -/
def NUM_ORACLES : Nat := 7

/-- Quorum, `QUORUM_THRESHOLD`. -/
def QUORUM_THRESHOLD : Nat := 4

/-- The `struct OracleIdentity`. -/
structure OracleIdentity where
  index : Nat
  public_key : Bytes
  address : String
  active : Bool
deriving DecidableEq, Repr

/-- The `struct PriceMessage`. -/
structure PriceMessage where
  price : Nat
  timestamp : Nat
  decimals : Nat
  nonce : Nat
  asset : Bytes
deriving DecidableEq, Repr

/-- The loop `for (int i = 7; i >= 0; --i) data.push_back((x >> (i * 8)) & 0xFF)`. -/
def push_be64 (data : Bytes) (x : Nat) : Bytes :=
  data ++ [7, 6, 5, 4, 3, 2, 1, 0].map (fun i => (x >>> (i * 8)) &&& 0xFF)

/-- Embeds `PriceMessage::serialize`. -/
def PriceMessage.serialize (m : PriceMessage) : Bytes :=
  let data : Bytes := []
  let data := push_be64 data m.price
  let data := push_be64 data m.timestamp
  let data := data ++ [m.decimals]
  let data := push_be64 data m.nonce
  data ++ m.asset

/-- Embeds `PriceMessage::hash`: the digest of the serialization. -/
def PriceMessage.hash (env : Crypto) (m : PriceMessage) : Bytes :=
  env.sha256 m.serialize

/-- The `struct OracleSignature`. -/
structure OracleSignature where
  oracle_index : Nat
  signature : Bytes
  timestamp : Nat
deriving DecidableEq, Repr

/-- The `struct PriceUpdate`. -/
structure PriceUpdate where
  message : PriceMessage
  signatures : List OracleSignature
deriving DecidableEq, Repr

/-- Embeds `PriceUpdate::add_signature`. -/
def PriceUpdate.add_signature (u : PriceUpdate) (oracle_idx : Nat) (sig : Bytes) : PriceUpdate :=
  { u with signatures := u.signatures ++ [⟨oracle_idx, sig, u.message.timestamp⟩] }

/-- Embeds `PriceUpdate::has_quorum`. -/
def PriceUpdate.has_quorum (u : PriceUpdate) : Bool :=
  decide (u.signatures.length ≥ QUORUM_THRESHOLD)

/-- The `class QuantumSignatureVerifier`: the seven identities and the nonce counter. -/
structure QuantumSignatureVerifier where
  oracles : Fin 7 → OracleIdentity
  last_nonce : Nat

/-- Embeds `QuantumSignatureVerifier::initialize_oracles` on a fresh verifier. -/
def QuantumSignatureVerifier.initialize_oracles (pubkeys : Fin 7 → Bytes)
    (addresses : Fin 7 → String) : QuantumSignatureVerifier :=
  { oracles := fun i => ⟨i.val, pubkeys i, addresses i, true⟩, last_nonce := 0 }

/-- Embeds `QuantumSignatureVerifier::verify_oracle_signature`. -/
def QuantumSignatureVerifier.verify_oracle_signature (env : Crypto)
    (v : QuantumSignatureVerifier) (sig : OracleSignature) (msg : PriceMessage) : Bool :=
  if h : sig.oracle_index < 7 then
    if !(v.oracles ⟨sig.oracle_index, h⟩).active then false
    else
      let message_vec := msg.hash env
      env.verify_dilithium3_signature (v.oracles ⟨sig.oracle_index, h⟩).public_key
        message_vec sig.signature
  else false

/-- The `for` loop of `verify_price_update`: `seen` is `seen_oracles`, `valid`
is `valid_signatures`; the result is the final `valid_signatures`. -/
def QuantumSignatureVerifier.count_valid (env : Crypto) (v : QuantumSignatureVerifier)
    (msg : PriceMessage) : List OracleSignature → List Nat → Nat → Nat
  | [], _, valid => valid
  | sig :: rest, seen, valid =>
    if sig.oracle_index ≥ NUM_ORACLES then count_valid env v msg rest seen valid
    else if sig.oracle_index ∈ seen then count_valid env v msg rest seen valid
    else
      count_valid env v msg rest (sig.oracle_index :: seen)
        (if v.verify_oracle_signature env sig msg then valid + 1 else valid)

/-- Embeds `QuantumSignatureVerifier::verify_price_update`. -/
def QuantumSignatureVerifier.verify_price_update (env : Crypto)
    (v : QuantumSignatureVerifier) (update : PriceUpdate) : Bool :=
  if !update.has_quorum then false
  else decide (v.count_valid env update.message update.signatures [] 0 ≥ QUORUM_THRESHOLD)

/-- Embeds `QuantumSignatureVerifier::is_oracle_active`. -/
def QuantumSignatureVerifier.is_oracle_active (v : QuantumSignatureVerifier) (index : Nat) : Bool :=
  if h : index < 7 then (v.oracles ⟨index, h⟩).active else false

/-- Embeds `QuantumSignatureVerifier::deactivate_oracle`. -/
def QuantumSignatureVerifier.deactivate_oracle (v : QuantumSignatureVerifier) (index : Nat) :
    QuantumSignatureVerifier :=
  if index < NUM_ORACLES then
    { v with oracles := fun i => if i.val = index then { v.oracles i with active := false }
                                 else v.oracles i }
  else v

/-- Embeds `QuantumSignatureVerifier::activate_oracle`. -/
def QuantumSignatureVerifier.activate_oracle (v : QuantumSignatureVerifier) (index : Nat) :
    QuantumSignatureVerifier :=
  if index < NUM_ORACLES then
    { v with oracles := fun i => if i.val = index then { v.oracles i with active := true }
                                 else v.oracles i }
  else v

/-- The `class PriceValidator`. -/
structure PriceValidator where
  min_price : Nat := 1
  max_price : Nat := 100000000000000000
  max_deviation_percent : Nat := 50
  max_timestamp_skew : Nat := 600
deriving DecidableEq, Repr

/-- Embeds `PriceValidator::validate_price_bounds`. -/
def PriceValidator.validate_price_bounds (p : PriceValidator) (price : Nat) : Bool :=
  decide (price ≥ p.min_price) && decide (price ≤ p.max_price)

/-- Embeds `PriceValidator::validate_timestamp`; both sums are 64-bit. -/
def PriceValidator.validate_timestamp (p : PriceValidator) (timestamp current_time : Nat) : Bool :=
  if current_time = 0 then true
  else
    decide (timestamp ≤ (current_time + p.max_timestamp_skew) % U64) &&
      decide ((timestamp + p.max_timestamp_skew) % U64 ≥ current_time)

/-- Embeds `PriceValidator::validate_price_deviation`; the product is 64-bit. -/
def PriceValidator.validate_price_deviation (p : PriceValidator) (new_price old_price : Nat) : Bool :=
  if old_price = 0 then true
  else
    let deviation :=
      if new_price > old_price then ((new_price - old_price) * 100 % U64) / old_price
      else ((old_price - new_price) * 100 % U64) / old_price
    decide (deviation ≤ p.max_deviation_percent)

/-- Embeds `PriceValidator::validate_price_update`. -/
def PriceValidator.validate_price_update (p : PriceValidator) (msg : PriceMessage)
    (current_time previous_price : Nat) : Bool :=
  p.validate_price_bounds msg.price &&
    p.validate_timestamp msg.timestamp current_time &&
    p.validate_price_deviation msg.price previous_price

/-- Whether the first entry of `sigs` that carries index `i` verifies under
oracle `i`'s key over the digest of `msg` (false when there is no such entry). -/
def first_entry_verifies (env : Crypto) (v : QuantumSignatureVerifier) (msg : PriceMessage)
    (sigs : List OracleSignature) (i : Fin 7) : Bool :=
  match sigs.find? (fun s => s.oracle_index == i.val) with
  | some s =>
    env.verify_dilithium3_signature (v.oracles i).public_key (env.sha256 msg.serialize) s.signature
  | none => false

/-- The indices outside `seen` whose oracle is active and whose first entry in
`sigs` verifies. -/
def counted (env : Crypto) (v : QuantumSignatureVerifier) (msg : PriceMessage)
    (sigs : List OracleSignature) (seen : List Nat) : Finset (Fin 7) :=
  Finset.univ.filter (fun i : Fin 7 =>
    i.val ∉ seen ∧ (v.oracles i).active = true ∧ first_entry_verifies env v msg sigs i = true)

end qOracle

namespace qOracleConfig

/-- Constant `MIN_SWAP_AMOUNT`. -/
def MIN_SWAP_AMOUNT : Nat := 1000

/-- Constant `MAX_DAILY_VOLUME`. -/
def MAX_DAILY_VOLUME : Nat := 1000000000000000

/-- Constant `QUSD_DECIMAL_MULTIPLIER`. -/
def QUSD_DECIMAL_MULTIPLIER : Nat := 1000000000000000

/-- Constant `BKPY_TOTAL_SUPPLY = 100000 * 1000000000000000ULL`, a 64-bit product. -/
def BKPY_TOTAL_SUPPLY : Nat := (100000 * 1000000000000000) % U64

/-- Constant `QBTC_TOTAL_SUPPLY`. -/
def QBTC_TOTAL_SUPPLY : Nat := 2100000000000000

/-- Constant `EMERGENCY_PAUSE_THRESHOLD`, commented "Failed updates before pause". -/
def EMERGENCY_PAUSE_THRESHOLD : Nat := 3

/-- Constant `PRICE_UPDATE_TIMEOUT`. -/
def PRICE_UPDATE_TIMEOUT : Nat := 300

end qOracleConfig

/-- A `std::unordered_map<std::string, uint64_t>` as an association list. A key
that is absent reads as 0, which is what `operator[]` and `balanceOf` return
for it. -/
abbrev Ledger := List (String × Nat)

/-- Read `balances[a]` (0 when `a` has no entry). -/
def Ledger.get : Ledger → String → Nat
  | [], _ => 0
  | (k, v) :: rest, a => if k = a then v else Ledger.get rest a

/-- Write `balances[a] = x`. -/
def Ledger.set : Ledger → String → Nat → Ledger
  | [], a, x => [(a, x)]
  | (k, v) :: rest, a, x => if k = a then (a, x) :: rest else (k, v) :: Ledger.set rest a x

/-- Sum of all stored balances, over the integers. -/
def Ledger.sum (b : Ledger) : Nat := (b.map Prod.snd).sum

namespace RC2

open qOracle

/-- The sentinel that `burnKey` stores in `admin`. -/
def DEAD : String := "0x000000000000000000000000000000000000dead"

/-- The `class LaunchProtect`: the two flags and the admin address. -/
structure LaunchProtect where
  initialized : Bool
  burned : Bool
  admin : String
deriving DecidableEq, Repr

/-- Constructor `LaunchProtect(admin_address, log)`. -/
def LaunchProtect.new (admin_address : String) : LaunchProtect :=
  { initialized := false, burned := false, admin := admin_address }

/-- Embeds `LaunchProtect::requireActive`. -/
def LaunchProtect.requireActive (lp : LaunchProtect) (sender : String) : Outcome Unit :=
  if !lp.initialized && sender != lp.admin then .threw "Contract not initialized"
  else if lp.burned then .threw "Admin key burned - contract immutable"
  else .returned ()

/-- Embeds `LaunchProtect::requireAdmin`. -/
def LaunchProtect.requireAdmin (lp : LaunchProtect) (sender : String) : Outcome Unit :=
  if sender != lp.admin then .threw "Admin access required"
  else if lp.burned then .threw "Admin key burned - contract immutable"
  else .returned ()

/-- Embeds `LaunchProtect::finalizeLaunch`. -/
def LaunchProtect.finalizeLaunch (lp : LaunchProtect) (sender : String) :
    Outcome Unit × LaunchProtect :=
  match lp.requireAdmin sender with
  | .threw msg => (.threw msg, lp)
  | .returned _ => (.returned (), { lp with initialized := true })

/-- Embeds `LaunchProtect::burnKey`. -/
def LaunchProtect.burnKey (lp : LaunchProtect) (sender : String) :
    Outcome Unit × LaunchProtect :=
  match lp.requireAdmin sender with
  | .threw msg => (.threw msg, lp)
  | .returned _ => (.returned (), { lp with burned := true, admin := DEAD })

/-- Embeds `LaunchProtect::isInitialized`. -/
def LaunchProtect.isInitialized (lp : LaunchProtect) : Bool := lp.initialized

/-- Embeds `LaunchProtect::isKeyBurned`. -/
def LaunchProtect.isKeyBurned (lp : LaunchProtect) : Bool := lp.burned

/-- Embeds `LaunchProtect::adminAddress`. -/
def LaunchProtect.adminAddress (lp : LaunchProtect) : String := lp.admin

/-- The `struct QOracleCommittee::OraclePerformance`. -/
structure OraclePerformance where
  successful_updates : Nat := 0
  failed_updates : Nat := 0
  last_update_time : Nat := 0
  active : Bool := true
deriving DecidableEq, Repr

/-- The `class QOracleCommittee : public LaunchProtect`. -/
structure QOracleCommittee extends LaunchProtect where
  verifier : QuantumSignatureVerifier
  validator : PriceValidator
  last_price : PriceMessage
  price_history : List PriceMessage
  failed_updates : Nat
  emergency_paused : Bool
  max_history : Nat
  oracle_performance : Fin 7 → OraclePerformance

/-- Constructor of `QOracleCommittee`; the asset of the initial price is "BTC". -/
def QOracleCommittee.new (admin : String) (oracle_keys : Fin 7 → Bytes)
    (oracle_addresses : Fin 7 → String) : QOracleCommittee :=
  { toLaunchProtect := LaunchProtect.new admin
    verifier := QuantumSignatureVerifier.initialize_oracles oracle_keys oracle_addresses
    validator := {}
    last_price := ⟨0, 0, 15, 0, [66, 84, 67]⟩
    price_history := []
    failed_updates := 0
    emergency_paused := false
    max_history := 1024
    oracle_performance := fun _ => {} }

/-- The loop "Update oracle performance" of `submit_price_update`. -/
def update_oracle_performance (ts : Nat) :
    List OracleSignature → (Fin 7 → OraclePerformance) → (Fin 7 → OraclePerformance)
  | [], perf => perf
  | sig :: rest, perf =>
    if sig.oracle_index < NUM_ORACLES then
      update_oracle_performance ts rest (fun i =>
        if i.val = sig.oracle_index then
          { perf i with successful_updates := ((perf i).successful_updates + 1) % U64
                        last_update_time := ts }
        else perf i)
    else update_oracle_performance ts rest perf

/-- Embeds `QOracleCommittee::submit_price_update`, called at clock time `now`. -/
def QOracleCommittee.submit_price_update (env : Crypto) (c : QOracleCommittee) (now : Nat)
    (update : PriceUpdate) : Outcome Bool × QOracleCommittee :=
  match c.requireActive "oracle_committee" with
  | .threw msg => (.threw msg, c)
  | .returned _ =>
    if c.emergency_paused then (.returned false, c)
    else if !c.validator.validate_price_update update.message now c.last_price.price then
      (.returned false, { c with failed_updates := (c.failed_updates + 1) % U64 })
    else if !c.verifier.verify_price_update env update then
      (.returned false, { c with failed_updates := (c.failed_updates + 1) % U64 })
    else
      let pushed := c.price_history ++ [update.message]
      let history := if pushed.length > c.max_history then pushed.tail else pushed
      (.returned true,
        { c with last_price := update.message
                 price_history := history
                 oracle_performance :=
                   update_oracle_performance update.message.timestamp update.signatures
                     c.oracle_performance
                 failed_updates := 0 })

/-- Embeds `QOracleCommittee::get_current_price`. -/
def QOracleCommittee.get_current_price (c : QOracleCommittee) : PriceMessage := c.last_price

/-- Embeds `QOracleCommittee::emergency_pause`. -/
def QOracleCommittee.emergency_pause (c : QOracleCommittee) (sender : String) :
    Outcome Bool × QOracleCommittee :=
  match c.requireAdmin sender with
  | .threw msg => (.threw msg, c)
  | .returned _ => (.returned true, { c with emergency_paused := true })

/-- Embeds `QOracleCommittee::resume_operations`. -/
def QOracleCommittee.resume_operations (c : QOracleCommittee) (sender : String) :
    Outcome Bool × QOracleCommittee :=
  match c.requireAdmin sender with
  | .threw msg => (.threw msg, c)
  | .returned _ => (.returned true, { c with emergency_paused := false })

/-- Embeds `QOracleCommittee::is_emergency_paused`. -/
def QOracleCommittee.is_emergency_paused (c : QOracleCommittee) : Bool := c.emergency_paused

/-- Embeds `QOracleCommittee::get_failed_updates`. -/
def QOracleCommittee.get_failed_updates (c : QOracleCommittee) : Nat := c.failed_updates

/-- The inherited `finalizeLaunch`, called on the committee. -/
def QOracleCommittee.finalizeLaunch (c : QOracleCommittee) (sender : String) :
    Outcome Unit × QOracleCommittee :=
  ((c.toLaunchProtect.finalizeLaunch sender).1,
    { c with toLaunchProtect := (c.toLaunchProtect.finalizeLaunch sender).2 })

/-- The inherited `burnKey`, called on the committee. -/
def QOracleCommittee.burnKey (c : QOracleCommittee) (sender : String) :
    Outcome Unit × QOracleCommittee :=
  ((c.toLaunchProtect.burnKey sender).1,
    { c with toLaunchProtect := (c.toLaunchProtect.burnKey sender).2 })

/-- The `class BankonPythaiToken : public LaunchProtect`. -/
structure BankonPythaiToken extends LaunchProtect where
  balances : Ledger
  minted : Bool
deriving DecidableEq, Repr

/-- Constructor of `BankonPythaiToken`. -/
def BankonPythaiToken.new (deployer : String) : BankonPythaiToken :=
  { toLaunchProtect := LaunchProtect.new deployer, balances := [], minted := false }

/-- Embeds `BankonPythaiToken::mint_initial_supply`. -/
def BankonPythaiToken.mint_initial_supply (t : BankonPythaiToken) (sender : String) :
    Outcome Bool × BankonPythaiToken :=
  match t.requireAdmin sender with
  | .threw msg => (.threw msg, t)
  | .returned _ =>
    if t.minted then (.returned false, t)
    else
      (.returned true,
        { t with balances := t.balances.set sender qOracleConfig.BKPY_TOTAL_SUPPLY
                 minted := true })

/-- Embeds `BankonPythaiToken::transfer`. -/
def BankonPythaiToken.transfer (t : BankonPythaiToken) (sender to_addr : String) (amount : Nat) :
    Outcome Bool × BankonPythaiToken :=
  match t.requireActive sender with
  | .threw msg => (.threw msg, t)
  | .returned _ =>
    if amount = 0 then (.returned false, t)
    else if t.balances.get sender < amount then (.returned false, t)
    else
      let debited := t.balances.set sender (t.balances.get sender - amount)
      let credited := debited.set to_addr ((debited.get to_addr + amount) % U64)
      (.returned true, { t with balances := credited })

/-- Embeds `BankonPythaiToken::burn`. -/
def BankonPythaiToken.burn (t : BankonPythaiToken) (sender : String) (amount : Nat) :
    Outcome Bool × BankonPythaiToken :=
  match t.requireActive sender with
  | .threw msg => (.threw msg, t)
  | .returned _ =>
    if amount = 0 then (.returned false, t)
    else if t.balances.get sender < amount then (.returned false, t)
    else
      (.returned true,
        { t with balances := t.balances.set sender (t.balances.get sender - amount) })

/-- Embeds `BankonPythaiToken::balanceOf`. -/
def BankonPythaiToken.balanceOf (t : BankonPythaiToken) (addr : String) : Nat :=
  t.balances.get addr

/-- Embeds `BankonPythaiToken::totalSupply`. -/
def BankonPythaiToken.totalSupply (_t : BankonPythaiToken) : Nat :=
  qOracleConfig.BKPY_TOTAL_SUPPLY

/-- The inherited `finalizeLaunch`, called on the token. -/
def BankonPythaiToken.finalizeLaunch (t : BankonPythaiToken) (sender : String) :
    Outcome Unit × BankonPythaiToken :=
  ((t.toLaunchProtect.finalizeLaunch sender).1,
    { t with toLaunchProtect := (t.toLaunchProtect.finalizeLaunch sender).2 })

/-- The inherited `burnKey`, called on the token. -/
def BankonPythaiToken.burnKey (t : BankonPythaiToken) (sender : String) :
    Outcome Unit × BankonPythaiToken :=
  ((t.toLaunchProtect.burnKey sender).1,
    { t with toLaunchProtect := (t.toLaunchProtect.burnKey sender).2 })

/-- The `class QBTCSynthetic : public LaunchProtect`. The member `oracle` is a
reference to the committee; the functions that use it take the committee as an
argument and only read it. -/
structure QBTCSynthetic extends LaunchProtect where
  balances : Ledger
  total_supply : Nat
deriving DecidableEq, Repr

/-- Constructor of `QBTCSynthetic`. -/
def QBTCSynthetic.new (deployer : String) : QBTCSynthetic :=
  { toLaunchProtect := LaunchProtect.new deployer, balances := [], total_supply := 0 }

/-- Embeds `QBTCSynthetic::mint`. The committee is read through `is_emergency_paused`
and `get_current_price`; no member function that changes it is called. -/
def QBTCSynthetic.mint (q : QBTCSynthetic) (oracle : QOracleCommittee) (user : String)
    (btc_sats : Nat) (price_update : PriceUpdate) : Outcome Bool × QBTCSynthetic :=
  match q.requireActive user with
  | .threw msg => (.threw msg, q)
  | .returned _ =>
    if oracle.is_emergency_paused then (.returned false, q)
    else if btc_sats = 0 then (.returned false, q)
    else
      let current_price := oracle.get_current_price
      if price_update.message.timestamp <
          (current_price.timestamp + U64 - qOracleConfig.PRICE_UPDATE_TIMEOUT) % U64 then
        (.returned false, q)
      else
        (.returned true,
          { q with balances := q.balances.set user ((q.balances.get user + btc_sats) % U64)
                   total_supply := (q.total_supply + btc_sats) % U64 })

/-- Embeds `QBTCSynthetic::burn`. -/
def QBTCSynthetic.burn (q : QBTCSynthetic) (user : String) (amount : Nat) :
    Outcome Bool × QBTCSynthetic :=
  match q.requireActive user with
  | .threw msg => (.threw msg, q)
  | .returned _ =>
    if amount = 0 then (.returned false, q)
    else if q.balances.get user < amount then (.returned false, q)
    else
      (.returned true,
        { q with balances := q.balances.set user (q.balances.get user - amount)
                 total_supply := (q.total_supply + U64 - amount) % U64 })

/-- Embeds `QBTCSynthetic::transfer`. -/
def QBTCSynthetic.transfer (q : QBTCSynthetic) (sender to_addr : String) (amount : Nat) :
    Outcome Bool × QBTCSynthetic :=
  match q.requireActive sender with
  | .threw msg => (.threw msg, q)
  | .returned _ =>
    if amount = 0 then (.returned false, q)
    else if q.balances.get sender < amount then (.returned false, q)
    else
      let debited := q.balances.set sender (q.balances.get sender - amount)
      let credited := debited.set to_addr ((debited.get to_addr + amount) % U64)
      (.returned true, { q with balances := credited })

/-- Embeds `QBTCSynthetic::balanceOf`. -/
def QBTCSynthetic.balanceOf (q : QBTCSynthetic) (addr : String) : Nat := q.balances.get addr

/-- Embeds `QBTCSynthetic::totalSupply`. -/
def QBTCSynthetic.totalSupply (q : QBTCSynthetic) : Nat := q.total_supply

/-- The inherited `finalizeLaunch`, called on the qBTC ledger. -/
def QBTCSynthetic.finalizeLaunch (q : QBTCSynthetic) (sender : String) :
    Outcome Unit × QBTCSynthetic :=
  ((q.toLaunchProtect.finalizeLaunch sender).1,
    { q with toLaunchProtect := (q.toLaunchProtect.finalizeLaunch sender).2 })

/-- The inherited `burnKey`, called on the qBTC ledger. -/
def QBTCSynthetic.burnKey (q : QBTCSynthetic) (sender : String) :
    Outcome Unit × QBTCSynthetic :=
  ((q.toLaunchProtect.burnKey sender).1,
    { q with toLaunchProtect := (q.toLaunchProtect.burnKey sender).2 })

/-- The `class QUSDStablecoin : public LaunchProtect`. -/
structure QUSDStablecoin extends LaunchProtect where
  balances : Ledger
  total_supply : Nat
  bridge_authority : String
deriving DecidableEq, Repr

/-- Constructor of `QUSDStablecoin`. -/
def QUSDStablecoin.new (deployer bridge_auth : String) : QUSDStablecoin :=
  { toLaunchProtect := LaunchProtect.new deployer, balances := [], total_supply := 0
    bridge_authority := bridge_auth }

/-- Embeds `QUSDStablecoin::mint`. -/
def QUSDStablecoin.mint (q : QUSDStablecoin) (sender to_addr : String) (amount : Nat) :
    Outcome Bool × QUSDStablecoin :=
  match q.requireActive sender with
  | .threw msg => (.threw msg, q)
  | .returned _ =>
    if sender != q.bridge_authority then (.returned false, q)
    else if amount = 0 then (.returned false, q)
    else
      (.returned true,
        { q with balances := q.balances.set to_addr ((q.balances.get to_addr + amount) % U64)
                 total_supply := (q.total_supply + amount) % U64 })

/-- Embeds `QUSDStablecoin::burn`. -/
def QUSDStablecoin.burn (q : QUSDStablecoin) (sender from_addr : String) (amount : Nat) :
    Outcome Bool × QUSDStablecoin :=
  match q.requireActive sender with
  | .threw msg => (.threw msg, q)
  | .returned _ =>
    if sender != q.bridge_authority then (.returned false, q)
    else if amount = 0 then (.returned false, q)
    else if q.balances.get from_addr < amount then (.returned false, q)
    else
      (.returned true,
        { q with balances := q.balances.set from_addr (q.balances.get from_addr - amount)
                 total_supply := (q.total_supply + U64 - amount) % U64 })

/-- Embeds `QUSDStablecoin::transfer`. -/
def QUSDStablecoin.transfer (q : QUSDStablecoin) (sender to_addr : String) (amount : Nat) :
    Outcome Bool × QUSDStablecoin :=
  match q.requireActive sender with
  | .threw msg => (.threw msg, q)
  | .returned _ =>
    if amount = 0 then (.returned false, q)
    else if q.balances.get sender < amount then (.returned false, q)
    else
      let debited := q.balances.set sender (q.balances.get sender - amount)
      let credited := debited.set to_addr ((debited.get to_addr + amount) % U64)
      (.returned true, { q with balances := credited })

/-- Embeds `QUSDStablecoin::balanceOf`. -/
def QUSDStablecoin.balanceOf (q : QUSDStablecoin) (addr : String) : Nat := q.balances.get addr

/-- Embeds `QUSDStablecoin::totalSupply`. -/
def QUSDStablecoin.totalSupply (q : QUSDStablecoin) : Nat := q.total_supply

/-- The `class CrossChainBridge : public LaunchProtect`. The members `oracle`,
`qbtc` and `qusd` are references; the swap functions take the committee and the
qBTC ledger as arguments and return the qBTC ledger they leave behind. -/
structure CrossChainBridge extends LaunchProtect where
  bridge_balances : Ledger
  daily_volume : Nat
  last_volume_reset : Nat
deriving DecidableEq, Repr

/-- Constructor of `CrossChainBridge`. -/
def CrossChainBridge.new (deployer : String) : CrossChainBridge :=
  { toLaunchProtect := LaunchProtect.new deployer, bridge_balances := [], daily_volume := 0
    last_volume_reset := 0 }

/-- Embeds `CrossChainBridge::reset_daily_volume_if_needed` at clock time `now`. -/
def CrossChainBridge.reset_daily_volume_if_needed (b : CrossChainBridge) (now : Nat) :
    CrossChainBridge :=
  if (now + U64 - b.last_volume_reset) % U64 ≥ 86400 then
    { b with daily_volume := 0, last_volume_reset := now }
  else b

/-- Embeds `CrossChainBridge::swap_stx_for_qbtc` at clock time `now`. -/
def CrossChainBridge.swap_stx_for_qbtc (b : CrossChainBridge) (oracle : QOracleCommittee)
    (qbtc : QBTCSynthetic) (now : Nat) (user : String) (stx_amount : Nat)
    (price_update : PriceUpdate) : Outcome Bool × CrossChainBridge × QBTCSynthetic :=
  match b.requireActive user with
  | .threw msg => (.threw msg, b, qbtc)
  | .returned _ =>
    if oracle.is_emergency_paused then (.returned false, b, qbtc)
    else if stx_amount < qOracleConfig.MIN_SWAP_AMOUNT then (.returned false, b, qbtc)
    else
      let b1 := b.reset_daily_volume_if_needed now
      if (b1.daily_volume + stx_amount) % U64 > qOracleConfig.MAX_DAILY_VOLUME then
        (.returned false, b1, qbtc)
      else
        let qbtc_amount :=
          (stx_amount * price_update.message.price) % U64 / qOracleConfig.QUSD_DECIMAL_MULTIPLIER
        let b2 : CrossChainBridge :=
          { b1 with bridge_balances :=
                      b1.bridge_balances.set user ((b1.bridge_balances.get user + stx_amount) % U64)
                    daily_volume := (b1.daily_volume + stx_amount) % U64 }
        match qbtc.mint oracle user qbtc_amount price_update with
        | (.threw msg, q1) => (.threw msg, b2, q1)
        | (.returned false, q1) => (.returned false, b2, q1)
        | (.returned true, q1) => (.returned true, b2, q1)

/-- Embeds `CrossChainBridge::swap_qbtc_for_stx` at clock time `now`. -/
def CrossChainBridge.swap_qbtc_for_stx (b : CrossChainBridge) (oracle : QOracleCommittee)
    (qbtc : QBTCSynthetic) (now : Nat) (user : String) (qbtc_amount : Nat)
    (price_update : PriceUpdate) : Outcome Bool × CrossChainBridge × QBTCSynthetic :=
  match b.requireActive user with
  | .threw msg => (.threw msg, b, qbtc)
  | .returned _ =>
    if oracle.is_emergency_paused then (.returned false, b, qbtc)
    else if qbtc_amount < qOracleConfig.MIN_SWAP_AMOUNT then (.returned false, b, qbtc)
    else
      let stx_amount :=
        (qbtc_amount * price_update.message.price) % U64 / qOracleConfig.QUSD_DECIMAL_MULTIPLIER
      let b1 := b.reset_daily_volume_if_needed now
      if (b1.daily_volume + stx_amount) % U64 > qOracleConfig.MAX_DAILY_VOLUME then
        (.returned false, b1, qbtc)
      else
        match qbtc.burn user qbtc_amount with
        | (.threw msg, q1) => (.threw msg, b1, q1)
        | (.returned false, q1) => (.returned false, b1, q1)
        | (.returned true, q1) =>
          (.returned true,
            { b1 with bridge_balances :=
                        b1.bridge_balances.set user ((b1.bridge_balances.get user + stx_amount) % U64)
                      daily_volume := (b1.daily_volume + stx_amount) % U64 },
            q1)

/-- Embeds `CrossChainBridge::getBridgeBalance`. -/
def CrossChainBridge.getBridgeBalance (b : CrossChainBridge) (user : String) : Nat :=
  b.bridge_balances.get user

/-- Embeds `CrossChainBridge::getDailyVolume`. -/
def CrossChainBridge.getDailyVolume (b : CrossChainBridge) : Nat := b.daily_volume

/-- The inherited `finalizeLaunch`, called on the bridge. -/
def CrossChainBridge.finalizeLaunch (b : CrossChainBridge) (sender : String) :
    Outcome Unit × CrossChainBridge :=
  ((b.toLaunchProtect.finalizeLaunch sender).1,
    { b with toLaunchProtect := (b.toLaunchProtect.finalizeLaunch sender).2 })

/-- The inherited `burnKey`, called on the bridge. -/
def CrossChainBridge.burnKey (b : CrossChainBridge) (sender : String) :
    Outcome Unit × CrossChainBridge :=
  ((b.toLaunchProtect.burnKey sender).1,
    { b with toLaunchProtect := (b.toLaunchProtect.burnKey sender).2 })

/-- The `struct Proposal`. The field `to` is `to_addr`; the `std::set<std::string>`
of signatures is a duplicate-free list, of which the code reads only the size. -/
structure Proposal where
  to_addr : String
  value : Nat
  data : String
  nonce : Nat
  executed : Bool
  signatures : List String
  action : String
  parameter : String
  created_time : Nat
  execution_delay : Nat
deriving DecidableEq, Repr

/-- Embeds `std::set::insert` on the signature set. -/
def set_insert (s : List String) (x : String) : List String :=
  if x ∈ s then s else s ++ [x]

/-- Embeds `proposals.find(nonce)` on the `std::unordered_map<uint64_t, Proposal>`. -/
def proposals_find : List (Nat × Proposal) → Nat → Option Proposal
  | [], _ => none
  | (k, p) :: rest, n => if k = n then some p else proposals_find rest n

/-- Embeds `proposals[nonce] = prop`. -/
def proposals_put : List (Nat × Proposal) → Nat → Proposal → List (Nat × Proposal)
  | [], n, q => [(n, q)]
  | (k, p) :: rest, n, q => if k = n then (n, q) :: rest else (k, p) :: proposals_put rest n q

/-- The `class QnosisMultisig : public LaunchProtect`. -/
structure QnosisMultisig extends LaunchProtect where
  owners : List String
  threshold : Nat
  proposal_nonce : Nat
  proposals : List (Nat × Proposal)
deriving DecidableEq, Repr

/-- Constructor of `QnosisMultisig`. -/
def QnosisMultisig.new (deployer : String) (initial_owners : List String) (thresh : Nat) :
    QnosisMultisig :=
  { toLaunchProtect := LaunchProtect.new deployer, owners := initial_owners, threshold := thresh
    proposal_nonce := 1, proposals := [] }

/-- Embeds `QnosisMultisig::propose` at clock time `now`. -/
def QnosisMultisig.propose (g : QnosisMultisig) (now : Nat) (proposer to_addr : String)
    (value : Nat) (data action parameter : String) : Outcome Nat × QnosisMultisig :=
  match g.requireActive proposer with
  | .threw msg => (.threw msg, g)
  | .returned _ =>
    if proposer ∉ g.owners then (.returned 0, g)
    else
      let nonce := g.proposal_nonce
      let prop : Proposal :=
        ⟨to_addr, value, data, nonce, false, [], action, parameter, now, 86400⟩
      (.returned nonce,
        { g with proposal_nonce := (g.proposal_nonce + 1) % U64
                 proposals := proposals_put g.proposals nonce prop })

/-- Embeds `QnosisMultisig::sign`. -/
def QnosisMultisig.sign (g : QnosisMultisig) (nonce : Nat) (signer : String) :
    Outcome Unit × QnosisMultisig :=
  match g.requireActive signer with
  | .threw msg => (.threw msg, g)
  | .returned _ =>
    if signer ∉ g.owners then (.returned (), g)
    else
      match proposals_find g.proposals nonce with
      | none => (.returned (), g)
      | some p =>
        if p.executed then (.returned (), g)
        else
          (.returned (),
            { g with proposals :=
                       proposals_put g.proposals nonce
                         { p with signatures := set_insert p.signatures signer } })

/-- Embeds `QnosisMultisig::execute` at clock time `now`. -/
def QnosisMultisig.execute (g : QnosisMultisig) (now : Nat) (nonce : Nat) :
    Outcome Unit × QnosisMultisig :=
  match proposals_find g.proposals nonce with
  | none => (.returned (), g)
  | some p =>
    if p.executed then (.returned (), g)
    else if p.signatures.length < g.threshold then (.returned (), g)
    else if now < (p.created_time + p.execution_delay) % U64 then (.returned (), g)
    else
      (.returned (),
        { g with proposals := proposals_put g.proposals nonce { p with executed := true } })

/-- Embeds `QnosisMultisig::getOwners`. -/
def QnosisMultisig.getOwners (g : QnosisMultisig) : List String := g.owners

/-- Embeds `QnosisMultisig::getThreshold`. -/
def QnosisMultisig.getThreshold (g : QnosisMultisig) : Nat := g.threshold

/-- Embeds `QnosisMultisig::isExecuted`. -/
def QnosisMultisig.isExecuted (g : QnosisMultisig) (nonce : Nat) : Bool :=
  match proposals_find g.proposals nonce with
  | some p => p.executed
  | none => false

/-- The inherited `finalizeLaunch`, called on the multisig. -/
def QnosisMultisig.finalizeLaunch (g : QnosisMultisig) (sender : String) :
    Outcome Unit × QnosisMultisig :=
  ((g.toLaunchProtect.finalizeLaunch sender).1,
    { g with toLaunchProtect := (g.toLaunchProtect.finalizeLaunch sender).2 })

/-- The inherited `burnKey`, called on the multisig. -/
def QnosisMultisig.burnKey (g : QnosisMultisig) (sender : String) :
    Outcome Unit × QnosisMultisig :=
  ((g.toLaunchProtect.burnKey sender).1,
    { g with toLaunchProtect := (g.toLaunchProtect.burnKey sender).2 })

/-- A call on a bare `LaunchProtect`. -/
inductive LaunchProtect.Call where
  | finalizeLaunch (sender : String)
  | burnKey (sender : String)
deriving DecidableEq, Repr

/-- State after one call; a call that throws leaves the state as it was. -/
def LaunchProtect.step (lp : LaunchProtect) : LaunchProtect.Call → LaunchProtect
  | .finalizeLaunch sender => (lp.finalizeLaunch sender).2
  | .burnKey sender => (lp.burnKey sender).2

/-- State after a sequence of calls, first call first. -/
def LaunchProtect.run (lp : LaunchProtect) (calls : List LaunchProtect.Call) : LaunchProtect :=
  calls.foldl LaunchProtect.step lp

/-- A call on the committee, with the clock value it reads. -/
inductive QOracleCommittee.Call where
  | submit_price_update (now : Nat) (update : PriceUpdate)
  | emergency_pause (sender : String)
  | resume_operations (sender : String)
  | finalizeLaunch (sender : String)
  | burnKey (sender : String)

/-- Committee state after one call. -/
def QOracleCommittee.step (env : Crypto) (c : QOracleCommittee) :
    QOracleCommittee.Call → QOracleCommittee
  | .submit_price_update now update => (c.submit_price_update env now update).2
  | .emergency_pause sender => (c.emergency_pause sender).2
  | .resume_operations sender => (c.resume_operations sender).2
  | .finalizeLaunch sender => (c.finalizeLaunch sender).2
  | .burnKey sender => (c.burnKey sender).2

/-- Committee state after a sequence of calls. -/
def QOracleCommittee.run (env : Crypto) (c : QOracleCommittee)
    (calls : List QOracleCommittee.Call) : QOracleCommittee :=
  calls.foldl (QOracleCommittee.step env) c

/-- A call on the BKPY token. -/
inductive BankonPythaiToken.Call where
  | mint_initial_supply (sender : String)
  | transfer (sender to_addr : String) (amount : Nat)
  | burn (sender : String) (amount : Nat)
  | finalizeLaunch (sender : String)
  | burnKey (sender : String)
deriving DecidableEq, Repr

/-- Token state after one call. -/
def BankonPythaiToken.step (t : BankonPythaiToken) : BankonPythaiToken.Call → BankonPythaiToken
  | .mint_initial_supply sender => (t.mint_initial_supply sender).2
  | .transfer sender to_addr amount => (t.transfer sender to_addr amount).2
  | .burn sender amount => (t.burn sender amount).2
  | .finalizeLaunch sender => (t.finalizeLaunch sender).2
  | .burnKey sender => (t.burnKey sender).2

/-- Token state after a sequence of calls. -/
def BankonPythaiToken.run (t : BankonPythaiToken) (calls : List BankonPythaiToken.Call) :
    BankonPythaiToken :=
  calls.foldl BankonPythaiToken.step t

/-- Token states that arise from the constructor by a sequence of calls. -/
def BankonPythaiToken.Reachable (t : BankonPythaiToken) : Prop :=
  ∃ (deployer : String) (calls : List BankonPythaiToken.Call),
    t = (BankonPythaiToken.new deployer).run calls

end RC2

/-! ## Test fixtures

A deterministic stub for the two cryptographic functions and the states of the
end-to-end scenarios. The stub digest is the identity and a signature is valid
exactly when it equals the signer's public key. -/

namespace Fixture

open qOracle RC2

/-- Stub verifier: the signature of oracle `i` is its public key. -/
def stub : Crypto := ⟨fun data => data, fun pubkey _ signature => signature == pubkey⟩

/-- Public key of oracle `i`: the single byte `i + 1`. -/
def keys : Fin 7 → Bytes := fun i => [i.val + 1]

/-- Address of oracle `i`. -/
def addrs : Fin 7 → String := fun i => "ST" ++ toString (i.val + 1) ++ "ORACLE"

/-- Valid signature of oracle `i` at signing time `ts`. -/
def good (i ts : Nat) : OracleSignature := ⟨i, [i + 1], ts⟩

/-- An invalid signature carrying index `i`. -/
def bad (i ts : Nat) : OracleSignature := ⟨i, [0], ts⟩

/-- Message of scenario 1: price 50_000_000 at 1_700_000_000 for "BTC". -/
def msg1 : PriceMessage := ⟨50000000, 1700000000, 15, 1, [66, 84, 67]⟩

/-- Envelope of scenario 1: oracles 0..3 valid, oracle 4 invalid. -/
def upd1 : PriceUpdate :=
  ⟨msg1, [good 0 1700000000, good 1 1700000000, good 2 1700000000, good 3 1700000000,
          bad 4 1700000000]⟩

/-- A message 100 s later at a price within the deviation band. -/
def msg2 : PriceMessage := ⟨50000001, 1700000100, 15, 2, [66, 84, 67]⟩

/-- Scenario 3: `msg2` with only three valid signatures. -/
def upd_short : PriceUpdate :=
  ⟨msg2, [good 0 1700000100, good 1 1700000100, good 2 1700000100, bad 3 1700000100]⟩

/-- A well-formed envelope for `msg2`: four valid signatures. -/
def upd2 : PriceUpdate :=
  ⟨msg2, [good 0 1700000100, good 1 1700000100, good 2 1700000100, good 3 1700000100]⟩

/-- An envelope for `msg2` without any signature. -/
def upd_unsigned : PriceUpdate := ⟨msg2, []⟩

/-- An envelope whose first entry for oracle 0 is invalid and whose second
entry for oracle 0 is valid, next to valid entries of oracles 1, 2, 3. -/
def upd_dup : PriceUpdate :=
  ⟨msg1, [bad 0 1700000000, good 0 1700000000, good 1 1700000000, good 2 1700000000,
          good 3 1700000000]⟩

/-- Committee after construction. -/
def c0 : QOracleCommittee := QOracleCommittee.new "admin" keys addrs

/-- Committee after `finalizeLaunch(admin)`. -/
def c1 : QOracleCommittee := (c0.finalizeLaunch "admin").2

/-- Committee after accepting `upd1` at clock time 1_700_000_000. -/
def c2 : QOracleCommittee := (c1.submit_price_update stub 1700000000 upd1).2

/-- Committee after one submission of `upd_short` at clock time 1_700_000_100. -/
def c3 : QOracleCommittee := (c2.submit_price_update stub 1700000100 upd_short).2

/-- Committee after a second submission of `upd_short`. -/
def c4 : QOracleCommittee := (c3.submit_price_update stub 1700000100 upd_short).2

/-- Committee after a third submission of `upd_short`. -/
def c5 : QOracleCommittee := (c4.submit_price_update stub 1700000100 upd_short).2

/-- The qBTC ledger after `finalizeLaunch(admin)`. -/
def q1 : QBTCSynthetic := ((QBTCSynthetic.new "admin").finalizeLaunch "admin").2

/-- The qBTC ledger after `mint("alice", 100_000_000, upd_unsigned)` against `c2`. -/
def q2 : QBTCSynthetic := (q1.mint c2 "alice" 100000000 upd_unsigned).2

/-- The bridge after `finalizeLaunch(admin)`. -/
def b1 : CrossChainBridge := ((CrossChainBridge.new "admin").finalizeLaunch "admin").2

/-- BKPY token: minted, launched, 100 units moved to alice, then key burned. -/
def t_burned : BankonPythaiToken :=
  (BankonPythaiToken.new "admin").run
    [.mint_initial_supply "admin", .finalizeLaunch "admin", .transfer "admin" "alice" 100,
     .burnKey "admin"]

/-- The same token before the key burn. -/
def t_active : BankonPythaiToken :=
  (BankonPythaiToken.new "admin").run
    [.mint_initial_supply "admin", .finalizeLaunch "admin", .transfer "admin" "alice" 100]

/-- Multisig with owners admin, o1, o2 and threshold 3, launched, with proposal
1 created at time 1000 and signed by the three owners. -/
def g_signed : QnosisMultisig :=
  let g := (QnosisMultisig.new "admin" ["admin", "o1", "o2"] 3).finalizeLaunch "admin" |>.2
  let g := (g.propose 1000 "admin" "target" 0 "" "generic" "").2
  let g := (g.sign 1 "admin").2
  let g := (g.sign 1 "o1").2
  (g.sign 1 "o2").2

/-- The multisig `g_signed` after `burnKey(admin)`. -/
def g_burned : QnosisMultisig := (g_signed.burnKey "admin").2

end Fixture

/-! ## Further definitions: serialization format, activation, reachable committees -/

namespace qOracle

/-- The 8-byte big-endian encoding as the message format words it: byte `j`
is `(x >> 8 * (7 - j)) & 0xFF`. -/
def BE64 (x : Nat) : Bytes :=
  (List.range 8).map (fun j => (x >>> (8 * (7 - j))) &&& 0xFF)

/-- The value ranges of the C++ fields of a `PriceMessage`: three `uint64_t`,
one `uint8_t` and a string of bytes. -/
def PriceMessage.wf (m : PriceMessage) : Prop :=
  m.price < U64 ∧ m.timestamp < U64 ∧ m.decimals < 256 ∧ m.nonce < U64 ∧ ∀ b ∈ m.asset, b < 256

instance (m : PriceMessage) : Decidable m.wf := by
  unfold PriceMessage.wf
  infer_instance

/-- Embeds `QuantumSignatureVerifier::active_oracle_count`. -/
def QuantumSignatureVerifier.active_oracle_count (v : QuantumSignatureVerifier) : Nat :=
  ((List.finRange 7).filter (fun i => (v.oracles i).active)).length

/-- Embeds `QuantumSignatureVerifier::has_sufficient_quorum`. -/
def QuantumSignatureVerifier.has_sufficient_quorum (v : QuantumSignatureVerifier) : Bool :=
  decide (v.active_oracle_count ≥ QUORUM_THRESHOLD)

end qOracle

namespace RC2

open qOracle

/-- Whether a token call is `burnKey`. -/
def BankonPythaiToken.Call.isBurnKey : BankonPythaiToken.Call → Bool
  | .burnKey _ => true
  | _ => false

/-- Committee states that arise from the constructor by a sequence of calls. -/
def QOracleCommittee.Reachable (env : Crypto) (c : QOracleCommittee) : Prop :=
  ∃ (admin : String) (oracle_keys : Fin 7 → Bytes) (oracle_addresses : Fin 7 → String)
    (calls : List QOracleCommittee.Call),
    c = (QOracleCommittee.new admin oracle_keys oracle_addresses).run env calls

end RC2

namespace Fixture

open qOracle RC2

/-- Committee paused by the admin before `finalizeLaunch`. -/
def c_paused_early : QOracleCommittee := (c0.emergency_pause "admin").2

/-- Committee `c2` after `emergency_pause(admin)`. -/
def c_paused : QOracleCommittee := (c2.emergency_pause "admin").2

/-- The verifier of `c1` with oracles 0, 1, 2 and 3 deactivated. -/
def v_three_active : QuantumSignatureVerifier :=
  (((c1.verifier.deactivate_oracle 0).deactivate_oracle 1).deactivate_oracle 2).deactivate_oracle 3

/-- A message for the asset "BTC". -/
def msg_btc : PriceMessage := ⟨50000000, 1700000000, 15, 1, [66, 84, 67]⟩

/-- The same message for the asset "BTC " (with a trailing blank). -/
def msg_btc_blank : PriceMessage := ⟨50000000, 1700000000, 15, 1, [66, 84, 67, 32]⟩

end Fixture

/-! ## Further definitions: call sequences on the ledgers, swap fixtures -/

namespace RC2

open qOracle

/-- The amounts of the successful `burn` calls of a call sequence run from `t`, summed. -/
def BankonPythaiToken.burned_in : BankonPythaiToken → List BankonPythaiToken.Call → Nat
  | _, [] => 0
  | t, call :: rest =>
    (match call with
      | .burn sender amount => if (t.burn sender amount).1 = .returned true then amount else 0
      | _ => 0) + BankonPythaiToken.burned_in (t.step call) rest

/-- The inherited `finalizeLaunch`, called on the qUSD ledger. -/
def QUSDStablecoin.finalizeLaunch (q : QUSDStablecoin) (sender : String) :
    Outcome Unit × QUSDStablecoin :=
  ((q.toLaunchProtect.finalizeLaunch sender).1,
    { q with toLaunchProtect := (q.toLaunchProtect.finalizeLaunch sender).2 })

/-- The inherited `burnKey`, called on the qUSD ledger. -/
def QUSDStablecoin.burnKey (q : QUSDStablecoin) (sender : String) :
    Outcome Unit × QUSDStablecoin :=
  ((q.toLaunchProtect.burnKey sender).1,
    { q with toLaunchProtect := (q.toLaunchProtect.burnKey sender).2 })

/-- A call on the qBTC ledger; `mint` comes with the committee state it reads. -/
inductive QBTCSynthetic.Call where
  | mint (oracle : QOracleCommittee) (user : String) (btc_sats : Nat) (price_update : PriceUpdate)
  | burn (user : String) (amount : Nat)
  | transfer (sender to_addr : String) (amount : Nat)
  | finalizeLaunch (sender : String)
  | burnKey (sender : String)

/-- The qBTC ledger after one call. -/
def QBTCSynthetic.step (q : QBTCSynthetic) : QBTCSynthetic.Call → QBTCSynthetic
  | .mint oracle user btc_sats price_update => (q.mint oracle user btc_sats price_update).2
  | .burn user amount => (q.burn user amount).2
  | .transfer sender to_addr amount => (q.transfer sender to_addr amount).2
  | .finalizeLaunch sender => (q.finalizeLaunch sender).2
  | .burnKey sender => (q.burnKey sender).2

/-- The qBTC ledger after a sequence of calls. -/
def QBTCSynthetic.run (q : QBTCSynthetic) (calls : List QBTCSynthetic.Call) : QBTCSynthetic :=
  calls.foldl QBTCSynthetic.step q

end RC2

namespace Fixture

open qOracle RC2

/-- The qBTC ledger reached from construction by the deployer alone:
`mint(admin, 2^63)`, `transfer(admin, bob, 2^63)`, `mint(admin, 2^63)`, each
mint reading the committee `c2` and bundling `upd_unsigned`. -/
def q_wrapped : QBTCSynthetic :=
  (QBTCSynthetic.new "admin").run
    [.mint c2 "admin" 9223372036854775808 upd_unsigned,
     .transfer "admin" "bob" 9223372036854775808,
     .mint c2 "admin" 9223372036854775808 upd_unsigned]

/-- The qBTC ledger reached from construction by one mint of the cap plus one satoshi. -/
def q_over_cap : QBTCSynthetic :=
  (QBTCSynthetic.new "admin").run [.mint c2 "admin" 2100000000000001 upd_unsigned]

/-- An unsigned envelope 1000 s ahead of the current price of `c2`. -/
def upd_future : PriceUpdate := ⟨⟨50000001, 1700001000, 15, 2, [66, 84, 67]⟩, []⟩

/-- An unsigned envelope at timestamp 100, for the freshly launched committee. -/
def upd_early : PriceUpdate := ⟨⟨50000001, 100, 15, 2, [66, 84, 67]⟩, []⟩

/-- An unsigned envelope at price 1.0 (10^15), the price of scenario 4. -/
def upd_unit : PriceUpdate := ⟨⟨1000000000000000, 1700000100, 15, 2, [66, 84, 67]⟩, []⟩

/-- An unsigned envelope at price 10^17. -/
def upd_high : PriceUpdate := ⟨⟨100000000000000000, 1700000100, 15, 2, [66, 84, 67]⟩, []⟩

/-- An unsigned envelope at price 1. -/
def upd_low : PriceUpdate := ⟨⟨1, 1700000100, 15, 2, [66, 84, 67]⟩, []⟩

/-- An unsigned envelope at price 1.0 that is 100_000_000 s older than the
current price of `c2`. -/
def upd_stale : PriceUpdate := ⟨⟨1000000000000000, 1600000000, 15, 2, [66, 84, 67]⟩, []⟩

/-- The qBTC ledger after `mint("alice", 5000, upd_unsigned)` against `c2`. -/
def q_alice : QBTCSynthetic := (q1.mint c2 "alice" 5000 upd_unsigned).2

/-- A launched qUSD ledger with bridge authority "bridge" in which alice holds 70. -/
def s1 : QUSDStablecoin :=
  (((QUSDStablecoin.new "admin" "bridge").finalizeLaunch "admin").2.mint "bridge" "alice" 70).2

/-- The bridge after the swap of scenario 4 at clock 1_700_000_100. -/
def b_used : CrossChainBridge :=
  (b1.swap_stx_for_qbtc c2 q1 1700000100 "alice" 2000 upd_unit).2.1

/-- The qBTC ledger after the swap of scenario 4. -/
def q_used : QBTCSynthetic :=
  (b1.swap_stx_for_qbtc c2 q1 1700000100 "alice" 2000 upd_unit).2.2

end Fixture

/-! ## Further definitions: call sequences on the bridge and the multisig, interleaved swaps -/

namespace RC2

open qOracle

/-- A call on the bridge. A swap carries the committee and the qBTC ledger it
finds and the clock value it reads; the public `reset_daily_volume_if_needed`
carries the clock value. -/
inductive CrossChainBridge.Call where
  | swap_stx_for_qbtc (oracle : QOracleCommittee) (qbtc : QBTCSynthetic) (now : Nat)
      (user : String) (stx_amount : Nat) (price_update : PriceUpdate)
  | swap_qbtc_for_stx (oracle : QOracleCommittee) (qbtc : QBTCSynthetic) (now : Nat)
      (user : String) (qbtc_amount : Nat) (price_update : PriceUpdate)
  | reset_daily_volume_if_needed (now : Nat)
  | finalizeLaunch (sender : String)
  | burnKey (sender : String)

/-- Bridge after one call; what a throwing call has written before the throw stays. -/
def CrossChainBridge.step (b : CrossChainBridge) : CrossChainBridge.Call → CrossChainBridge
  | .swap_stx_for_qbtc oracle qbtc now user a u => (b.swap_stx_for_qbtc oracle qbtc now user a u).2.1
  | .swap_qbtc_for_stx oracle qbtc now user a u => (b.swap_qbtc_for_stx oracle qbtc now user a u).2.1
  | .reset_daily_volume_if_needed now => b.reset_daily_volume_if_needed now
  | .finalizeLaunch sender => (b.finalizeLaunch sender).2
  | .burnKey sender => (b.burnKey sender).2

/-- Bridge after a sequence of calls, first call first. -/
def CrossChainBridge.run (b : CrossChainBridge) (calls : List CrossChainBridge.Call) :
    CrossChainBridge :=
  calls.foldl CrossChainBridge.step b

/-- The STX amount of a call made on bridge `b`: the input of a successful
`swap_stx_for_qbtc`, the computed output of a successful `swap_qbtc_for_stx`,
and 0 for every other call. -/
def CrossChainBridge.Call.stx_swapped (b : CrossChainBridge) : CrossChainBridge.Call → Nat
  | .swap_stx_for_qbtc oracle qbtc now user a u =>
    if (b.swap_stx_for_qbtc oracle qbtc now user a u).1 = .returned true then a else 0
  | .swap_qbtc_for_stx oracle qbtc now user a u =>
    if (b.swap_qbtc_for_stx oracle qbtc now user a u).1 = .returned true then
      (a * u.message.price) % U64 / qOracleConfig.QUSD_DECIMAL_MULTIPLIER
    else 0
  | _ => 0

/-- One call on a bridge paired with the sum of the STX amounts of the
successful swaps since the volume counter was last reset. A reset is the only
write to `last_volume_reset`, and it stores a clock value that differs from
the one stored before, so the sum starts again exactly when that field changes. -/
def CrossChainBridge.track (s : CrossChainBridge × Nat) (c : CrossChainBridge.Call) :
    CrossChainBridge × Nat :=
  (s.1.step c,
    (if (s.1.step c).last_volume_reset = s.1.last_volume_reset then s.2 else 0)
      + c.stx_swapped s.1)

/-- A call on the multisig, with the clock value it reads. -/
inductive QnosisMultisig.Call where
  | propose (now : Nat) (proposer to_addr : String) (value : Nat) (data action parameter : String)
  | sign (nonce : Nat) (signer : String)
  | execute (now : Nat) (nonce : Nat)
  | finalizeLaunch (sender : String)
  | burnKey (sender : String)
deriving DecidableEq, Repr

/-- Multisig after one call; a call that throws leaves it as it was. -/
def QnosisMultisig.step (g : QnosisMultisig) : QnosisMultisig.Call → QnosisMultisig
  | .propose now proposer to_addr value data action parameter =>
    (g.propose now proposer to_addr value data action parameter).2
  | .sign nonce signer => (g.sign nonce signer).2
  | .execute now nonce => (g.execute now nonce).2
  | .finalizeLaunch sender => (g.finalizeLaunch sender).2
  | .burnKey sender => (g.burnKey sender).2

/-- Multisig after a sequence of calls, first call first. -/
def QnosisMultisig.run (g : QnosisMultisig) (calls : List QnosisMultisig.Call) : QnosisMultisig :=
  calls.foldl QnosisMultisig.step g

/-- States reached from the constructor of the multisig. -/
def QnosisMultisig.Reachable (g : QnosisMultisig) : Prop :=
  ∃ (deployer : String) (initial_owners : List String) (thresh : Nat)
    (calls : List QnosisMultisig.Call),
    g = (QnosisMultisig.new deployer initial_owners thresh).run calls

/-- Program points of a thread inside `swap_stx_for_qbtc`: before the three
entry tests, before `reset_daily_volume_if_needed`, before the volume test,
before the `lock_guard` on `bridge_mutex`, inside the locked part, and after
the return or the throw. -/
inductive SwapPc where
  | entry
  | reset
  | check
  | lock
  | locked
  | done (result : Outcome Bool)
deriving DecidableEq, Repr

/-- A thread that executes `swap_stx_for_qbtc(user, stx_amount, price_update)`
and reads the clock value `now` in `reset_daily_volume_if_needed`. -/
structure SwapThread where
  pc : SwapPc
  now : Nat
  user : String
  stx_amount : Nat
  price_update : PriceUpdate

/-- What the threads share: the bridge, the qBTC ledger, and whether
`bridge_mutex` is held. -/
structure SwapShared where
  bridge : CrossChainBridge
  qbtc : QBTCSynthetic
  mutex_held : Bool

/-- One scheduled step of a thread. Each program point is taken as one
indivisible step, the locked part (the two bookkeeping writes, the mint and the
release of the mutex) included; a thread that finds the mutex held stays where
it is. -/
def SwapThread.advance (oracle : QOracleCommittee) (t : SwapThread) (s : SwapShared) :
    SwapThread × SwapShared :=
  match t.pc with
  | .entry =>
    match s.bridge.requireActive t.user with
    | .threw msg => ({ t with pc := .done (.threw msg) }, s)
    | .returned _ =>
      if oracle.is_emergency_paused then ({ t with pc := .done (.returned false) }, s)
      else if t.stx_amount < qOracleConfig.MIN_SWAP_AMOUNT then
        ({ t with pc := .done (.returned false) }, s)
      else ({ t with pc := .reset }, s)
  | .reset =>
    ({ t with pc := .check }, { s with bridge := s.bridge.reset_daily_volume_if_needed t.now })
  | .check =>
    if (s.bridge.daily_volume + t.stx_amount) % U64 > qOracleConfig.MAX_DAILY_VOLUME then
      ({ t with pc := .done (.returned false) }, s)
    else ({ t with pc := .lock }, s)
  | .lock =>
    if s.mutex_held then (t, s) else ({ t with pc := .locked }, { s with mutex_held := true })
  | .locked =>
    let qbtc_amount :=
      (t.stx_amount * t.price_update.message.price) % U64 / qOracleConfig.QUSD_DECIMAL_MULTIPLIER
    let b2 : CrossChainBridge :=
      { s.bridge with
          bridge_balances :=
            s.bridge.bridge_balances.set t.user
              ((s.bridge.bridge_balances.get t.user + t.stx_amount) % U64)
          daily_volume := (s.bridge.daily_volume + t.stx_amount) % U64 }
    ({ t with pc := .done (s.qbtc.mint oracle t.user qbtc_amount t.price_update).1 },
      { bridge := b2, qbtc := (s.qbtc.mint oracle t.user qbtc_amount t.price_update).2
        mutex_held := false })
  | .done _ => (t, s)

/-- Two threads and the shared state. -/
structure SwapSystem where
  first : SwapThread
  second : SwapThread
  shared : SwapShared

/-- One step of the system under a scheduler choice: `false` runs the first
thread, `true` the second. -/
def SwapSystem.schedule (oracle : QOracleCommittee) (sys : SwapSystem) (pick : Bool) :
    SwapSystem :=
  if pick then
    { sys with second := (sys.second.advance oracle sys.shared).1
               shared := (sys.second.advance oracle sys.shared).2 }
  else
    { sys with first := (sys.first.advance oracle sys.shared).1
               shared := (sys.first.advance oracle sys.shared).2 }

/-- The system after a sequence of scheduler choices. -/
def SwapSystem.interleave (oracle : QOracleCommittee) (sys : SwapSystem) (picks : List Bool) :
    SwapSystem :=
  picks.foldl (SwapSystem.schedule oracle) sys

end RC2

/-! ## Further definitions: amounts that fit the volume test, sound multisigs -/

namespace RC2

/-- Whether the amount of a call is small enough for the 64-bit sum
`daily_volume + stx_amount` of the volume test to be the integer sum on a
counter that is at most `MAX_DAILY_VOLUME`. Only `swap_stx_for_qbtc` takes the
amount from the caller. -/
def CrossChainBridge.Call.amount_fits : CrossChainBridge.Call → Bool
  | .swap_stx_for_qbtc _ _ _ _ stx_amount _ =>
    decide (stx_amount + qOracleConfig.MAX_DAILY_VOLUME < U64)
  | _ => true

/-- Every stored proposal is signed by owners only and has the delay of 86_400 s. -/
def QnosisMultisig.Sound (g : QnosisMultisig) : Prop :=
  ∀ (k : Nat) (p : Proposal), proposals_find g.proposals k = some p →
    (∀ s ∈ p.signatures, s ∈ g.owners) ∧ p.execution_delay = 86400

end RC2

/-! ## Definitions: the revision `production/build/qOracle_Production_RC1.cpp`

The classes of this revision have the names of their successors and live in the
namespace `RC1`. The external `dilithium_verify` and the library function
`std::stoul` are arguments of the functions that call them. -/

namespace RC1

/-- Size of `uint32_t`. -/
def U32 : Nat := 4294967296

namespace qOracleConfig

/-- Constant `NUM_ORACLES`. -/
def NUM_ORACLES : Nat := 7

/-- Constant `QUORUM_THRESHOLD`. -/
def QUORUM_THRESHOLD : Nat := 4

/-- Constant `MIN_PRICE`. -/
def MIN_PRICE : Nat := 1

/-- Constant `MAX_PRICE`. -/
def MAX_PRICE : Nat := 100000000000000000

/-- Constant `MAX_TIMESTAMP_SKEW`. -/
def MAX_TIMESTAMP_SKEW : Nat := 600

/-- Constant `MIN_SWAP_AMOUNT`. -/
def MIN_SWAP_AMOUNT : Nat := 1000

end qOracleConfig

/-- The `class LaunchProtect` of this revision. -/
structure LaunchProtect where
  initialized : Bool
  admin : String
  burned : Bool
deriving DecidableEq, Repr

/-- Constructor of `LaunchProtect`. -/
def LaunchProtect.new (admin_address : String) : LaunchProtect :=
  { initialized := false, admin := admin_address, burned := false }

/-- Embeds `LaunchProtect::requireActive`; the launch test comes before the burn test. -/
def LaunchProtect.requireActive (lp : LaunchProtect) (sender : String) : Outcome Unit :=
  if !lp.initialized && sender != lp.admin then .threw "Contract not initialized"
  else if lp.burned then .threw "Admin key burned - contract immutable"
  else .returned ()

/-- Embeds `LaunchProtect::requireAdmin`. -/
def LaunchProtect.requireAdmin (lp : LaunchProtect) (sender : String) : Outcome Unit :=
  if sender != lp.admin then .threw "Admin access required"
  else if lp.burned then .threw "Admin key burned - contract immutable"
  else .returned ()

/-- Embeds `LaunchProtect::finalizeLaunch`. -/
def LaunchProtect.finalizeLaunch (lp : LaunchProtect) (sender : String) :
    Outcome Unit × LaunchProtect :=
  match lp.requireAdmin sender with
  | .threw msg => (.threw msg, lp)
  | .returned _ => (.returned (), { lp with initialized := true })

/-- Embeds `LaunchProtect::burnKey`. -/
def LaunchProtect.burnKey (lp : LaunchProtect) (sender : String) :
    Outcome Unit × LaunchProtect :=
  match lp.requireAdmin sender with
  | .threw msg => (.threw msg, lp)
  | .returned _ =>
    (.returned (),
      { lp with burned := true, admin := "0x000000000000000000000000000000000000dead" })

/-- The `struct PriceMessage` of this revision. -/
structure PriceMessage where
  price : Nat
  timestamp : Nat
  decimals : Nat
deriving DecidableEq, Repr

/-- The `struct OracleSignature` of this revision. -/
structure OracleSignature where
  signer_index : Nat
  signature : Bytes
deriving DecidableEq, Repr

/-- The `struct PriceUpdate` of this revision. -/
structure PriceUpdate where
  message : PriceMessage
  signatures : List OracleSignature
deriving DecidableEq, Repr

/-- The `class QOracleCommittee : public LaunchProtect` of this revision. -/
structure QOracleCommittee extends LaunchProtect where
  trusted_oracles : Fin 7 → Bytes
  last_price : PriceMessage
  price_history : List PriceMessage
  max_history : Nat

/-- Constructor of `QOracleCommittee`. -/
def QOracleCommittee.new (admin : String) (oracles : Fin 7 → Bytes) : QOracleCommittee :=
  { toLaunchProtect := LaunchProtect.new admin
    trusted_oracles := oracles
    last_price := ⟨0, 0, 15⟩
    price_history := []
    max_history := 1024 }

/-- Embeds the private `QOracleCommittee::htobe64`, which reverses the eight bytes. -/
def QOracleCommittee.htobe64 (value : Nat) : Nat :=
  ((value &&& 0xFF) <<< 56) |||
  (((value >>> 8) &&& 0xFF) <<< 48) |||
  (((value >>> 16) &&& 0xFF) <<< 40) |||
  (((value >>> 24) &&& 0xFF) <<< 32) |||
  (((value >>> 32) &&& 0xFF) <<< 24) |||
  (((value >>> 40) &&& 0xFF) <<< 16) |||
  (((value >>> 48) &&& 0xFF) <<< 8) |||
  ((value >>> 56) &&& 0xFF)

/-- The eight bytes that `memcpy` reads from a `uint64_t` on a little-endian host. -/
def LE64 (x : Nat) : Bytes :=
  [x % 256, x / 2 ^ 8 % 256, x / 2 ^ 16 % 256, x / 2 ^ 24 % 256,
   x / 2 ^ 32 % 256, x / 2 ^ 40 % 256, x / 2 ^ 48 % 256, x / 2 ^ 56 % 256]

/-- Embeds `QOracleCommittee::serialize_message`: the 16 bytes written to `out`. -/
def QOracleCommittee.serialize_message (msg : PriceMessage) : Bytes :=
  LE64 (QOracleCommittee.htobe64 msg.price) ++ LE64 (QOracleCommittee.htobe64 msg.timestamp)

/-- Embeds `QOracleCommittee::validate_signature`. -/
def QOracleCommittee.validate_signature (dilithium_verify : Bytes → Bytes → Bytes → Bool)
    (pubkey : Bytes) (msg : PriceMessage) (sig : Bytes) : Bool :=
  dilithium_verify pubkey (QOracleCommittee.serialize_message msg) sig

/-- The loop of `validate_update`: the set `seen` and the counter `valid`
after the signatures of the list. -/
def QOracleCommittee.count_signatures (dilithium_verify : Bytes → Bytes → Bytes → Bool)
    (c : QOracleCommittee) (msg : PriceMessage) :
    List OracleSignature → List Nat × Nat → List Nat × Nat
  | [], acc => acc
  | sig :: rest, (seen, valid) =>
    if h : sig.signer_index < 7 then
      if sig.signer_index ∈ seen then
        QOracleCommittee.count_signatures dilithium_verify c msg rest (seen, valid)
      else if QOracleCommittee.validate_signature dilithium_verify
          (c.trusted_oracles ⟨sig.signer_index, h⟩) msg sig.signature then
        QOracleCommittee.count_signatures dilithium_verify c msg rest
          (sig.signer_index :: seen, valid + 1)
      else
        QOracleCommittee.count_signatures dilithium_verify c msg rest
          (sig.signer_index :: seen, valid)
    else QOracleCommittee.count_signatures dilithium_verify c msg rest (seen, valid)

/-- Embeds `QOracleCommittee::validate_update`, with the clock value `now`
that `get_current_block_timestamp` returns; the two sums are 64-bit. -/
def QOracleCommittee.validate_update (dilithium_verify : Bytes → Bytes → Bytes → Bool)
    (c : QOracleCommittee) (now : Nat) (update : PriceUpdate) : Bool :=
  if update.signatures.length < qOracleConfig.QUORUM_THRESHOLD then false
  else if (QOracleCommittee.count_signatures dilithium_verify c update.message
      update.signatures ([], 0)).2 < qOracleConfig.QUORUM_THRESHOLD then false
  else if update.message.timestamp ≤ c.last_price.timestamp then false
  else if update.message.timestamp > (now + qOracleConfig.MAX_TIMESTAMP_SKEW) % U64 then false
  else if now > 0 ∧ (update.message.timestamp + qOracleConfig.MAX_TIMESTAMP_SKEW) % U64 < now then
    false
  else if update.message.price < qOracleConfig.MIN_PRICE ∨
      update.message.price > qOracleConfig.MAX_PRICE then false
  else true

/-- Embeds `QOracleCommittee::submit_price_update` at clock time `now`. -/
def QOracleCommittee.submit_price_update (dilithium_verify : Bytes → Bytes → Bytes → Bool)
    (c : QOracleCommittee) (now : Nat) (update : PriceUpdate) :
    Outcome Bool × QOracleCommittee :=
  match c.requireActive "oracle_committee" with
  | .threw msg => (.threw msg, c)
  | .returned _ =>
    if !c.validate_update dilithium_verify now update then (.returned false, c)
    else
      (.returned true,
        { c with last_price := update.message
                 price_history :=
                   (if c.price_history.length = c.max_history then c.price_history.tail
                    else c.price_history) ++ [update.message] })

/-- Embeds `QOracleCommittee::get_current_price`. -/
def QOracleCommittee.get_current_price (c : QOracleCommittee) : PriceMessage := c.last_price

/-- Embeds `QOracleCommittee::get_price_history`. -/
def QOracleCommittee.get_price_history (c : QOracleCommittee) : List PriceMessage :=
  c.price_history

/-- The inherited `finalizeLaunch`, called on the committee. -/
def QOracleCommittee.finalizeLaunch (c : QOracleCommittee) (sender : String) :
    Outcome Unit × QOracleCommittee :=
  ((c.toLaunchProtect.finalizeLaunch sender).1,
    { c with toLaunchProtect := (c.toLaunchProtect.finalizeLaunch sender).2 })

/-- The inherited `burnKey`, called on the committee. -/
def QOracleCommittee.burnKey (c : QOracleCommittee) (sender : String) :
    Outcome Unit × QOracleCommittee :=
  ((c.toLaunchProtect.burnKey sender).1,
    { c with toLaunchProtect := (c.toLaunchProtect.burnKey sender).2 })

/-- A call on the committee, with the clock value it reads. -/
inductive QOracleCommittee.Call where
  | submit_price_update (now : Nat) (update : PriceUpdate)
  | finalizeLaunch (sender : String)
  | burnKey (sender : String)
deriving DecidableEq, Repr

/-- Committee after one call; a call that throws leaves it as it was. -/
def QOracleCommittee.step (dilithium_verify : Bytes → Bytes → Bytes → Bool)
    (c : QOracleCommittee) : QOracleCommittee.Call → QOracleCommittee
  | .submit_price_update now update => (c.submit_price_update dilithium_verify now update).2
  | .finalizeLaunch sender => (c.finalizeLaunch sender).2
  | .burnKey sender => (c.burnKey sender).2

/-- Committee after a sequence of calls, first call first. -/
def QOracleCommittee.run (dilithium_verify : Bytes → Bytes → Bytes → Bool)
    (c : QOracleCommittee) (calls : List QOracleCommittee.Call) : QOracleCommittee :=
  calls.foldl (QOracleCommittee.step dilithium_verify) c

/-- The messages of the updates that a sequence of calls made on `c` accepts
(`submit_price_update` returned true), in call order. -/
def QOracleCommittee.accepted (dilithium_verify : Bytes → Bytes → Bytes → Bool) :
    QOracleCommittee → List QOracleCommittee.Call → List PriceMessage
  | _, [] => []
  | c, .submit_price_update now update :: rest =>
    (if (c.submit_price_update dilithium_verify now update).1 = .returned true then
      [update.message] else []) ++
      QOracleCommittee.accepted dilithium_verify
        (c.step dilithium_verify (.submit_price_update now update)) rest
  | c, call :: rest =>
    QOracleCommittee.accepted dilithium_verify (c.step dilithium_verify call) rest

/-- The `class QBTCSynthetic : public LaunchProtect` of this revision; the
committee behind the reference `oracle` is an argument of `mint`. -/
structure QBTCSynthetic extends LaunchProtect where
  balances : Ledger
  total_supply : Nat
deriving DecidableEq, Repr

/-- Constructor of `QBTCSynthetic`. -/
def QBTCSynthetic.new (deployer : String) : QBTCSynthetic :=
  { toLaunchProtect := LaunchProtect.new deployer, balances := [], total_supply := 0 }

/-- Embeds `QBTCSynthetic::mint` at clock time `now`; it returns the ledger and
the committee it leaves behind. -/
def QBTCSynthetic.mint (dilithium_verify : Bytes → Bytes → Bytes → Bool) (q : QBTCSynthetic)
    (oracle : QOracleCommittee) (now : Nat) (user : String) (btc_sats : Nat)
    (price_update : PriceUpdate) : Outcome Bool × QBTCSynthetic × QOracleCommittee :=
  match q.requireActive user with
  | .threw msg => (.threw msg, q, oracle)
  | .returned _ =>
    if btc_sats = 0 then (.returned false, q, oracle)
    else
      match oracle.submit_price_update dilithium_verify now price_update with
      | (.threw msg, o1) => (.threw msg, q, o1)
      | (.returned false, o1) => (.returned false, q, o1)
      | (.returned true, o1) =>
        (.returned true,
          { q with balances := q.balances.set user ((q.balances.get user + btc_sats) % U64)
                   total_supply := (q.total_supply + btc_sats) % U64 },
          o1)

/-- Embeds `QBTCSynthetic::balanceOf`. -/
def QBTCSynthetic.balanceOf (q : QBTCSynthetic) (addr : String) : Nat := q.balances.get addr

/-- Embeds `QBTCSynthetic::totalSupply`. -/
def QBTCSynthetic.totalSupply (q : QBTCSynthetic) : Nat := q.total_supply

/-- The inherited `finalizeLaunch`, called on the qBTC ledger. -/
def QBTCSynthetic.finalizeLaunch (q : QBTCSynthetic) (sender : String) :
    Outcome Unit × QBTCSynthetic :=
  ((q.toLaunchProtect.finalizeLaunch sender).1,
    { q with toLaunchProtect := (q.toLaunchProtect.finalizeLaunch sender).2 })

/-- The `class CrossChainBridge : public LaunchProtect` of this revision. -/
structure CrossChainBridge extends LaunchProtect where
  bridge_balances : Ledger
deriving DecidableEq, Repr

/-- Constructor of `CrossChainBridge`. -/
def CrossChainBridge.new (deployer : String) : CrossChainBridge :=
  { toLaunchProtect := LaunchProtect.new deployer, bridge_balances := [] }

/-- Embeds `CrossChainBridge::swap_stx_for_qbtc`. The bridge and the qBTC
ledger hold references to one committee, as `QOracleSystem` wires them; `now`
is the clock value read by the bridge's own `submit_price_update`, `now_mint`
the one read inside `qbtc.mint`. The value that `qbtc.mint` returns is
discarded; a throw inside it leaves the function after the bridge balance was
written. -/
def CrossChainBridge.swap_stx_for_qbtc (dilithium_verify : Bytes → Bytes → Bytes → Bool)
    (b : CrossChainBridge) (oracle : QOracleCommittee) (qbtc : QBTCSynthetic)
    (now now_mint : Nat) (user : String) (stx_amount : Nat) (price_update : PriceUpdate) :
    Outcome Bool × CrossChainBridge × QBTCSynthetic × QOracleCommittee :=
  match b.requireActive user with
  | .threw msg => (.threw msg, b, qbtc, oracle)
  | .returned _ =>
    if stx_amount < qOracleConfig.MIN_SWAP_AMOUNT then (.returned false, b, qbtc, oracle)
    else
      match oracle.submit_price_update dilithium_verify now price_update with
      | (.threw msg, o1) => (.threw msg, b, qbtc, o1)
      | (.returned false, o1) => (.returned false, b, qbtc, o1)
      | (.returned true, o1) =>
        let current_price := o1.get_current_price
        if current_price.price = 0 then (.returned false, b, qbtc, o1)
        else
          let btc_price_sats := (current_price.price * 100000000) % U64
          let qbtc_amount := (stx_amount * btc_price_sats) % U64 / current_price.price
          if qbtc_amount = 0 then (.returned false, b, qbtc, o1)
          else
            let b1 : CrossChainBridge :=
              { b with bridge_balances :=
                         b.bridge_balances.set user
                           ((b.bridge_balances.get user + stx_amount) % U64) }
            match qbtc.mint dilithium_verify o1 now_mint user qbtc_amount price_update with
            | (.threw msg, q1, o2) => (.threw msg, b1, q1, o2)
            | (.returned _, q1, o2) => (.returned true, b1, q1, o2)

/-- Embeds `CrossChainBridge::getBridgeBalance`. -/
def CrossChainBridge.getBridgeBalance (b : CrossChainBridge) (user : String) : Nat :=
  b.bridge_balances.get user

/-- The inherited `finalizeLaunch`, called on the bridge. -/
def CrossChainBridge.finalizeLaunch (b : CrossChainBridge) (sender : String) :
    Outcome Unit × CrossChainBridge :=
  ((b.toLaunchProtect.finalizeLaunch sender).1,
    { b with toLaunchProtect := (b.toLaunchProtect.finalizeLaunch sender).2 })

/-- The `struct Proposal` of this revision; the `std::set<std::string>` of
signatures is a duplicate-free list. -/
structure Proposal where
  to_addr : String
  value : Nat
  data : String
  nonce : Nat
  executed : Bool
  signatures : List String
  action : String
  parameter : String
deriving DecidableEq, Repr

/-- Embeds `std::set::insert` on the signature set. -/
def set_insert (s : List String) (x : String) : List String :=
  if x ∈ s then s else s ++ [x]

/-- Embeds `proposals.find(nonce)` on the `std::unordered_map<uint64_t, Proposal>`. -/
def proposals_find : List (Nat × Proposal) → Nat → Option Proposal
  | [], _ => none
  | (k, p) :: rest, n => if k = n then some p else proposals_find rest n

/-- Embeds a write to the entry `proposals[nonce]`. -/
def proposals_put : List (Nat × Proposal) → Nat → Proposal → List (Nat × Proposal)
  | [], n, q => [(n, q)]
  | (k, p) :: rest, n, q => if k = n then (n, q) :: rest else (k, p) :: proposals_put rest n q

/-- The `class QnosisMultisig : public LaunchProtect` of this revision. -/
structure QnosisMultisig extends LaunchProtect where
  owners : List String
  threshold : Nat
  proposal_nonce : Nat
  proposals : List (Nat × Proposal)
deriving DecidableEq, Repr

/-- Constructor of `QnosisMultisig`; it throws on an invalid configuration. -/
def QnosisMultisig.new (deployer : String) (initial_owners : List String) (thresh : Nat) :
    Outcome QnosisMultisig :=
  if initial_owners.isEmpty ∨ thresh = 0 ∨ thresh > initial_owners.length then
    .threw "Invalid multisig configuration"
  else
    .returned
      { toLaunchProtect := LaunchProtect.new deployer, owners := initial_owners
        threshold := thresh, proposal_nonce := 1, proposals := [] }

/-- Embeds `QnosisMultisig::propose`. -/
def QnosisMultisig.propose (g : QnosisMultisig) (proposer to_addr : String) (value : Nat)
    (data action param : String) : Outcome Nat × QnosisMultisig :=
  match g.requireActive proposer with
  | .threw msg => (.threw msg, g)
  | .returned _ =>
    if proposer ∉ g.owners then (.threw "Not an owner", g)
    else
      let p : Proposal := ⟨to_addr, value, data, g.proposal_nonce, false, [], action, param⟩
      let next := (g.proposal_nonce + 1) % U64
      (.returned ((next + U64 - 1) % U64),
        { g with proposals := proposals_put g.proposals g.proposal_nonce p
                 proposal_nonce := next })

/-- Embeds `QnosisMultisig::sign`. -/
def QnosisMultisig.sign (g : QnosisMultisig) (nonce : Nat) (signer : String) :
    Outcome Unit × QnosisMultisig :=
  match g.requireActive signer with
  | .threw msg => (.threw msg, g)
  | .returned _ =>
    if signer ∉ g.owners then (.threw "Not an owner", g)
    else
      match proposals_find g.proposals nonce with
      | none => (.threw "Proposal not found", g)
      | some p =>
        if p.executed then (.threw "Proposal already executed", g)
        else
          (.returned (),
            { g with proposals :=
                       proposals_put g.proposals nonce
                         { p with signatures := set_insert p.signatures signer } })

/-- Embeds `QnosisMultisig::execute`. The argument `stoul` stands for
`std::stoul`, which returns the parsed number or throws; `new_thresh` is the
32-bit value of its result, and the clamp stores the 32-bit value of
`owners.size()`. -/
def QnosisMultisig.execute (stoul : String → Outcome Nat) (g : QnosisMultisig) (nonce : Nat) :
    Outcome Unit × QnosisMultisig :=
  match proposals_find g.proposals nonce with
  | none => (.threw "Proposal not found", g)
  | some p =>
    if p.executed then (.threw "Proposal already executed", g)
    else if p.signatures.length < g.threshold then (.threw "Not enough signatures", g)
    else if p.action = "add_owner" then
      if p.parameter ∈ g.owners then (.threw "Already an owner", g)
      else
        (.returned (),
          { g with owners := g.owners ++ [p.parameter]
                   proposals := proposals_put g.proposals nonce { p with executed := true } })
    else if p.action = "remove_owner" then
      if p.parameter ∉ g.owners then (.threw "Not an owner", g)
      else if g.owners.length ≤ 1 then (.threw "At least one owner required", g)
      else
        let owners1 := g.owners.erase p.parameter
        (.returned (),
          { g with owners := owners1
                   threshold :=
                     if g.threshold > owners1.length then owners1.length % U32 else g.threshold
                   proposals := proposals_put g.proposals nonce { p with executed := true } })
    else if p.action = "change_threshold" then
      match stoul p.parameter with
      | .threw msg => (.threw msg, g)
      | .returned v =>
        let new_thresh := v % U32
        if new_thresh = 0 ∨ new_thresh > g.owners.length then (.threw "Invalid threshold", g)
        else
          (.returned (),
            { g with threshold := new_thresh
                     proposals := proposals_put g.proposals nonce { p with executed := true } })
    else
      (.returned (),
        { g with proposals := proposals_put g.proposals nonce { p with executed := true } })

/-- Embeds `QnosisMultisig::getOwners`. -/
def QnosisMultisig.getOwners (g : QnosisMultisig) : List String := g.owners

/-- Embeds `QnosisMultisig::getThreshold`. -/
def QnosisMultisig.getThreshold (g : QnosisMultisig) : Nat := g.threshold

/-- Embeds `QnosisMultisig::isExecuted`. -/
def QnosisMultisig.isExecuted (g : QnosisMultisig) (nonce : Nat) : Bool :=
  match proposals_find g.proposals nonce with
  | some p => p.executed
  | none => false

/-- The inherited `finalizeLaunch`, called on the multisig. -/
def QnosisMultisig.finalizeLaunch (g : QnosisMultisig) (sender : String) :
    Outcome Unit × QnosisMultisig :=
  ((g.toLaunchProtect.finalizeLaunch sender).1,
    { g with toLaunchProtect := (g.toLaunchProtect.finalizeLaunch sender).2 })

end RC1

/-! ## Fixtures for the bridge volume, the multisig and the RC1 revision -/

namespace Fixture

open qOracle RC2

/-- An unsigned envelope at price 10_000, 100 s after the current price of `c2`. -/
def upd_cheap : PriceUpdate := ⟨⟨10000, 1700000100, 15, 2, [66, 84, 67]⟩, []⟩

/-- Multisig with owners admin, o1, o2, o3 and threshold 3, launched, with
proposal 1 (`change_threshold`, parameter "4") created at time 1000 and signed
by admin, o1 and o2. -/
def g_four : QnosisMultisig :=
  (QnosisMultisig.new "admin" ["admin", "o1", "o2", "o3"] 3).run
    [.finalizeLaunch "admin", .propose 1000 "admin" "target" 0 "" "change_threshold" "4",
     .sign 1 "admin", .sign 1 "o1", .sign 1 "o2"]

/-- A thread about to swap 6 * 10^14 STX for `user` at clock 1_700_000_100. -/
def thread (user : String) : SwapThread :=
  ⟨.entry, 1700000100, user, 600000000000000, upd_cheap⟩

/-- Alice and bob enter `swap_stx_for_qbtc` on the launched bridge `b1`, whose
volume counter is 0, with the mutex free. -/
def sys0 : SwapSystem := ⟨thread "alice", thread "bob", ⟨b1, q1, false⟩⟩

/-- Each thread runs up to the `lock_guard` before the other takes the mutex:
alice's entry tests, reset and volume test, then bob's, then alice's locked
part, then bob's. -/
def picks_race : List Bool :=
  [false, false, false, true, true, true, false, false, true, true]

/-- Alice runs her swap to the end before bob enters his. -/
def picks_serial : List Bool :=
  [false, false, false, false, false, true, true, true, true, true]

end Fixture

namespace RC1

namespace Fixture

/-- Stub for `dilithium_verify`: a signature is valid exactly when it equals the public key. -/
def stub : Bytes → Bytes → Bytes → Bool := fun pubkey _ sig => sig == pubkey

/-- Stub for `std::stoul` on the strings "0" to "5"; every other string throws. -/
def stoul : String → Outcome Nat := fun s =>
  if s = "0" then .returned 0 else if s = "1" then .returned 1
  else if s = "2" then .returned 2 else if s = "3" then .returned 3
  else if s = "4" then .returned 4 else if s = "5" then .returned 5
  else .threw "stoul"

/-- Public key of oracle `i`: the single byte `i + 1`. -/
def keys : Fin 7 → Bytes := fun i => [i.val + 1]

/-- Valid signature of oracle `i`. -/
def good (i : Nat) : OracleSignature := ⟨i, [i + 1]⟩

/-- Update with price 50_000 at timestamp 1_700_000_000, signed by oracles 0 to 3. -/
def upd1 : PriceUpdate := ⟨⟨50000, 1700000000, 15⟩, [good 0, good 1, good 2, good 3]⟩

/-- Update with price 50_001 at timestamp 1_700_000_100, signed by oracles 0 to 3. -/
def upd2 : PriceUpdate := ⟨⟨50001, 1700000100, 15⟩, [good 0, good 1, good 2, good 3]⟩

/-- Committee after construction and `finalizeLaunch(admin)`. -/
def c1 : QOracleCommittee := ((QOracleCommittee.new "admin" keys).finalizeLaunch "admin").2

/-- The qBTC ledger after `finalizeLaunch(admin)`. -/
def q1 : QBTCSynthetic := ((QBTCSynthetic.new "admin").finalizeLaunch "admin").2

/-- The bridge after `finalizeLaunch(admin)`. -/
def b1 : CrossChainBridge := ((CrossChainBridge.new "admin").finalizeLaunch "admin").2

end Fixture

end RC1

/-! ## Lemmas on the signature count -/

namespace qOracle

theorem first_entry_verifies_cons_ne (env : Crypto) (v : QuantumSignatureVerifier)
    (msg : PriceMessage) (sig : OracleSignature) (rest : List OracleSignature) (i : Fin 7)
    (h : sig.oracle_index ≠ i.val) :
    first_entry_verifies env v msg (sig :: rest) i = first_entry_verifies env v msg rest i := by
  unfold first_entry_verifies
  have : (sig.oracle_index == i.val) = false := by simpa using h
  simp [List.find?, this]

theorem first_entry_verifies_cons_eq (env : Crypto) (v : QuantumSignatureVerifier)
    (msg : PriceMessage) (sig : OracleSignature) (rest : List OracleSignature) (i : Fin 7)
    (h : sig.oracle_index = i.val) :
    first_entry_verifies env v msg (sig :: rest) i =
      env.verify_dilithium3_signature (v.oracles i).public_key (env.sha256 msg.serialize)
        sig.signature := by
  unfold first_entry_verifies
  have : (sig.oracle_index == i.val) = true := by simpa using h
  simp [List.find?, this]

theorem verify_oracle_signature_eq (env : Crypto) (v : QuantumSignatureVerifier)
    (msg : PriceMessage) (sig : OracleSignature) (h : sig.oracle_index < 7) :
    v.verify_oracle_signature env sig msg =
      ((v.oracles ⟨sig.oracle_index, h⟩).active &&
        env.verify_dilithium3_signature (v.oracles ⟨sig.oracle_index, h⟩).public_key
          (env.sha256 msg.serialize) sig.signature) := by
  unfold QuantumSignatureVerifier.verify_oracle_signature PriceMessage.hash
  simp only [h, dite_true]
  cases (v.oracles ⟨sig.oracle_index, h⟩).active <;> simp

/-- The loop of `verify_price_update` adds to `valid` the number of counted indices. -/
theorem count_valid_eq (env : Crypto) (v : QuantumSignatureVerifier) (msg : PriceMessage)
    (sigs : List OracleSignature) :
    ∀ (seen : List Nat) (valid : Nat),
      v.count_valid env msg sigs seen valid = valid + (counted env v msg sigs seen).card := by
  induction sigs with
  | nil =>
    intro seen valid
    simp [QuantumSignatureVerifier.count_valid, counted, first_entry_verifies]
  | cons sig rest ih =>
    intro seen valid
    unfold QuantumSignatureVerifier.count_valid
    by_cases h7 : sig.oracle_index ≥ NUM_ORACLES
    · rw [if_pos h7, ih]
      congr 2
      unfold counted
      apply Finset.filter_congr
      intro i _
      have hne : sig.oracle_index ≠ i.val := by
        have := i.isLt
        unfold NUM_ORACLES at h7
        omega
      rw [first_entry_verifies_cons_ne env v msg sig rest i hne]
    · rw [if_neg h7]
      by_cases hs : sig.oracle_index ∈ seen
      · rw [if_pos hs, ih]
        congr 2
        unfold counted
        apply Finset.filter_congr
        intro i _
        by_cases hi : sig.oracle_index = i.val
        · have : i.val ∈ seen := hi ▸ hs
          simp [this]
        · rw [first_entry_verifies_cons_ne env v msg sig rest i hi]
      · rw [if_neg hs, ih]
        have hlt : sig.oracle_index < 7 := by
          unfold NUM_ORACLES at h7
          omega
        rw [verify_oracle_signature_eq env v msg sig hlt]
        set j : Fin 7 := ⟨sig.oracle_index, hlt⟩ with hj
        have hnot : j ∉ counted env v msg rest (sig.oracle_index :: seen) := by
          simp [counted, hj]
        by_cases hgood : ((v.oracles j).active &&
            env.verify_dilithium3_signature (v.oracles j).public_key
              (env.sha256 msg.serialize) sig.signature) = true
        · have hset : counted env v msg (sig :: rest) seen =
              insert j (counted env v msg rest (sig.oracle_index :: seen)) := by
            ext i
            simp only [counted, Finset.mem_filter, Finset.mem_univ, true_and, Finset.mem_insert,
              List.mem_cons, not_or]
            by_cases hi : sig.oracle_index = i.val
            · have hij : i = j := Fin.ext hi.symm
              subst hij
              rw [first_entry_verifies_cons_eq env v msg sig rest _ hi]
              simp only [Bool.and_eq_true] at hgood
              simp [hgood.1, hgood.2, hs]
            · rw [first_entry_verifies_cons_ne env v msg sig rest i hi]
              have hij : i ≠ j := fun e => hi (by rw [e])
              have hi' : i.val ≠ sig.oracle_index := fun e => hi e.symm
              simp [hij, hi']
          rw [if_pos hgood, hset, Finset.card_insert_of_not_mem hnot]
          omega
        · have hset : counted env v msg (sig :: rest) seen =
              counted env v msg rest (sig.oracle_index :: seen) := by
            ext i
            simp only [counted, Finset.mem_filter, Finset.mem_univ, true_and,
              List.mem_cons, not_or]
            by_cases hi : sig.oracle_index = i.val
            · have hij : i = j := Fin.ext hi.symm
              subst hij
              rw [first_entry_verifies_cons_eq env v msg sig rest _ hi]
              simp only [Bool.and_eq_true, not_and] at hgood
              constructor
              · rintro ⟨_, ha, hv⟩
                exact absurd hv (hgood ha)
              · rintro ⟨⟨hne, _⟩, _⟩
                exact absurd hi.symm hne
            · rw [first_entry_verifies_cons_ne env v msg sig rest i hi]
              have hi' : i.val ≠ sig.oracle_index := fun e => hi e.symm
              simp [hi']
          rw [if_neg hgood, hset]

/-- The loop never counts more entries than the list holds. -/
theorem count_valid_le (env : Crypto) (v : QuantumSignatureVerifier) (msg : PriceMessage)
    (sigs : List OracleSignature) :
    ∀ (seen : List Nat) (valid : Nat),
      v.count_valid env msg sigs seen valid ≤ valid + sigs.length := by
  induction sigs with
  | nil => intro seen valid; simp [QuantumSignatureVerifier.count_valid]
  | cons sig rest ih =>
    intro seen valid
    unfold QuantumSignatureVerifier.count_valid
    simp only [List.length_cons]
    split_ifs
    · have := ih seen valid; omega
    · have := ih seen valid; omega
    · have := ih (sig.oracle_index :: seen) (valid + 1); omega
    · have := ih (sig.oracle_index :: seen) valid; omega

/-- With nothing seen, `counted` is the set of active oracles whose first entry verifies. -/
theorem counted_nil_seen (env : Crypto) (v : QuantumSignatureVerifier) (msg : PriceMessage)
    (sigs : List OracleSignature) :
    counted env v msg sigs [] =
      Finset.univ.filter (fun i : Fin 7 =>
        (v.oracles i).active = true ∧ first_entry_verifies env v msg sigs i = true) := by
  unfold counted
  apply Finset.filter_congr
  intro i _
  simp

/-- The result of `verify_price_update` compares the number of counted indices with the quorum. -/
theorem verify_price_update_eq (env : Crypto) (v : QuantumSignatureVerifier) (u : PriceUpdate) :
    v.verify_price_update env u = decide (4 ≤ (counted env v u.message u.signatures []).card) := by
  unfold QuantumSignatureVerifier.verify_price_update PriceUpdate.has_quorum
  have hle := count_valid_le env v u.message u.signatures [] 0
  have heq := count_valid_eq env v u.message u.signatures [] 0
  simp only [QUORUM_THRESHOLD, ge_iff_le]
  rw [heq]
  rw [heq] at hle
  by_cases hq : 4 ≤ u.signatures.length
  · simp [hq]
  · have : ¬ 4 ≤ (counted env v u.message u.signatures []).card := by omega
    simp [hq, this]

/-- An entry found as the first one with index `i` is an entry of the list with that index. -/
theorem first_entry_verifies_mem (env : Crypto) (v : QuantumSignatureVerifier)
    (msg : PriceMessage) (sigs : List OracleSignature) (i : Fin 7)
    (h : first_entry_verifies env v msg sigs i = true) :
    ∃ sig ∈ sigs, sig.oracle_index = i.val ∧
      env.verify_dilithium3_signature (v.oracles i).public_key (env.sha256 msg.serialize)
        sig.signature = true := by
  unfold first_entry_verifies at h
  split at h
  · next s hs =>
    refine ⟨s, List.mem_of_find?_eq_some hs, ?_, h⟩
    have := List.find?_some hs
    simpa using this
  · exact absurd h (by simp)

end qOracle

/-! ## Lemmas on ledgers -/

theorem Ledger.get_set_same (b : Ledger) (a : String) (x : Nat) : (Ledger.set b a x).get a = x := by
  induction b with
  | nil => simp [Ledger.set, Ledger.get]
  | cons kv rest ih =>
    obtain ⟨k, v⟩ := kv
    by_cases h : k = a
    · simp [Ledger.set, Ledger.get, h]
    · simpa [Ledger.set, Ledger.get, h] using ih

theorem Ledger.get_set_other (b : Ledger) (a k : String) (x : Nat) (hne : a ≠ k) :
    (Ledger.set b a x).get k = b.get k := by
  induction b with
  | nil => simp [Ledger.set, Ledger.get, hne]
  | cons kv rest ih =>
    obtain ⟨k', v⟩ := kv
    by_cases h : k' = a
    · subst h
      simp [Ledger.set, Ledger.get, hne]
    · by_cases h2 : k' = k
      · subst h2
        simp [Ledger.set, Ledger.get, h]
      · simpa [Ledger.set, Ledger.get, h, h2] using ih

theorem Ledger.sum_set (b : Ledger) (a : String) (x : Nat) :
    (Ledger.set b a x).sum + b.get a = b.sum + x := by
  induction b with
  | nil => simp [Ledger.set, Ledger.get, Ledger.sum]
  | cons kv rest ih =>
    obtain ⟨k, v⟩ := kv
    by_cases h : k = a
    · simp [Ledger.set, Ledger.get, Ledger.sum, h]
      omega
    · simp only [Ledger.set, Ledger.get, Ledger.sum, h, if_false, List.map_cons, List.sum_cons]
      simp only [Ledger.sum] at ih
      omega

theorem Ledger.get_le_sum (b : Ledger) (a : String) : b.get a ≤ b.sum := by
  induction b with
  | nil => simp [Ledger.get, Ledger.sum]
  | cons kv rest ih =>
    obtain ⟨k, v⟩ := kv
    by_cases h : k = a
    · simp [Ledger.get, Ledger.sum, h]
    · simp only [Ledger.get, Ledger.sum, h, if_false, List.map_cons, List.sum_cons]
      simp only [Ledger.sum] at ih
      omega

theorem Ledger.get_add_get_le_sum (b : Ledger) (a k : String) (hne : a ≠ k) :
    b.get a + b.get k ≤ b.sum := by
  have h1 := Ledger.sum_set b a 0
  have h2 := Ledger.get_le_sum (Ledger.set b a 0) k
  rw [Ledger.get_set_other b a k 0 hne] at h2
  omega

/-! ## Lemmas on the launch guard -/

namespace RC2

open qOracle

theorem LaunchProtect.requireAdmin_of_burned (lp : LaunchProtect) (sender : String)
    (h : lp.burned = true) : ∃ msg, lp.requireAdmin sender = .threw msg := by
  unfold LaunchProtect.requireAdmin
  by_cases hs : (sender != lp.admin) = true
  · exact ⟨_, by rw [if_pos hs]⟩
  · exact ⟨_, by rw [if_neg hs, if_pos h]⟩

theorem LaunchProtect.requireActive_of_burned (lp : LaunchProtect) (sender : String)
    (h : lp.burned = true) : ∃ msg, lp.requireActive sender = .threw msg := by
  unfold LaunchProtect.requireActive
  by_cases hs : (!lp.initialized && sender != lp.admin) = true
  · exact ⟨_, by rw [if_pos hs]⟩
  · exact ⟨_, by rw [if_neg hs, if_pos h]⟩

theorem LaunchProtect.finalizeLaunch_of_burned (lp : LaunchProtect) (sender : String)
    (h : lp.burned = true) : ∃ msg, lp.finalizeLaunch sender = (.threw msg, lp) := by
  obtain ⟨msg, hm⟩ := lp.requireAdmin_of_burned sender h
  exact ⟨msg, by simp [LaunchProtect.finalizeLaunch, hm]⟩

theorem LaunchProtect.burnKey_of_burned (lp : LaunchProtect) (sender : String)
    (h : lp.burned = true) : ∃ msg, lp.burnKey sender = (.threw msg, lp) := by
  obtain ⟨msg, hm⟩ := lp.requireAdmin_of_burned sender h
  exact ⟨msg, by simp [LaunchProtect.burnKey, hm]⟩

theorem LaunchProtect.burnKey_returned (lp : LaunchProtect) (sender : String)
    (h : (lp.burnKey sender).1 = .returned ()) :
    (lp.burnKey sender).2.burned = true ∧ (lp.burnKey sender).2.admin = DEAD ∧
      (lp.burnKey sender).2.initialized = lp.initialized := by
  unfold LaunchProtect.burnKey at h ⊢
  cases hr : lp.requireAdmin sender with
  | threw msg => rw [hr] at h; simp at h
  | returned u => simp

theorem LaunchProtect.guard_step_of_burned (lp : LaunchProtect) (call : LaunchProtect.Call)
    (h : lp.burned = true) : lp.step call = lp := by
  cases call with
  | finalizeLaunch sender =>
    obtain ⟨msg, hm⟩ := lp.finalizeLaunch_of_burned sender h
    simp [LaunchProtect.step, hm]
  | burnKey sender =>
    obtain ⟨msg, hm⟩ := lp.burnKey_of_burned sender h
    simp [LaunchProtect.step, hm]

theorem LaunchProtect.guard_run_of_burned (lp : LaunchProtect) (calls : List LaunchProtect.Call)
    (h : lp.burned = true) : lp.run calls = lp := by
  induction calls with
  | nil => rfl
  | cons call rest ih =>
    simp only [LaunchProtect.run, List.foldl_cons] at ih ⊢
    rw [lp.guard_step_of_burned call h]
    exact ih

theorem LaunchProtect.step_initialized (lp : LaunchProtect) (call : LaunchProtect.Call)
    (h : lp.initialized = true) : (lp.step call).initialized = true := by
  cases call with
  | finalizeLaunch sender =>
    simp only [LaunchProtect.step, LaunchProtect.finalizeLaunch]
    cases lp.requireAdmin sender <;> simp [h]
  | burnKey sender =>
    simp only [LaunchProtect.step, LaunchProtect.burnKey]
    cases lp.requireAdmin sender <;> simp [h]

theorem QOracleCommittee.committee_step_of_burned (env : Crypto) (c : QOracleCommittee)
    (call : QOracleCommittee.Call) (h : c.burned = true) : c.step env call = c := by
  cases call with
  | submit_price_update now update =>
    obtain ⟨msg, hm⟩ := c.toLaunchProtect.requireActive_of_burned "oracle_committee" h
    simp [QOracleCommittee.step, QOracleCommittee.submit_price_update, hm]
  | emergency_pause sender =>
    obtain ⟨msg, hm⟩ := c.toLaunchProtect.requireAdmin_of_burned sender h
    simp [QOracleCommittee.step, QOracleCommittee.emergency_pause, hm]
  | resume_operations sender =>
    obtain ⟨msg, hm⟩ := c.toLaunchProtect.requireAdmin_of_burned sender h
    simp [QOracleCommittee.step, QOracleCommittee.resume_operations, hm]
  | finalizeLaunch sender =>
    obtain ⟨msg, hm⟩ := c.toLaunchProtect.finalizeLaunch_of_burned sender h
    simp [QOracleCommittee.step, QOracleCommittee.finalizeLaunch, hm]
  | burnKey sender =>
    obtain ⟨msg, hm⟩ := c.toLaunchProtect.burnKey_of_burned sender h
    simp [QOracleCommittee.step, QOracleCommittee.burnKey, hm]

theorem QOracleCommittee.committee_run_of_burned (env : Crypto) (c : QOracleCommittee)
    (calls : List QOracleCommittee.Call) (h : c.burned = true) : c.run env calls = c := by
  induction calls with
  | nil => rfl
  | cons call rest ih =>
    simp only [QOracleCommittee.run, List.foldl_cons] at ih ⊢
    rw [c.committee_step_of_burned env call h]
    exact ih

theorem BankonPythaiToken.token_step_of_burned (t : BankonPythaiToken)
    (call : BankonPythaiToken.Call) (h : t.burned = true) : t.step call = t := by
  cases call with
  | mint_initial_supply sender =>
    obtain ⟨msg, hm⟩ := t.toLaunchProtect.requireAdmin_of_burned sender h
    simp [BankonPythaiToken.step, BankonPythaiToken.mint_initial_supply, hm]
  | transfer sender to_addr amount =>
    obtain ⟨msg, hm⟩ := t.toLaunchProtect.requireActive_of_burned sender h
    simp [BankonPythaiToken.step, BankonPythaiToken.transfer, hm]
  | burn sender amount =>
    obtain ⟨msg, hm⟩ := t.toLaunchProtect.requireActive_of_burned sender h
    simp [BankonPythaiToken.step, BankonPythaiToken.burn, hm]
  | finalizeLaunch sender =>
    obtain ⟨msg, hm⟩ := t.toLaunchProtect.finalizeLaunch_of_burned sender h
    simp [BankonPythaiToken.step, BankonPythaiToken.finalizeLaunch, hm]
  | burnKey sender =>
    obtain ⟨msg, hm⟩ := t.toLaunchProtect.burnKey_of_burned sender h
    simp [BankonPythaiToken.step, BankonPythaiToken.burnKey, hm]

theorem BankonPythaiToken.token_run_of_burned (t : BankonPythaiToken)
    (calls : List BankonPythaiToken.Call) (h : t.burned = true) : t.run calls = t := by
  induction calls with
  | nil => rfl
  | cons call rest ih =>
    simp only [BankonPythaiToken.run, List.foldl_cons] at ih ⊢
    rw [t.token_step_of_burned call h]
    exact ih

/-! ## Frame lemmas: member functions that hand back the guard -/

theorem QBTCSynthetic.qbtc_mint_guard (q : QBTCSynthetic) (oracle : QOracleCommittee) (user : String)
    (n : Nat) (u : PriceUpdate) : (q.mint oracle user n u).2.toLaunchProtect = q.toLaunchProtect := by
  unfold QBTCSynthetic.mint
  cases q.requireActive user <;> simp only []
  split_ifs <;> rfl

theorem QBTCSynthetic.qbtc_burn_guard (q : QBTCSynthetic) (user : String) (n : Nat) :
    (q.burn user n).2.toLaunchProtect = q.toLaunchProtect := by
  unfold QBTCSynthetic.burn
  cases q.requireActive user <;> simp only []
  split_ifs <;> rfl

theorem QBTCSynthetic.qbtc_transfer_guard (q : QBTCSynthetic) (sender to_addr : String) (n : Nat) :
    (q.transfer sender to_addr n).2.toLaunchProtect = q.toLaunchProtect := by
  unfold QBTCSynthetic.transfer
  cases q.requireActive sender <;> simp only []
  split_ifs <;> rfl

theorem QUSDStablecoin.qusd_mint_guard (q : QUSDStablecoin) (sender to_addr : String) (n : Nat) :
    (q.mint sender to_addr n).2.toLaunchProtect = q.toLaunchProtect := by
  unfold QUSDStablecoin.mint
  cases q.requireActive sender <;> simp only []
  split_ifs <;> rfl

theorem QUSDStablecoin.qusd_burn_guard (q : QUSDStablecoin) (sender from_addr : String) (n : Nat) :
    (q.burn sender from_addr n).2.toLaunchProtect = q.toLaunchProtect := by
  unfold QUSDStablecoin.burn
  cases q.requireActive sender <;> simp only []
  split_ifs <;> rfl

theorem QUSDStablecoin.qusd_transfer_guard (q : QUSDStablecoin) (sender to_addr : String) (n : Nat) :
    (q.transfer sender to_addr n).2.toLaunchProtect = q.toLaunchProtect := by
  unfold QUSDStablecoin.transfer
  cases q.requireActive sender <;> simp only []
  split_ifs <;> rfl

theorem CrossChainBridge.reset_guard (b : CrossChainBridge) (now : Nat) :
    (b.reset_daily_volume_if_needed now).toLaunchProtect = b.toLaunchProtect := by
  unfold CrossChainBridge.reset_daily_volume_if_needed
  split_ifs <;> rfl

theorem CrossChainBridge.swap_stx_for_qbtc_guard (b : CrossChainBridge)
    (oracle : QOracleCommittee) (qbtc : QBTCSynthetic) (now : Nat) (user : String) (n : Nat)
    (u : PriceUpdate) :
    (b.swap_stx_for_qbtc oracle qbtc now user n u).2.1.toLaunchProtect = b.toLaunchProtect ∧
    (b.swap_stx_for_qbtc oracle qbtc now user n u).2.2.toLaunchProtect = qbtc.toLaunchProtect := by
  unfold CrossChainBridge.swap_stx_for_qbtc
  cases b.requireActive user <;> simp only []
  · split_ifs
    · exact ⟨rfl, rfl⟩
    · exact ⟨rfl, rfl⟩
    · exact ⟨b.reset_guard now, rfl⟩
    · have hq := QBTCSynthetic.qbtc_mint_guard qbtc oracle user
        ((n * u.message.price) % U64 / qOracleConfig.QUSD_DECIMAL_MULTIPLIER) u
      split <;> rename_i heq <;> rw [heq] at hq <;> exact ⟨b.reset_guard now, hq⟩
  · simp

theorem CrossChainBridge.swap_qbtc_for_stx_guard (b : CrossChainBridge)
    (oracle : QOracleCommittee) (qbtc : QBTCSynthetic) (now : Nat) (user : String) (n : Nat)
    (u : PriceUpdate) :
    (b.swap_qbtc_for_stx oracle qbtc now user n u).2.1.toLaunchProtect = b.toLaunchProtect ∧
    (b.swap_qbtc_for_stx oracle qbtc now user n u).2.2.toLaunchProtect = qbtc.toLaunchProtect := by
  unfold CrossChainBridge.swap_qbtc_for_stx
  cases b.requireActive user <;> simp only []
  · split_ifs
    · exact ⟨rfl, rfl⟩
    · exact ⟨rfl, rfl⟩
    · exact ⟨b.reset_guard now, rfl⟩
    · have hq := QBTCSynthetic.qbtc_burn_guard qbtc user n
      split <;> rename_i heq <;> rw [heq] at hq <;> exact ⟨b.reset_guard now, hq⟩
  · simp

theorem QnosisMultisig.propose_guard (g : QnosisMultisig) (now : Nat) (proposer to_addr : String)
    (value : Nat) (data action parameter : String) :
    (g.propose now proposer to_addr value data action parameter).2.toLaunchProtect
      = g.toLaunchProtect := by
  unfold QnosisMultisig.propose
  cases g.requireActive proposer <;> simp only []
  split_ifs <;> rfl

theorem QnosisMultisig.sign_guard (g : QnosisMultisig) (nonce : Nat) (signer : String) :
    (g.sign nonce signer).2.toLaunchProtect = g.toLaunchProtect := by
  unfold QnosisMultisig.sign
  cases g.requireActive signer <;> simp only []
  by_cases hown : signer ∉ g.owners
  · rw [if_pos hown]
  · rw [if_neg hown]
    cases proposals_find g.proposals nonce <;> simp only []
    split_ifs <;> rfl

theorem QnosisMultisig.execute_guard (g : QnosisMultisig) (now nonce : Nat) :
    (g.execute now nonce).2.toLaunchProtect = g.toLaunchProtect := by
  unfold QnosisMultisig.execute
  cases proposals_find g.proposals nonce <;> simp only []
  split_ifs <;> rfl

/-! ## The BKPY ledger sum -/

theorem BKPY_TOTAL_SUPPLY_lt_U64 : qOracleConfig.BKPY_TOTAL_SUPPLY < U64 := by
  unfold qOracleConfig.BKPY_TOTAL_SUPPLY U64
  exact Nat.mod_lt _ (by norm_num)

/-- A transfer that passes its checks keeps the ledger sum when the credit does not wrap. -/
theorem Ledger_transfer_sum (b : Ledger) (sender to_addr : String) (amount : Nat)
    (hbal : amount ≤ b.get sender) (hsum : b.sum < U64) :
    ((b.set sender (b.get sender - amount)).set to_addr
      (((b.set sender (b.get sender - amount)).get to_addr + amount) % U64)).sum = b.sum ∧
    ((b.set sender (b.get sender - amount)).get to_addr + amount) % U64
      = (b.set sender (b.get sender - amount)).get to_addr + amount := by
  have h1 := Ledger.sum_set b sender (b.get sender - amount)
  have h2 := Ledger.get_le_sum b sender
  have h3 := Ledger.get_le_sum (b.set sender (b.get sender - amount)) to_addr
  have hno : (b.set sender (b.get sender - amount)).get to_addr + amount < U64 := by omega
  rw [Nat.mod_eq_of_lt hno]
  have h4 := Ledger.sum_set (b.set sender (b.get sender - amount)) to_addr
    ((b.set sender (b.get sender - amount)).get to_addr + amount)
  exact ⟨by omega, rfl⟩

/-- Every call keeps the sum of the balances at most the genesis supply, and 0
while nothing has been minted. -/
theorem BankonPythaiToken.step_sum (t : BankonPythaiToken) (call : BankonPythaiToken.Call)
    (h : t.balances.sum ≤ qOracleConfig.BKPY_TOTAL_SUPPLY ∧
      (t.minted = false → t.balances.sum = 0)) :
    (t.step call).balances.sum ≤ qOracleConfig.BKPY_TOTAL_SUPPLY ∧
      ((t.step call).minted = false → (t.step call).balances.sum = 0) := by
  have hlt := BKPY_TOTAL_SUPPLY_lt_U64
  cases call with
  | mint_initial_supply sender =>
    simp only [BankonPythaiToken.step, BankonPythaiToken.mint_initial_supply]
    cases t.requireAdmin sender with
    | threw msg => exact h
    | returned u =>
      simp only []
      by_cases hm : t.minted = true
      · rw [if_pos hm]; exact h
      · rw [if_neg hm]
        have hm' : t.minted = false := by simpa using hm
        have h0 := h.2 hm'
        have h1 := Ledger.sum_set t.balances sender qOracleConfig.BKPY_TOTAL_SUPPLY
        have h2 := Ledger.get_le_sum t.balances sender
        refine ⟨by simp only []; omega, fun hc => by simp at hc⟩
  | transfer sender to_addr amount =>
    simp only [BankonPythaiToken.step, BankonPythaiToken.transfer]
    cases t.requireActive sender with
    | threw msg => exact h
    | returned u =>
      simp only []
      split_ifs with h0 hb
      · exact h
      · exact h
      · have hs := (Ledger_transfer_sum t.balances sender to_addr amount (by omega)
          (by omega)).1
        simp only []
        rw [hs]
        exact h
  | burn sender amount =>
    simp only [BankonPythaiToken.step, BankonPythaiToken.burn]
    cases t.requireActive sender with
    | threw msg => exact h
    | returned u =>
      simp only []
      split_ifs with h0 hb
      · exact h
      · exact h
      · have h1 := Ledger.sum_set t.balances sender (t.balances.get sender - amount)
        have h2 := Ledger.get_le_sum t.balances sender
        simp only []
        refine ⟨by omega, fun hc => ?_⟩
        have := h.2 hc
        omega
  | finalizeLaunch sender => exact h
  | burnKey sender => exact h

theorem BankonPythaiToken.run_sum (t : BankonPythaiToken) (calls : List BankonPythaiToken.Call)
    (h : t.balances.sum ≤ qOracleConfig.BKPY_TOTAL_SUPPLY ∧
      (t.minted = false → t.balances.sum = 0)) :
    (t.run calls).balances.sum ≤ qOracleConfig.BKPY_TOTAL_SUPPLY ∧
      ((t.run calls).minted = false → (t.run calls).balances.sum = 0) := by
  induction calls generalizing t with
  | nil => exact h
  | cons call rest ih =>
    simp only [BankonPythaiToken.run, List.foldl_cons] at ih ⊢
    exact ih (t.step call) (t.step_sum call h)

theorem BankonPythaiToken.Reachable.sum_le (t : BankonPythaiToken) (h : t.Reachable) :
    t.balances.sum ≤ qOracleConfig.BKPY_TOTAL_SUPPLY := by
  obtain ⟨deployer, calls, rfl⟩ := h
  exact ((BankonPythaiToken.new deployer).run_sum calls
    ⟨by simp [BankonPythaiToken.new, Ledger.sum], fun _ => by simp [BankonPythaiToken.new, Ledger.sum]⟩).1

end RC2

/-! ## Lemmas on the serialization -/

namespace qOracle

theorem push_be64_eq (data : Bytes) (x : Nat) : push_be64 data x = data ++ BE64 x := by
  rfl

theorem BE64_length (x : Nat) : (BE64 x).length = 8 := by
  simp [BE64]

theorem serialize_eq (m : PriceMessage) :
    m.serialize = BE64 m.price ++ BE64 m.timestamp ++ [m.decimals] ++ BE64 m.nonce ++ m.asset := by
  simp [PriceMessage.serialize, push_be64_eq]

theorem BE64_byte (x k : Nat) : (x >>> k) &&& 0xFF = (x / 2 ^ k) % 256 := by
  rw [Nat.shiftRight_eq_div_pow]
  exact Nat.and_pow_two_sub_one_eq_mod (x / 2 ^ k) 8

theorem BE64_injective (x y : Nat) (hx : x < U64) (hy : y < U64) (h : BE64 x = BE64 y) :
    x = y := by
  unfold U64 at hx hy
  simp only [BE64, List.range, List.range.loop, List.map_cons, List.map_nil, BE64_byte,
    List.cons.injEq, and_true] at h
  norm_num at h
  omega

end qOracle

/-! ## Lemmas on activation -/

namespace qOracle

theorem active_oracle_count_eq_card (v : QuantumSignatureVerifier) :
    v.active_oracle_count = (Finset.univ.filter (fun j : Fin 7 => (v.oracles j).active = true)).card := by
  unfold QuantumSignatureVerifier.active_oracle_count
  simp [Fin.univ_def, Finset.filter, Finset.card]

theorem deactivate_oracle_oracles (v : QuantumSignatureVerifier) (i : Nat) (hi : i < 7)
    (j : Fin 7) :
    ((v.deactivate_oracle i).oracles j).public_key = (v.oracles j).public_key ∧
    ((v.deactivate_oracle i).oracles j).active = (decide (j.val ≠ i) && (v.oracles j).active) := by
  unfold QuantumSignatureVerifier.deactivate_oracle
  have h7 : i < NUM_ORACLES := hi
  rw [if_pos h7]
  by_cases hj : j.val = i
  · simp [hj]
  · simp [hj]

theorem first_entry_verifies_deactivate (env : Crypto) (v : QuantumSignatureVerifier) (i : Nat)
    (hi : i < 7) (msg : PriceMessage) (sigs : List OracleSignature) (j : Fin 7) :
    first_entry_verifies env (v.deactivate_oracle i) msg sigs j
      = first_entry_verifies env v msg sigs j := by
  unfold first_entry_verifies
  rw [(deactivate_oracle_oracles v i hi j).1]

/-- With fewer than 4 active oracles nothing verifies. -/
theorem verify_price_update_needs_four_active (env : Crypto) (w : QuantumSignatureVerifier)
    (u : PriceUpdate) (h : w.active_oracle_count < 4) : w.verify_price_update env u = false := by
  rw [verify_price_update_eq, counted_nil_seen, active_oracle_count_eq_card] at *
  have hsub : (Finset.univ.filter (fun j : Fin 7 =>
      (w.oracles j).active = true ∧ first_entry_verifies env w u.message u.signatures j = true)).card
      ≤ (Finset.univ.filter (fun j : Fin 7 => (w.oracles j).active = true)).card := by
    apply Finset.card_le_card
    intro j hj
    simp only [Finset.mem_filter, Finset.mem_univ, true_and] at hj ⊢
    exact hj.1
  simp only [decide_eq_false_iff_not, not_le]
  omega

end qOracle

/-! ## Lemmas on the committee history -/

namespace RC2

open qOracle

/-- An update is accepted exactly when the guard lets the call through, the
committee is not paused, validation passes and the signatures verify. -/
theorem QOracleCommittee.submit_true_iff (env : Crypto) (c : QOracleCommittee) (now : Nat)
    (u : PriceUpdate) :
    (c.submit_price_update env now u).1 = .returned true ↔
      c.requireActive "oracle_committee" = .returned () ∧ c.emergency_paused = false ∧
      c.validator.validate_price_update u.message now c.last_price.price = true ∧
      c.verifier.verify_price_update env u = true := by
  unfold QOracleCommittee.submit_price_update
  cases hreq : c.requireActive "oracle_committee" with
  | threw msg => simp
  | returned x =>
    cases hp : c.emergency_paused <;>
    cases hv : c.validator.validate_price_update u.message now c.last_price.price <;>
    cases hs : c.verifier.verify_price_update env u <;> simp

/-- What an accepting `submit_price_update` leaves behind. -/
theorem QOracleCommittee.submit_true_state (env : Crypto) (c : QOracleCommittee) (now : Nat)
    (u : PriceUpdate) (h : (c.submit_price_update env now u).1 = .returned true) :
    (c.submit_price_update env now u).2 =
      { c with last_price := u.message
               price_history :=
                 if (c.price_history ++ [u.message]).length > c.max_history then
                   (c.price_history ++ [u.message]).tail
                 else c.price_history ++ [u.message]
               oracle_performance :=
                 update_oracle_performance u.message.timestamp u.signatures c.oracle_performance
               failed_updates := 0 } := by
  obtain ⟨hreq, hp, hv, hs⟩ := (c.submit_true_iff env now u).1 h
  simp [QOracleCommittee.submit_price_update, hreq, hp, hv, hs]

/-- A submission that is not accepted leaves capacity, history and price as they were. -/
theorem QOracleCommittee.submit_not_true_state (env : Crypto) (c : QOracleCommittee) (now : Nat)
    (u : PriceUpdate) (h : ¬ (c.submit_price_update env now u).1 = .returned true) :
    (c.submit_price_update env now u).2.max_history = c.max_history ∧
    (c.submit_price_update env now u).2.price_history = c.price_history ∧
    (c.submit_price_update env now u).2.last_price = c.last_price := by
  unfold QOracleCommittee.submit_price_update at h ⊢
  cases hreq : c.requireActive "oracle_committee" with
  | threw msg => simp
  | returned x =>
    rw [hreq] at h
    cases hp : c.emergency_paused <;>
    cases hv : c.validator.validate_price_update u.message now c.last_price.price <;>
    cases hs : c.verifier.verify_price_update env u <;> simp [hp, hv, hs] at h ⊢

/-- The history fields after one call, when they changed at all. -/
theorem QOracleCommittee.step_history (env : Crypto) (c : QOracleCommittee)
    (call : QOracleCommittee.Call) :
    (c.step env call).max_history = c.max_history ∧
    (((c.step env call).price_history = c.price_history ∧
        (c.step env call).last_price = c.last_price) ∨
      ∃ m, (c.step env call).last_price = m ∧
        (c.step env call).price_history =
          if (c.price_history ++ [m]).length > c.max_history then (c.price_history ++ [m]).tail
          else c.price_history ++ [m]) := by
  cases call with
  | submit_price_update now update =>
    simp only [QOracleCommittee.step]
    by_cases h : (c.submit_price_update env now update).1 = .returned true
    · rw [QOracleCommittee.submit_true_state env c now update h]
      exact ⟨rfl, Or.inr ⟨update.message, rfl, rfl⟩⟩
    · have hsame := c.submit_not_true_state env now update h
      exact ⟨hsame.1, Or.inl hsame.2⟩
  | emergency_pause sender =>
    simp only [QOracleCommittee.step, QOracleCommittee.emergency_pause]
    cases c.requireAdmin sender <;> exact ⟨rfl, Or.inl ⟨rfl, rfl⟩⟩
  | resume_operations sender =>
    simp only [QOracleCommittee.step, QOracleCommittee.resume_operations]
    cases c.requireAdmin sender <;> exact ⟨rfl, Or.inl ⟨rfl, rfl⟩⟩
  | finalizeLaunch sender => exact ⟨rfl, Or.inl ⟨rfl, rfl⟩⟩
  | burnKey sender => exact ⟨rfl, Or.inl ⟨rfl, rfl⟩⟩

/-- Pushing onto a history of at most 1024 entries and evicting on overflow keeps
the bound and puts the pushed message last. -/
theorem history_push_bound (hist : List PriceMessage) (m : PriceMessage)
    (hlen : hist.length ≤ 1024) :
    (if (hist ++ [m]).length > 1024 then (hist ++ [m]).tail else hist ++ [m]).length
      = min (hist.length + 1) 1024 ∧
    (if (hist ++ [m]).length > 1024 then (hist ++ [m]).tail else hist ++ [m]).getLast? = some m ∧
    (if (hist ++ [m]).length > 1024 then (hist ++ [m]).tail else hist ++ [m])
      = (hist ++ [m]).drop ((hist ++ [m]).length - min (hist.length + 1) 1024) := by
  by_cases hfull : hist.length = 1024
  · have hgt : (hist ++ [m]).length > 1024 := by simp [hfull]
    rw [if_pos hgt]
    refine ⟨by simp [hfull], ?_, ?_⟩
    · cases hist with
      | nil => simp at hfull
      | cons a rest => simp
    · have : (hist ++ [m]).length - min (hist.length + 1) 1024 = 1 := by
        simp [hfull]
      rw [this, List.drop_one]
  · have hle : ¬ (hist ++ [m]).length > 1024 := by
      simp only [List.length_append, List.length_singleton]
      omega
    rw [if_neg hle]
    refine ⟨by simp only [List.length_append, List.length_singleton]; omega, by simp, ?_⟩
    have : (hist ++ [m]).length - min (hist.length + 1) 1024 = 0 := by
      simp only [List.length_append, List.length_singleton]
      omega
    rw [this, List.drop_zero]

/-- Every call keeps: capacity 1024, at most 1024 entries, last entry = current price. -/
theorem QOracleCommittee.step_history_inv (env : Crypto) (c : QOracleCommittee)
    (call : QOracleCommittee.Call)
    (h : c.max_history = 1024 ∧ c.price_history.length ≤ 1024 ∧
      (c.price_history ≠ [] → c.price_history.getLast? = some c.last_price)) :
    (c.step env call).max_history = 1024 ∧ (c.step env call).price_history.length ≤ 1024 ∧
      ((c.step env call).price_history ≠ [] →
        (c.step env call).price_history.getLast? = some (c.step env call).last_price) := by
  obtain ⟨hm, hrest⟩ := c.step_history env call
  rw [hm]
  refine ⟨h.1, ?_⟩
  rcases hrest with ⟨hh, hl⟩ | ⟨m, hl, hh⟩
  · rw [hh, hl]; exact h.2
  · rw [hh, hl, h.1]
    have hb := history_push_bound c.price_history m h.2.1
    exact ⟨by rw [hb.1]; omega, fun _ => hb.2.1⟩

theorem QOracleCommittee.run_history_inv (env : Crypto) (c : QOracleCommittee)
    (calls : List QOracleCommittee.Call)
    (h : c.max_history = 1024 ∧ c.price_history.length ≤ 1024 ∧
      (c.price_history ≠ [] → c.price_history.getLast? = some c.last_price)) :
    (c.run env calls).max_history = 1024 ∧ (c.run env calls).price_history.length ≤ 1024 ∧
      ((c.run env calls).price_history ≠ [] →
        (c.run env calls).price_history.getLast? = some (c.run env calls).last_price) := by
  induction calls generalizing c with
  | nil => exact h
  | cons call rest ih =>
    simp only [QOracleCommittee.run, List.foldl_cons] at ih ⊢
    exact ih (c.step env call) (c.step_history_inv env call h)

theorem QOracleCommittee.Reachable.history_inv (env : Crypto) (c : QOracleCommittee)
    (h : c.Reachable env) :
    c.max_history = 1024 ∧ c.price_history.length ≤ 1024 ∧
      (c.price_history ≠ [] → c.price_history.getLast? = some c.last_price) := by
  obtain ⟨admin, keys, addrs, calls, rfl⟩ := h
  exact (QOracleCommittee.new admin keys addrs).run_history_inv env calls
    ⟨rfl, by simp [QOracleCommittee.new], fun hne => absurd rfl hne⟩

end RC2

/-! ## Lemmas on the one-shot mint -/

namespace RC2

open qOracle

/-- No call clears the `minted` flag. -/
theorem BankonPythaiToken.step_minted (t : BankonPythaiToken) (call : BankonPythaiToken.Call)
    (h : t.minted = true) : (t.step call).minted = true := by
  cases call with
  | mint_initial_supply sender =>
    simp only [BankonPythaiToken.step, BankonPythaiToken.mint_initial_supply]
    cases t.requireAdmin sender <;> simp [h]
  | transfer sender to_addr amount =>
    simp only [BankonPythaiToken.step, BankonPythaiToken.transfer]
    cases t.requireActive sender <;> simp only []
    · split_ifs <;> exact h
    · exact h
  | burn sender amount =>
    simp only [BankonPythaiToken.step, BankonPythaiToken.burn]
    cases t.requireActive sender <;> simp only []
    · split_ifs <;> exact h
    · exact h
  | finalizeLaunch sender => exact h
  | burnKey sender => exact h

theorem BankonPythaiToken.run_minted (t : BankonPythaiToken)
    (calls : List BankonPythaiToken.Call) (h : t.minted = true) : (t.run calls).minted = true := by
  induction calls generalizing t with
  | nil => exact h
  | cons call rest ih =>
    simp only [BankonPythaiToken.run, List.foldl_cons] at ih ⊢
    exact ih (t.step call) (t.step_minted call h)

/-- A call other than `burnKey` leaves the admin and the burned flag as they were. -/
theorem BankonPythaiToken.step_admin (t : BankonPythaiToken) (call : BankonPythaiToken.Call)
    (hc : call.isBurnKey = false) :
    (t.step call).admin = t.admin ∧ (t.step call).burned = t.burned := by
  cases call with
  | mint_initial_supply sender =>
    simp only [BankonPythaiToken.step, BankonPythaiToken.mint_initial_supply]
    cases t.requireAdmin sender <;> simp only []
    · split_ifs <;> exact ⟨rfl, rfl⟩
    · simp
  | transfer sender to_addr amount =>
    simp only [BankonPythaiToken.step, BankonPythaiToken.transfer]
    cases t.requireActive sender <;> simp only []
    · split_ifs <;> exact ⟨rfl, rfl⟩
    · simp
  | burn sender amount =>
    simp only [BankonPythaiToken.step, BankonPythaiToken.burn]
    cases t.requireActive sender <;> simp only []
    · split_ifs <;> exact ⟨rfl, rfl⟩
    · simp
  | finalizeLaunch sender =>
    simp only [BankonPythaiToken.step, BankonPythaiToken.finalizeLaunch,
      LaunchProtect.finalizeLaunch]
    cases t.requireAdmin sender <;> exact ⟨rfl, rfl⟩
  | burnKey sender => simp [BankonPythaiToken.Call.isBurnKey] at hc

theorem BankonPythaiToken.run_admin (t : BankonPythaiToken)
    (calls : List BankonPythaiToken.Call) (hc : ∀ call ∈ calls, call.isBurnKey = false) :
    (t.run calls).admin = t.admin ∧ (t.run calls).burned = t.burned := by
  induction calls generalizing t with
  | nil => exact ⟨rfl, rfl⟩
  | cons call rest ih =>
    simp only [BankonPythaiToken.run, List.foldl_cons] at ih ⊢
    have h1 := t.step_admin call (hc call (List.mem_cons_self _ _))
    have h2 := ih (t.step call) (fun c hcm => hc c (List.mem_cons_of_mem _ hcm))
    exact ⟨h2.1.trans h1.1, h2.2.trans h1.2⟩

/-- Once minted, `mint_initial_supply` changes nothing and never returns true. -/
theorem BankonPythaiToken.mint_of_minted (t : BankonPythaiToken) (sender : String)
    (h : t.minted = true) :
    (t.mint_initial_supply sender).2 = t ∧ (t.mint_initial_supply sender).1 ≠ .returned true := by
  unfold BankonPythaiToken.mint_initial_supply
  cases t.requireAdmin sender <;> simp [h]

/-- Once minted, a call by the admin of a token that is not burned returns false. -/
theorem BankonPythaiToken.mint_again_false (s : BankonPythaiToken) (admin : String)
    (hm : s.minted = true) (ha : s.admin = admin) (hb : s.burned = false) :
    s.mint_initial_supply admin = (.returned false, s) := by
  simp [BankonPythaiToken.mint_initial_supply, LaunchProtect.requireAdmin, ha, hb, hm]

end RC2

/-! ## Lemmas on ledger keys -/

theorem Ledger.set_keys (b : Ledger) (a : String) (x : Nat) :
    ∀ k, k ∈ (Ledger.set b a x).map Prod.fst ↔ k = a ∨ k ∈ b.map Prod.fst := by
  induction b with
  | nil => intro k; simp [Ledger.set]
  | cons kv rest ih =>
    obtain ⟨k', v⟩ := kv
    intro k
    by_cases h : k' = a
    · subst h
      simp [Ledger.set]
    · simp only [Ledger.set, h, if_false, List.map_cons, List.mem_cons, ih k]
      tauto

theorem Ledger.set_nodup (b : Ledger) (a : String) (x : Nat) (h : (b.map Prod.fst).Nodup) :
    ((Ledger.set b a x).map Prod.fst).Nodup := by
  induction b with
  | nil => simp [Ledger.set]
  | cons kv rest ih =>
    obtain ⟨k', v⟩ := kv
    simp only [List.map_cons, List.nodup_cons] at h
    by_cases hk : k' = a
    · subst hk
      simpa [Ledger.set] using h
    · simp only [Ledger.set, hk, if_false, List.map_cons, List.nodup_cons]
      refine ⟨?_, ih h.2⟩
      rw [Ledger.set_keys]
      rintro (h1 | h1)
      · exact hk h1
      · exact h.1 h1

theorem Ledger.get_cons_of_not_mem (k : String) (v : Nat) (rest : Ledger) (ks : List String)
    (h : k ∉ ks) : ks.map (Ledger.get ((k, v) :: rest)) = ks.map (Ledger.get rest) := by
  apply List.map_congr_left
  intro a ha
  have : k ≠ a := fun e => h (e ▸ ha)
  simp [Ledger.get, this]

/-- With distinct keys, the stored sum is the sum of the balances of the accounts. -/
theorem Ledger.sum_eq_sum_get (b : Ledger) (h : (b.map Prod.fst).Nodup) :
    b.sum = ((b.map Prod.fst).map (Ledger.get b)).sum := by
  induction b with
  | nil => simp [Ledger.sum]
  | cons kv rest ih =>
    obtain ⟨k, v⟩ := kv
    simp only [List.map_cons, List.nodup_cons] at h
    simp only [Ledger.sum, List.map_cons, List.sum_cons]
    rw [Ledger.get_cons_of_not_mem k v rest _ h.1]
    have := ih h.2
    simp only [Ledger.sum] at this
    rw [← this]
    simp [Ledger.get]

/-! ## Lemmas on burns and the BKPY sum -/

namespace RC2

open qOracle

/-- Every call keeps the keys of the BKPY ledger distinct. -/
theorem BankonPythaiToken.bkpy_step_nodup (t : BankonPythaiToken) (call : BankonPythaiToken.Call)
    (h : (t.balances.map Prod.fst).Nodup) : ((t.step call).balances.map Prod.fst).Nodup := by
  cases call with
  | mint_initial_supply sender =>
    simp only [BankonPythaiToken.step, BankonPythaiToken.mint_initial_supply]
    cases t.requireAdmin sender with
    | threw msg => exact h
    | returned u =>
      simp only []
      split_ifs
      · exact h
      · exact Ledger.set_nodup _ _ _ h
  | transfer sender to_addr amount =>
    simp only [BankonPythaiToken.step, BankonPythaiToken.transfer]
    cases t.requireActive sender with
    | threw msg => exact h
    | returned u =>
      simp only []
      split_ifs
      · exact h
      · exact h
      · exact Ledger.set_nodup _ _ _ (Ledger.set_nodup _ _ _ h)
  | burn sender amount =>
    simp only [BankonPythaiToken.step, BankonPythaiToken.burn]
    cases t.requireActive sender with
    | threw msg => exact h
    | returned u =>
      simp only []
      split_ifs
      · exact h
      · exact h
      · exact Ledger.set_nodup _ _ _ h
  | finalizeLaunch sender => exact h
  | burnKey sender => exact h

theorem BankonPythaiToken.bkpy_run_nodup (t : BankonPythaiToken) (calls : List BankonPythaiToken.Call)
    (h : (t.balances.map Prod.fst).Nodup) : ((t.run calls).balances.map Prod.fst).Nodup := by
  induction calls generalizing t with
  | nil => exact h
  | cons call rest ih =>
    simp only [BankonPythaiToken.run, List.foldl_cons] at ih ⊢
    exact ih (t.step call) (t.bkpy_step_nodup call h)

/-- A `burn` either succeeds, debiting a funded non-zero amount, or changes nothing. -/
theorem BankonPythaiToken.bkpy_burn_cases (t : BankonPythaiToken) (sender : String) (amount : Nat) :
    ((t.burn sender amount).1 = .returned true ∧ amount ≠ 0 ∧ amount ≤ t.balances.get sender ∧
      (t.burn sender amount).2 =
        { t with balances := t.balances.set sender (t.balances.get sender - amount) }) ∨
    (¬ (t.burn sender amount).1 = .returned true ∧ (t.burn sender amount).2 = t) := by
  unfold BankonPythaiToken.burn
  cases t.requireActive sender with
  | threw msg => right; simp
  | returned u =>
    simp only []
    by_cases h0 : amount = 0
    · right; simp [h0]
    · by_cases hlt : t.balances.get sender < amount
      · right; simp [h0, hlt]
      · left
        simp only [h0, hlt, if_false]
        exact ⟨trivial, h0, by omega, trivial⟩

/-- Once minted, a call lowers the ledger sum by exactly what it burns. -/
theorem BankonPythaiToken.step_sum_burned (t : BankonPythaiToken)
    (call : BankonPythaiToken.Call) (hm : t.minted = true)
    (hs : t.balances.sum ≤ qOracleConfig.BKPY_TOTAL_SUPPLY) :
    (t.step call).balances.sum + t.burned_in [call] = t.balances.sum := by
  have hlt := BKPY_TOTAL_SUPPLY_lt_U64
  cases call with
  | mint_initial_supply sender =>
    simp only [BankonPythaiToken.step, BankonPythaiToken.burned_in,
      BankonPythaiToken.mint_initial_supply]
    cases t.requireAdmin sender <;> simp [hm]
  | transfer sender to_addr amount =>
    simp only [BankonPythaiToken.step, BankonPythaiToken.burned_in, BankonPythaiToken.transfer]
    cases t.requireActive sender with
    | threw msg => simp
    | returned u =>
      simp only []
      split_ifs with h0 hb
      · simp
      · simp
      · have hsum := (Ledger_transfer_sum t.balances sender to_addr amount (by omega)
          (by omega)).1
        simp only [add_zero]
        exact hsum
  | burn sender amount =>
    simp only [BankonPythaiToken.step, BankonPythaiToken.burned_in, add_zero]
    rcases t.bkpy_burn_cases sender amount with ⟨h1, _, h3, h4⟩ | ⟨h1, h2⟩
    · rw [if_pos h1, h4]
      have h5 := Ledger.sum_set t.balances sender (t.balances.get sender - amount)
      have h6 := Ledger.get_le_sum t.balances sender
      simp only []
      omega
    · rw [if_neg h1, h2]
      omega
  | finalizeLaunch sender => simp [BankonPythaiToken.step, BankonPythaiToken.burned_in,
      BankonPythaiToken.finalizeLaunch]
  | burnKey sender => simp [BankonPythaiToken.step, BankonPythaiToken.burned_in,
      BankonPythaiToken.burnKey]

theorem BankonPythaiToken.run_sum_burned (t : BankonPythaiToken)
    (calls : List BankonPythaiToken.Call) (hm : t.minted = true)
    (hs : t.balances.sum ≤ qOracleConfig.BKPY_TOTAL_SUPPLY) :
    (t.run calls).balances.sum + t.burned_in calls = t.balances.sum := by
  induction calls generalizing t with
  | nil => simp [BankonPythaiToken.run, BankonPythaiToken.burned_in]
  | cons call rest ih =>
    have h1 := t.step_sum_burned call hm hs
    have h2 := ih (t.step call) (t.step_minted call hm) (by omega)
    simp only [BankonPythaiToken.run, List.foldl_cons] at h2 ⊢
    have h3 : t.burned_in (call :: rest) = t.burned_in [call] + (t.step call).burned_in rest := by
      simp [BankonPythaiToken.burned_in]
    omega

/-- A successful first mint was made on an unminted token and stores the supply. -/
theorem BankonPythaiToken.bkpy_mint_true_state (t : BankonPythaiToken) (sender : String)
    (h : (t.mint_initial_supply sender).1 = .returned true) :
    t.minted = false ∧
    (t.mint_initial_supply sender).2 =
      { t with balances := t.balances.set sender qOracleConfig.BKPY_TOTAL_SUPPLY
               minted := true } := by
  unfold BankonPythaiToken.mint_initial_supply at h ⊢
  cases hr : t.requireAdmin sender with
  | threw msg => rw [hr] at h; simp at h
  | returned x =>
    rw [hr] at h
    cases hm : t.minted with
    | true => simp [hm] at h
    | false => simp

/-- A successful transfer moved a funded, non-zero amount. -/
theorem BankonPythaiToken.bkpy_transfer_true (t : BankonPythaiToken) (A B : String) (x : Nat)
    (h : (t.transfer A B x).1 = .returned true) : x ≠ 0 ∧ x ≤ t.balances.get A := by
  unfold BankonPythaiToken.transfer at h
  cases hr : t.requireActive A with
  | threw msg => rw [hr] at h; simp at h
  | returned u =>
    rw [hr] at h
    simp only [] at h
    by_cases h0 : x = 0
    · simp [h0] at h
    · by_cases hlt : t.balances.get A < x
      · simp [h0, hlt] at h
      · exact ⟨h0, by omega⟩

end RC2

/-! ## Lemmas on the qBTC mint and the swaps -/

namespace RC2

open qOracle

/-- A qBTC mint that returns true credited the amount to the user and to the supply. -/
theorem QBTCSynthetic.qbtc_mint_true_state (q : QBTCSynthetic) (oracle : QOracleCommittee)
    (user : String) (n : Nat) (u : PriceUpdate) (h : (q.mint oracle user n u).1 = .returned true) :
    (q.mint oracle user n u).2 =
      { q with balances := q.balances.set user ((q.balances.get user + n) % U64)
               total_supply := (q.total_supply + n) % U64 } := by
  unfold QBTCSynthetic.mint at h ⊢
  cases hr : q.requireActive user with
  | threw msg => rw [hr] at h; simp at h
  | returned x =>
    rw [hr] at h
    simp only [] at h ⊢
    split_ifs at h ⊢ with h1 h2 h3
    · simp at h
    · simp at h
    · simp at h
    · rfl

/-- The freshness test of `mint` on an active ledger and an unpaused committee. -/
theorem QBTCSynthetic.qbtc_mint_true_iff (q : QBTCSynthetic) (oracle : QOracleCommittee)
    (user : String) (n : Nat) (u : PriceUpdate)
    (hinit : q.initialized = true) (hnb : q.burned = false)
    (hp : oracle.emergency_paused = false) (hn : 0 < n) :
    ((q.mint oracle user n u).1 = .returned true ↔
      ¬ u.message.timestamp <
        (oracle.last_price.timestamp + U64 - qOracleConfig.PRICE_UPDATE_TIMEOUT) % U64) ∧
    (¬ (q.mint oracle user n u).1 = .returned true → q.mint oracle user n u = (.returned false, q)) := by
  have hact : q.requireActive user = .returned () := by
    simp [LaunchProtect.requireActive, hinit, hnb]
  have hn0 : ¬ n = 0 := by omega
  unfold QBTCSynthetic.mint
  simp only [hact, QOracleCommittee.is_emergency_paused, hp, hn0, if_false,
    QOracleCommittee.get_current_price]
  by_cases hf : u.message.timestamp <
      (oracle.last_price.timestamp + U64 - qOracleConfig.PRICE_UPDATE_TIMEOUT) % U64
  · simp [hf]
  · simp [hf]

/-- A qBTC burn by the bridge either succeeds, debiting the user and the supply, or
leaves the ledger as it was. -/
theorem QBTCSynthetic.qbtc_burn_true_state (q : QBTCSynthetic) (user : String) (n : Nat)
    (h : (q.burn user n).1 = .returned true) :
    n ≤ q.balances.get user ∧
    (q.burn user n).2 =
      { q with balances := q.balances.set user (q.balances.get user - n)
               total_supply := (q.total_supply + U64 - n) % U64 } := by
  unfold QBTCSynthetic.burn at h ⊢
  cases hr : q.requireActive user with
  | threw msg => rw [hr] at h; simp at h
  | returned x =>
    rw [hr] at h
    simp only [] at h ⊢
    split_ifs at h ⊢ with h1 h2
    · simp at h
    · simp at h
    · exact ⟨by omega, rfl⟩

/-- What a `swap_stx_for_qbtc` that returns true has done. -/
theorem CrossChainBridge.swap_stx_true (b : CrossChainBridge) (oracle : QOracleCommittee)
    (qbtc : QBTCSynthetic) (now : Nat) (user : String) (a : Nat) (u : PriceUpdate)
    (h : (b.swap_stx_for_qbtc oracle qbtc now user a u).1 = .returned true) :
    qOracleConfig.MIN_SWAP_AMOUNT ≤ a ∧
    (qbtc.mint oracle user
      ((a * u.message.price) % U64 / qOracleConfig.QUSD_DECIMAL_MULTIPLIER) u).1
        = .returned true ∧
    (b.swap_stx_for_qbtc oracle qbtc now user a u).2.2 =
      (qbtc.mint oracle user
        ((a * u.message.price) % U64 / qOracleConfig.QUSD_DECIMAL_MULTIPLIER) u).2 ∧
    (b.swap_stx_for_qbtc oracle qbtc now user a u).2.1.bridge_balances =
      (b.reset_daily_volume_if_needed now).bridge_balances.set user
        (((b.reset_daily_volume_if_needed now).bridge_balances.get user + a) % U64) := by
  unfold CrossChainBridge.swap_stx_for_qbtc at h ⊢
  cases hr : b.requireActive user with
  | threw msg => rw [hr] at h; simp at h
  | returned x =>
    rw [hr] at h
    simp only [] at h ⊢
    by_cases hp : oracle.is_emergency_paused = true
    · simp [hp] at h
    · by_cases hmin : a < qOracleConfig.MIN_SWAP_AMOUNT
      · simp [hp, hmin] at h
      · by_cases hvol : ((b.reset_daily_volume_if_needed now).daily_volume + a) % U64
            > qOracleConfig.MAX_DAILY_VOLUME
        · simp [hp, hmin, hvol] at h
        · simp only [hp, hmin, hvol, if_false] at h ⊢
          cases hm : qbtc.mint oracle user
              ((a * u.message.price) % U64 / qOracleConfig.QUSD_DECIMAL_MULTIPLIER) u with
          | mk o q1 =>
            rw [hm] at h
            cases o with
            | threw msg => simp at h
            | returned v =>
              cases v with
              | false => simp at h
              | true => exact ⟨by omega, rfl, rfl, rfl⟩

/-- What a `swap_qbtc_for_stx` that returns true has done. -/
theorem CrossChainBridge.swap_qbtc_true (b : CrossChainBridge) (oracle : QOracleCommittee)
    (qbtc : QBTCSynthetic) (now : Nat) (user : String) (a : Nat) (u : PriceUpdate)
    (h : (b.swap_qbtc_for_stx oracle qbtc now user a u).1 = .returned true) :
    qOracleConfig.MIN_SWAP_AMOUNT ≤ a ∧
    (qbtc.burn user a).1 = .returned true ∧
    (b.swap_qbtc_for_stx oracle qbtc now user a u).2.2 = (qbtc.burn user a).2 ∧
    (b.swap_qbtc_for_stx oracle qbtc now user a u).2.1.bridge_balances =
      (b.reset_daily_volume_if_needed now).bridge_balances.set user
        (((b.reset_daily_volume_if_needed now).bridge_balances.get user
          + (a * u.message.price) % U64 / qOracleConfig.QUSD_DECIMAL_MULTIPLIER) % U64) := by
  unfold CrossChainBridge.swap_qbtc_for_stx at h ⊢
  cases hr : b.requireActive user with
  | threw msg => rw [hr] at h; simp at h
  | returned x =>
    rw [hr] at h
    simp only [] at h ⊢
    by_cases hp : oracle.is_emergency_paused = true
    · simp [hp] at h
    · by_cases hmin : a < qOracleConfig.MIN_SWAP_AMOUNT
      · simp [hp, hmin] at h
      · by_cases hvol : ((b.reset_daily_volume_if_needed now).daily_volume
            + (a * u.message.price) % U64 / qOracleConfig.QUSD_DECIMAL_MULTIPLIER) % U64
            > qOracleConfig.MAX_DAILY_VOLUME
        · simp [hp, hmin, hvol] at h
        · simp only [hp, hmin, hvol, if_false] at h ⊢
          cases hm : qbtc.burn user a with
          | mk o q1 =>
            rw [hm] at h
            cases o with
            | threw msg => simp at h
            | returned v =>
              cases v with
              | false => simp at h
              | true => exact ⟨by omega, rfl, rfl, rfl⟩

theorem CrossChainBridge.reset_bridge_balances (b : CrossChainBridge) (now : Nat) :
    (b.reset_daily_volume_if_needed now).bridge_balances = b.bridge_balances := by
  unfold CrossChainBridge.reset_daily_volume_if_needed
  split_ifs <;> rfl

/-- What the swaps credit when the 64-bit product a * p does not wrap: a
`swap_stx_for_qbtc(user, a, u)` that returns true has a ≥ 1000, raises the qBTC
balance of user and the qBTC supply by floor(a * p / 10^15) and the bridge
balance of user by a; a `swap_qbtc_for_stx(user, a, u)` that returns true has
1000 ≤ a ≤ balance, lowers the qBTC balance of user by a and raises the bridge
balance of user by floor(a * p / 10^15). The balances are 64-bit counters. -/
theorem swap_output_without_wrap (b : CrossChainBridge) (oracle : QOracleCommittee)
    (qbtc : QBTCSynthetic) (now : Nat) (user : String) (a : Nat) (u : PriceUpdate)
    (hprod : a * u.message.price < U64) :
    ((b.swap_stx_for_qbtc oracle qbtc now user a u).1 = .returned true →
      1000 ≤ a ∧
      (b.swap_stx_for_qbtc oracle qbtc now user a u).2.2.balanceOf user
        = (qbtc.balanceOf user + a * u.message.price / 1000000000000000) % U64 ∧
      (b.swap_stx_for_qbtc oracle qbtc now user a u).2.2.totalSupply
        = (qbtc.totalSupply + a * u.message.price / 1000000000000000) % U64 ∧
      (b.swap_stx_for_qbtc oracle qbtc now user a u).2.1.getBridgeBalance user
        = (b.getBridgeBalance user + a) % U64) ∧
    ((b.swap_qbtc_for_stx oracle qbtc now user a u).1 = .returned true →
      1000 ≤ a ∧ a ≤ qbtc.balanceOf user ∧
      (b.swap_qbtc_for_stx oracle qbtc now user a u).2.2.balanceOf user
        = qbtc.balanceOf user - a ∧
      (b.swap_qbtc_for_stx oracle qbtc now user a u).2.1.getBridgeBalance user
        = (b.getBridgeBalance user + a * u.message.price / 1000000000000000) % U64) := by
  have hmod : (a * u.message.price) % U64 = a * u.message.price := Nat.mod_eq_of_lt hprod
  simp only [QBTCSynthetic.balanceOf, QBTCSynthetic.totalSupply,
    CrossChainBridge.getBridgeBalance]
  constructor
  · intro h
    obtain ⟨hmin, hm, hq, hb⟩ := b.swap_stx_true oracle qbtc now user a u h
    rw [hq, hb, qbtc.qbtc_mint_true_state oracle user _ u hm, b.reset_bridge_balances now, hmod]
    simp only [Ledger.get_set_same]
    refine ⟨hmin, ?_, ?_, ?_⟩ <;> first | rfl | trivial
  · intro h
    obtain ⟨hmin, hm, hq, hb⟩ := b.swap_qbtc_true oracle qbtc now user a u h
    obtain ⟨hbal, hst⟩ := qbtc.qbtc_burn_true_state user a hm
    rw [hq, hb, hst, b.reset_bridge_balances now, hmod]
    simp only [Ledger.get_set_same]
    refine ⟨hmin, hbal, ?_, ?_⟩ <;> first | rfl | trivial

/-- The swap of scenario 4: p = 10^15 and a = 2000 give 2000 qBTC, the bridge
balance of alice rising by 2000. -/
theorem swap_output_without_wrap_witness :
    2000 * Fixture.upd_unit.message.price < U64 ∧
    (Fixture.b1.swap_stx_for_qbtc Fixture.c2 Fixture.q1 1700000100 "alice" 2000
      Fixture.upd_unit).1 = .returned true ∧
    (Fixture.b1.swap_stx_for_qbtc Fixture.c2 Fixture.q1 1700000100 "alice" 2000
      Fixture.upd_unit).2.2.balanceOf "alice"
        = (Fixture.q1.balanceOf "alice"
            + 2000 * Fixture.upd_unit.message.price / 1000000000000000) % U64 ∧
    2000 * Fixture.upd_unit.message.price / 1000000000000000 = 2000 ∧
    (Fixture.b1.swap_stx_for_qbtc Fixture.c2 Fixture.q1 1700000100 "alice" 2000
      Fixture.upd_unit).2.1.getBridgeBalance "alice"
        = (Fixture.b1.getBridgeBalance "alice" + 2000) % U64 :=
  ⟨by decide, by decide,
   ((swap_output_without_wrap Fixture.b1 Fixture.c2 Fixture.q1 1700000100 "alice" 2000
      Fixture.upd_unit (by decide)).1 (by decide)).2.1,
   by decide,
   ((swap_output_without_wrap Fixture.b1 Fixture.c2 Fixture.q1 1700000100 "alice" 2000
      Fixture.upd_unit (by decide)).1 (by decide)).2.2.2⟩

end RC2

/-! ## Lemmas on the bridge volume -/

namespace RC2

open qOracle

/-- The three shapes of the bridge after `swap_stx_for_qbtc`: untouched, reset
only, or reset and booked with a tested 64-bit sum. -/
theorem CrossChainBridge.swap_stx_volume (b : CrossChainBridge) (oracle : QOracleCommittee)
    (qbtc : QBTCSynthetic) (now : Nat) (user : String) (a : Nat) (u : PriceUpdate) :
    ((b.swap_stx_for_qbtc oracle qbtc now user a u).2.1 = b ∧
      (b.swap_stx_for_qbtc oracle qbtc now user a u).1 ≠ .returned true) ∨
    ((b.swap_stx_for_qbtc oracle qbtc now user a u).2.1 = b.reset_daily_volume_if_needed now ∧
      (b.swap_stx_for_qbtc oracle qbtc now user a u).1 ≠ .returned true ∧
      ((b.reset_daily_volume_if_needed now).daily_volume + a) % U64
        > qOracleConfig.MAX_DAILY_VOLUME) ∨
    (((b.reset_daily_volume_if_needed now).daily_volume + a) % U64
        ≤ qOracleConfig.MAX_DAILY_VOLUME ∧
      (b.swap_stx_for_qbtc oracle qbtc now user a u).2.1.daily_volume
        = ((b.reset_daily_volume_if_needed now).daily_volume + a) % U64 ∧
      (b.swap_stx_for_qbtc oracle qbtc now user a u).2.1.last_volume_reset
        = (b.reset_daily_volume_if_needed now).last_volume_reset) := by
  unfold CrossChainBridge.swap_stx_for_qbtc
  cases hr : b.requireActive user with
  | threw msg => left; simp
  | returned x =>
    simp only []
    by_cases hp : oracle.is_emergency_paused = true
    · left; simp [hp]
    · by_cases hmin : a < qOracleConfig.MIN_SWAP_AMOUNT
      · left; simp [hp, hmin]
      · by_cases hvol : ((b.reset_daily_volume_if_needed now).daily_volume + a) % U64
            > qOracleConfig.MAX_DAILY_VOLUME
        · right; left; simp [hp, hmin, hvol]
        · right; right
          simp only [hp, hmin, hvol, if_false]
          refine ⟨by omega, ?_, ?_⟩
          · cases hm : qbtc.mint oracle user
                ((a * u.message.price) % U64 / qOracleConfig.QUSD_DECIMAL_MULTIPLIER) u with
            | mk o q1 =>
              cases o with
              | threw msg => rfl
              | returned v => cases v <;> rfl
          · cases hm : qbtc.mint oracle user
                ((a * u.message.price) % U64 / qOracleConfig.QUSD_DECIMAL_MULTIPLIER) u with
            | mk o q1 =>
              cases o with
              | threw msg => rfl
              | returned v => cases v <;> rfl

/-- The three shapes of the bridge after `swap_qbtc_for_stx`: untouched, reset
only, or reset and booked with a tested 64-bit sum after a successful burn. -/
theorem CrossChainBridge.swap_qbtc_volume (b : CrossChainBridge) (oracle : QOracleCommittee)
    (qbtc : QBTCSynthetic) (now : Nat) (user : String) (a : Nat) (u : PriceUpdate) :
    ((b.swap_qbtc_for_stx oracle qbtc now user a u).2.1 = b ∧
      (b.swap_qbtc_for_stx oracle qbtc now user a u).1 ≠ .returned true) ∨
    ((b.swap_qbtc_for_stx oracle qbtc now user a u).2.1 = b.reset_daily_volume_if_needed now ∧
      (b.swap_qbtc_for_stx oracle qbtc now user a u).1 ≠ .returned true) ∨
    (((b.reset_daily_volume_if_needed now).daily_volume
          + (a * u.message.price) % U64 / qOracleConfig.QUSD_DECIMAL_MULTIPLIER) % U64
        ≤ qOracleConfig.MAX_DAILY_VOLUME ∧
      (b.swap_qbtc_for_stx oracle qbtc now user a u).2.1.daily_volume
        = ((b.reset_daily_volume_if_needed now).daily_volume
          + (a * u.message.price) % U64 / qOracleConfig.QUSD_DECIMAL_MULTIPLIER) % U64 ∧
      (b.swap_qbtc_for_stx oracle qbtc now user a u).2.1.last_volume_reset
        = (b.reset_daily_volume_if_needed now).last_volume_reset) := by
  unfold CrossChainBridge.swap_qbtc_for_stx
  cases hr : b.requireActive user with
  | threw msg => left; simp
  | returned x =>
    simp only []
    by_cases hp : oracle.is_emergency_paused = true
    · left; simp [hp]
    · by_cases hmin : a < qOracleConfig.MIN_SWAP_AMOUNT
      · left; simp [hp, hmin]
      · by_cases hvol : ((b.reset_daily_volume_if_needed now).daily_volume
            + (a * u.message.price) % U64 / qOracleConfig.QUSD_DECIMAL_MULTIPLIER) % U64
            > qOracleConfig.MAX_DAILY_VOLUME
        · right; left; simp [hp, hmin, hvol]
        · simp only [hp, hmin, hvol, if_false]
          cases hm : qbtc.burn user a with
          | mk o q1 =>
            cases o with
            | threw msg => right; left; simp
            | returned v =>
              cases v with
              | false => right; left; simp
              | true => right; right; exact ⟨by omega, rfl, rfl⟩

/-- The volume counter after `reset_daily_volume_if_needed` is 0 or the old one. -/
theorem CrossChainBridge.reset_volume (b : CrossChainBridge) (now : Nat) :
    ((b.reset_daily_volume_if_needed now).daily_volume = 0 ∧
      (b.reset_daily_volume_if_needed now).last_volume_reset ≠ b.last_volume_reset) ∨
    b.reset_daily_volume_if_needed now = b := by
  unfold CrossChainBridge.reset_daily_volume_if_needed
  by_cases h : (now + U64 - b.last_volume_reset) % U64 ≥ 86400
  · left
    rw [if_pos h]
    refine ⟨rfl, ?_⟩
    intro heq
    simp only [] at heq
    rw [heq] at h
    have : b.last_volume_reset + U64 - b.last_volume_reset = U64 := by omega
    rw [this, Nat.mod_self] at h
    omega
  · right
    rw [if_neg h]

/-- One call keeps the volume counter at or below `MAX_DAILY_VOLUME`. -/
theorem CrossChainBridge.step_volume_le (b : CrossChainBridge) (c : CrossChainBridge.Call)
    (h : b.daily_volume ≤ qOracleConfig.MAX_DAILY_VOLUME) :
    (b.step c).daily_volume ≤ qOracleConfig.MAX_DAILY_VOLUME := by
  have hreset : ∀ now, (b.reset_daily_volume_if_needed now).daily_volume
      ≤ qOracleConfig.MAX_DAILY_VOLUME := by
    intro now
    rcases b.reset_volume now with ⟨h0, _⟩ | heq
    · rw [h0]; exact Nat.zero_le _
    · rw [heq]; exact h
  cases c with
  | swap_stx_for_qbtc oracle qbtc now user a u =>
    simp only [CrossChainBridge.step]
    rcases b.swap_stx_volume oracle qbtc now user a u with ⟨h1, _⟩ | ⟨h1, _⟩ | ⟨h1, h2, _⟩
    · rw [h1]; exact h
    · rw [h1]; exact hreset now
    · rw [h2]; exact h1
  | swap_qbtc_for_stx oracle qbtc now user a u =>
    simp only [CrossChainBridge.step]
    rcases b.swap_qbtc_volume oracle qbtc now user a u with ⟨h1, _⟩ | ⟨h1, _⟩ | ⟨h1, h2, _⟩
    · rw [h1]; exact h
    · rw [h1]; exact hreset now
    · rw [h2]; exact h1
  | reset_daily_volume_if_needed now => exact hreset now
  | finalizeLaunch sender => exact h
  | burnKey sender => exact h

/-- A sequence of calls keeps the volume counter at or below `MAX_DAILY_VOLUME`. -/
theorem CrossChainBridge.run_volume_le (calls : List CrossChainBridge.Call) :
    ∀ b : CrossChainBridge, b.daily_volume ≤ qOracleConfig.MAX_DAILY_VOLUME →
      (b.run calls).daily_volume ≤ qOracleConfig.MAX_DAILY_VOLUME := by
  induction calls with
  | nil => intro b h; exact h
  | cons c rest ih =>
    intro b h
    exact ih (b.step c) (b.step_volume_le c h)

/-- One tracked call keeps the sum of the swapped STX amounts at or below the
volume counter, when the amount of the call fits. -/
theorem CrossChainBridge.track_le (s : CrossChainBridge × Nat) (c : CrossChainBridge.Call)
    (hfit : c.amount_fits = true) (h1 : s.2 ≤ s.1.daily_volume)
    (h2 : s.1.daily_volume ≤ qOracleConfig.MAX_DAILY_VOLUME) :
    (CrossChainBridge.track s c).2 ≤ (CrossChainBridge.track s c).1.daily_volume := by
  obtain ⟨b, acc⟩ := s
  simp only [] at h1 h2
  have hmax : qOracleConfig.MAX_DAILY_VOLUME = 1000000000000000 := rfl
  have hU : U64 = 18446744073709551616 := rfl
  cases c with
  | swap_stx_for_qbtc oracle qbtc now user a u =>
    simp only [CrossChainBridge.Call.amount_fits, decide_eq_true_eq] at hfit
    simp only [CrossChainBridge.track, CrossChainBridge.step, CrossChainBridge.Call.stx_swapped]
    rcases b.swap_stx_volume oracle qbtc now user a u with ⟨e1, e2⟩ | ⟨e1, e2, _⟩ | ⟨e1, e2, e3⟩
    · rw [e1, if_pos rfl, if_neg e2]; omega
    · rw [e1, if_neg e2]
      rcases b.reset_volume now with ⟨r1, r2⟩ | r
      · rw [if_neg r2, r1]
      · rw [r, if_pos rfl]; omega
    · rw [e2, e3]
      rcases b.reset_volume now with ⟨r1, r2⟩ | r
      · rw [if_neg r2, r1, Nat.zero_add, Nat.zero_add, Nat.mod_eq_of_lt (by omega)]
        split_ifs <;> omega
      · rw [r, if_pos rfl, Nat.mod_eq_of_lt (by omega)]
        split_ifs <;> omega
  | swap_qbtc_for_stx oracle qbtc now user a u =>
    simp only [CrossChainBridge.track, CrossChainBridge.step, CrossChainBridge.Call.stx_swapped]
    have hx : (a * u.message.price) % U64 / qOracleConfig.QUSD_DECIMAL_MULTIPLIER < 18447 := by
      have hlt : (a * u.message.price) % U64 < U64 := Nat.mod_lt _ (by rw [hU]; omega)
      have hq : qOracleConfig.QUSD_DECIMAL_MULTIPLIER = 1000000000000000 := rfl
      rw [hq, Nat.div_lt_iff_lt_mul (by omega)]
      omega
    have hshape := b.swap_qbtc_volume oracle qbtc now user a u
    generalize (a * u.message.price) % U64 / qOracleConfig.QUSD_DECIMAL_MULTIPLIER = x
      at hx hshape ⊢
    rcases hshape with ⟨e1, e2⟩ | ⟨e1, e2⟩ | ⟨e1, e2, e3⟩
    · rw [e1, if_pos rfl, if_neg e2]; omega
    · rw [e1, if_neg e2]
      rcases b.reset_volume now with ⟨r1, r2⟩ | r
      · rw [if_neg r2, r1]
      · rw [r, if_pos rfl]; omega
    · rw [e2, e3]
      rcases b.reset_volume now with ⟨r1, r2⟩ | r
      · rw [if_neg r2, r1, Nat.zero_add, Nat.zero_add, Nat.mod_eq_of_lt (by omega)]
        split_ifs <;> omega
      · rw [r, if_pos rfl, Nat.mod_eq_of_lt (by omega)]
        split_ifs <;> omega
  | reset_daily_volume_if_needed now =>
    simp only [CrossChainBridge.track, CrossChainBridge.step, CrossChainBridge.Call.stx_swapped]
    rcases b.reset_volume now with ⟨r1, r2⟩ | r
    · rw [if_neg r2, r1]
    · rw [r, if_pos rfl]; omega
  | finalizeLaunch sender =>
    simp only [CrossChainBridge.track, CrossChainBridge.step, CrossChainBridge.Call.stx_swapped,
      CrossChainBridge.finalizeLaunch]
    simpa using h1
  | burnKey sender =>
    simp only [CrossChainBridge.track, CrossChainBridge.step, CrossChainBridge.Call.stx_swapped,
      CrossChainBridge.burnKey]
    simpa using h1

/-- Tracked calls keep the sum of the swapped STX amounts at or below the
volume counter, and the counter at or below `MAX_DAILY_VOLUME`. -/
theorem CrossChainBridge.track_run_le (calls : List CrossChainBridge.Call) :
    ∀ s : CrossChainBridge × Nat, (∀ c ∈ calls, c.amount_fits = true) →
      s.2 ≤ s.1.daily_volume → s.1.daily_volume ≤ qOracleConfig.MAX_DAILY_VOLUME →
      (calls.foldl CrossChainBridge.track s).2 ≤ (calls.foldl CrossChainBridge.track s).1.daily_volume ∧
      (calls.foldl CrossChainBridge.track s).1.daily_volume ≤ qOracleConfig.MAX_DAILY_VOLUME := by
  induction calls with
  | nil => intro s _ h1 h2; exact ⟨h1, h2⟩
  | cons c rest ih =>
    intro s hfit h1 h2
    rw [List.foldl_cons]
    apply ih
    · intro c' hc'; exact hfit c' (List.mem_cons_of_mem _ hc')
    · exact CrossChainBridge.track_le s c (hfit c (List.mem_cons_self _ _)) h1 h2
    · exact s.1.step_volume_le c h2

/-- The bridge of a tracked run is the bridge of the run. -/
theorem CrossChainBridge.track_run_fst (calls : List CrossChainBridge.Call) :
    ∀ s : CrossChainBridge × Nat, (calls.foldl CrossChainBridge.track s).1 = s.1.run calls := by
  induction calls with
  | nil => intro s; rfl
  | cons c rest ih =>
    intro s
    rw [List.foldl_cons, ih]
    rfl

/-- The volume limit for amounts that cannot wrap the test. From the
constructor of the bridge, along every sequence of calls in which each
`swap_stx_for_qbtc` amount is below 2^64 − 10^15: the STX amounts of the
successful swaps since the last reset sum to at most `getDailyVolume()`, which
is at most 10^15; a further `swap_stx_for_qbtc` of such an amount a, or
`swap_qbtc_for_stx` with computed output s, that makes the counter after any
due reset plus a (or s) exceed 10^15 does not return true; and
`reset_daily_volume_if_needed` at clock `now` stores 0 and `now` exactly when
the 64-bit difference now − last_volume_reset is at least 86_400, which for
last_volume_reset ≤ now < 2^64 is the integer difference, and otherwise
changes nothing. -/
theorem volume_limit_without_wrap (deployer : String) (calls : List CrossChainBridge.Call)
    (hfit : ∀ c ∈ calls, c.amount_fits = true) :
    (calls.foldl CrossChainBridge.track (CrossChainBridge.new deployer, 0)).2
      ≤ ((CrossChainBridge.new deployer).run calls).getDailyVolume ∧
    ((CrossChainBridge.new deployer).run calls).getDailyVolume ≤ 10 ^ 15 ∧
    (∀ (oracle : QOracleCommittee) (qbtc : QBTCSynthetic) (now : Nat) (user : String) (a : Nat)
        (u : PriceUpdate), a + 10 ^ 15 < U64 →
      (((CrossChainBridge.new deployer).run calls).reset_daily_volume_if_needed now).getDailyVolume
        + a > 10 ^ 15 →
      (((CrossChainBridge.new deployer).run calls).swap_stx_for_qbtc oracle qbtc now user a u).1
        ≠ .returned true) ∧
    (∀ (oracle : QOracleCommittee) (qbtc : QBTCSynthetic) (now : Nat) (user : String) (a : Nat)
        (u : PriceUpdate),
      (((CrossChainBridge.new deployer).run calls).reset_daily_volume_if_needed now).getDailyVolume
        + (a * u.message.price) % U64 / 10 ^ 15 > 10 ^ 15 →
      (((CrossChainBridge.new deployer).run calls).swap_qbtc_for_stx oracle qbtc now user a u).1
        ≠ .returned true) ∧
    (∀ now : Nat,
      ((now + U64 - ((CrossChainBridge.new deployer).run calls).last_volume_reset) % U64 ≥ 86400 →
        (((CrossChainBridge.new deployer).run calls).reset_daily_volume_if_needed now).getDailyVolume
          = 0 ∧
        (((CrossChainBridge.new deployer).run calls).reset_daily_volume_if_needed now).last_volume_reset
          = now) ∧
      (¬ (now + U64 - ((CrossChainBridge.new deployer).run calls).last_volume_reset) % U64 ≥ 86400 →
        ((CrossChainBridge.new deployer).run calls).reset_daily_volume_if_needed now
          = (CrossChainBridge.new deployer).run calls) ∧
      (((CrossChainBridge.new deployer).run calls).last_volume_reset ≤ now → now < U64 →
        ((now + U64 - ((CrossChainBridge.new deployer).run calls).last_volume_reset) % U64 ≥ 86400
          ↔ now - ((CrossChainBridge.new deployer).run calls).last_volume_reset ≥ 86400))) := by
  have hmax : qOracleConfig.MAX_DAILY_VOLUME = 10 ^ 15 := by decide
  have hq : qOracleConfig.QUSD_DECIMAL_MULTIPLIER = 10 ^ 15 := by decide
  have hU : U64 = 18446744073709551616 := rfl
  have hrun := CrossChainBridge.track_run_le calls (CrossChainBridge.new deployer, 0) hfit
    (Nat.zero_le _) (Nat.zero_le _)
  rw [CrossChainBridge.track_run_fst] at hrun
  simp only [] at hrun
  generalize (CrossChainBridge.new deployer).run calls = b at hrun ⊢
  simp only [CrossChainBridge.getDailyVolume]
  rw [hmax] at hrun
  have hreset : ∀ now, (b.reset_daily_volume_if_needed now).daily_volume ≤ 10 ^ 15 := by
    intro now
    rcases b.reset_volume now with ⟨h0, _⟩ | heq
    · rw [h0]; exact Nat.zero_le _
    · rw [heq]; exact hrun.2
  refine ⟨hrun.1, hrun.2, ?_, ?_, ?_⟩
  · intro oracle qbtc now user a u ha hover htrue
    rcases b.swap_stx_volume oracle qbtc now user a u with ⟨_, e2⟩ | ⟨_, e2, _⟩ | ⟨e1, _, _⟩
    · exact e2 htrue
    · exact e2 htrue
    · rw [hmax, Nat.mod_eq_of_lt (by have := hreset now; omega)] at e1
      omega
  · intro oracle qbtc now user a u hover htrue
    have hx : (a * u.message.price) % U64 / 10 ^ 15 < 18447 := by
      have hlt : (a * u.message.price) % U64 < U64 := Nat.mod_lt _ (by rw [hU]; omega)
      rw [Nat.div_lt_iff_lt_mul (by norm_num)]
      omega
    rcases b.swap_qbtc_volume oracle qbtc now user a u with ⟨_, e2⟩ | ⟨_, e2⟩ | ⟨e1, _, _⟩
    · exact e2 htrue
    · exact e2 htrue
    · rw [hmax, hq, Nat.mod_eq_of_lt (by have := hreset now; omega)] at e1
      omega
  · intro now
    refine ⟨?_, ?_, ?_⟩
    · intro h
      unfold CrossChainBridge.reset_daily_volume_if_needed
      rw [if_pos h]
      exact ⟨rfl, rfl⟩
    · intro h
      unfold CrossChainBridge.reset_daily_volume_if_needed
      rw [if_neg h]
    · intro hle hlt
      have : now + U64 - b.last_volume_reset = (now - b.last_volume_reset) + U64 := by omega
      rw [this, Nat.add_mod_right, Nat.mod_eq_of_lt (by omega)]

/-- Launch, a swap of 2000, then a swap of 10^15 that the volume test
rejects: the successful swaps sum to 2000. -/
theorem volume_limit_without_wrap_witness :
    ([CrossChainBridge.Call.finalizeLaunch "admin",
      CrossChainBridge.Call.swap_stx_for_qbtc Fixture.c2 Fixture.q1 1700000100 "alice" 2000
        Fixture.upd_unit,
      CrossChainBridge.Call.swap_stx_for_qbtc Fixture.c2 Fixture.q_used 1700000100 "alice"
        1000000000000000 Fixture.upd_unit].foldl CrossChainBridge.track
        (CrossChainBridge.new "admin", 0)).2
      ≤ ((CrossChainBridge.new "admin").run
          [CrossChainBridge.Call.finalizeLaunch "admin",
           CrossChainBridge.Call.swap_stx_for_qbtc Fixture.c2 Fixture.q1 1700000100 "alice" 2000
             Fixture.upd_unit,
           CrossChainBridge.Call.swap_stx_for_qbtc Fixture.c2 Fixture.q_used 1700000100 "alice"
             1000000000000000 Fixture.upd_unit]).getDailyVolume ∧
    ([CrossChainBridge.Call.finalizeLaunch "admin",
      CrossChainBridge.Call.swap_stx_for_qbtc Fixture.c2 Fixture.q1 1700000100 "alice" 2000
        Fixture.upd_unit,
      CrossChainBridge.Call.swap_stx_for_qbtc Fixture.c2 Fixture.q_used 1700000100 "alice"
        1000000000000000 Fixture.upd_unit].foldl CrossChainBridge.track
        (CrossChainBridge.new "admin", 0)).2 = 2000 :=
  ⟨(volume_limit_without_wrap "admin"
      [CrossChainBridge.Call.finalizeLaunch "admin",
       CrossChainBridge.Call.swap_stx_for_qbtc Fixture.c2 Fixture.q1 1700000100 "alice" 2000
         Fixture.upd_unit,
       CrossChainBridge.Call.swap_stx_for_qbtc Fixture.c2 Fixture.q_used 1700000100 "alice"
         1000000000000000 Fixture.upd_unit] (by decide)).1,
   by decide⟩

end RC2

/-! ## Lemmas on the multisig -/

namespace RC2

open qOracle

/-- Reading the proposal map after a write. -/
theorem proposals_find_put (ps : List (Nat × Proposal)) (n k : Nat) (q : Proposal) :
    proposals_find (proposals_put ps n q) k
      = if n = k then some q else proposals_find ps k := by
  induction ps with
  | nil => simp [proposals_put, proposals_find]
  | cons hd tl ih =>
    obtain ⟨k0, p0⟩ := hd
    by_cases h0 : k0 = n
    · subst h0
      by_cases hk : k0 = k
      · simp [proposals_put, proposals_find, hk]
      · simp [proposals_put, proposals_find, hk]
    · by_cases hk : k0 = k
      · subst hk
        simp [proposals_put, proposals_find, h0, Ne.symm h0]
      · simp only [proposals_put, h0, if_false, proposals_find, hk, ih]

/-- Membership in the signature set after an insert. -/
theorem mem_set_insert (s : List String) (x y : String) :
    y ∈ set_insert s x ↔ y ∈ s ∨ y = x := by
  unfold set_insert
  by_cases h : x ∈ s
  · rw [if_pos h]
    constructor
    · intro hy; exact Or.inl hy
    · rintro (hy | hy)
      · exact hy
      · rw [hy]; exact h
  · rw [if_neg h]
    simp

/-- No call changes the owners or the threshold. -/
theorem QnosisMultisig.step_owners (g : QnosisMultisig) (c : QnosisMultisig.Call) :
    (g.step c).owners = g.owners ∧ (g.step c).threshold = g.threshold := by
  cases c with
  | propose now proposer to_addr value data action parameter =>
    simp only [QnosisMultisig.step, QnosisMultisig.propose]
    repeat' split
    all_goals exact ⟨rfl, rfl⟩
  | sign nonce signer =>
    simp only [QnosisMultisig.step, QnosisMultisig.sign]
    repeat' split
    all_goals exact ⟨rfl, rfl⟩
  | execute now nonce =>
    simp only [QnosisMultisig.step, QnosisMultisig.execute]
    repeat' split
    all_goals exact ⟨rfl, rfl⟩
  | finalizeLaunch sender => exact ⟨rfl, rfl⟩
  | burnKey sender => exact ⟨rfl, rfl⟩

/-- One call keeps every stored proposal signed by owners only, with the 24 h delay. -/
theorem QnosisMultisig.step_sound (g : QnosisMultisig) (c : QnosisMultisig.Call)
    (h : g.Sound) : (g.step c).Sound := by
  intro k q
  rw [(g.step_owners c).1]
  cases c with
  | propose now proposer to_addr value data action parameter =>
    simp only [QnosisMultisig.step, QnosisMultisig.propose]
    cases g.requireActive proposer with
    | threw msg => exact h k q
    | returned x =>
      simp only []
      by_cases ho : proposer ∈ g.owners
      · simp only [ho, not_true_eq_false, if_false, proposals_find_put]
        by_cases hk : g.proposal_nonce = k
        · rw [if_pos hk]
          intro hq
          cases hq
          exact ⟨fun s hs => by simp at hs, rfl⟩
        · rw [if_neg hk]; exact h k q
      · simp only [ho, not_false_eq_true, if_true]; exact h k q
  | sign nonce signer =>
    simp only [QnosisMultisig.step, QnosisMultisig.sign]
    cases g.requireActive signer with
    | threw msg => exact h k q
    | returned x =>
      simp only []
      by_cases ho : signer ∈ g.owners
      · simp only [ho, not_true_eq_false, if_false]
        cases hf : proposals_find g.proposals nonce with
        | none => exact h k q
        | some p =>
          simp only []
          by_cases he : p.executed = true
          · simp only [he, if_true]; exact h k q
          · simp only [he, if_false, Bool.false_eq_true, proposals_find_put]
            by_cases hk : nonce = k
            · rw [if_pos hk]
              intro hq
              cases hq
              refine ⟨fun s hs => ?_, (h nonce p hf).2⟩
              rcases (mem_set_insert _ _ _).1 hs with h1 | h1
              · exact (h nonce p hf).1 s h1
              · rw [h1]; exact ho
            · rw [if_neg hk]; exact h k q
      · simp only [ho, not_false_eq_true, if_true]; exact h k q
  | execute now nonce =>
    simp only [QnosisMultisig.step, QnosisMultisig.execute]
    cases hf : proposals_find g.proposals nonce with
    | none => exact h k q
    | some p =>
      simp only []
      by_cases he : p.executed = true
      · simp only [he, if_true]; exact h k q
      · by_cases ht : p.signatures.length < g.threshold
        · simp only [he, ht, if_true, if_false, Bool.false_eq_true]; exact h k q
        · by_cases hd : now < (p.created_time + p.execution_delay) % U64
          · simp only [he, ht, hd, if_true, if_false, Bool.false_eq_true]; exact h k q
          · simp only [he, ht, hd, if_false, Bool.false_eq_true, proposals_find_put]
            by_cases hk : nonce = k
            · rw [if_pos hk]
              intro hq
              cases hq
              exact h nonce p hf
            · rw [if_neg hk]; exact h k q
  | finalizeLaunch sender => exact h k q
  | burnKey sender => exact h k q

/-- A sequence of calls keeps every stored proposal signed by owners only. -/
theorem QnosisMultisig.run_sound (calls : List QnosisMultisig.Call) :
    ∀ g : QnosisMultisig, g.Sound → (g.run calls).Sound := by
  induction calls with
  | nil => intro g h; exact h
  | cons c rest ih => intro g h; exact ih (g.step c) (g.step_sound c h)

/-- A sequence of calls changes neither the owners nor the threshold. -/
theorem QnosisMultisig.run_owners (calls : List QnosisMultisig.Call) :
    ∀ g : QnosisMultisig, (g.run calls).owners = g.owners ∧
      (g.run calls).threshold = g.threshold := by
  induction calls with
  | nil => intro g; exact ⟨rfl, rfl⟩
  | cons c rest ih =>
    intro g
    have h1 := ih (g.step c)
    have h2 := g.step_owners c
    exact ⟨h1.1.trans h2.1, h1.2.trans h2.2⟩

/-- An executed proposal is not executed again. -/
theorem QnosisMultisig.execute_of_executed (g : QnosisMultisig) (now id : Nat)
    (h : g.isExecuted id = true) : g.execute now id = (.returned (), g) := by
  unfold QnosisMultisig.isExecuted at h
  unfold QnosisMultisig.execute
  cases hf : proposals_find g.proposals id with
  | none => rfl
  | some p =>
    rw [hf] at h
    simp only [] at h ⊢
    rw [if_pos h]

end RC2

/-! ## Lemmas on interleaved swaps -/

namespace RC2

open qOracle

/-- A thread that runs its five steps without another thread in between does
what the sequential `swap_stx_for_qbtc` does. -/
theorem SwapThread.alone_eq_swap (oracle : QOracleCommittee) (t other : SwapThread)
    (s : SwapShared) (hpc : t.pc = .entry) (hfree : s.mutex_held = false) :
    ((SwapSystem.mk t other s).interleave oracle [false, false, false, false, false]).first.pc
      = .done (s.bridge.swap_stx_for_qbtc oracle s.qbtc t.now t.user t.stx_amount
          t.price_update).1 ∧
    ((SwapSystem.mk t other s).interleave oracle [false, false, false, false, false]).shared.bridge
      = (s.bridge.swap_stx_for_qbtc oracle s.qbtc t.now t.user t.stx_amount
          t.price_update).2.1 ∧
    ((SwapSystem.mk t other s).interleave oracle [false, false, false, false, false]).shared.qbtc
      = (s.bridge.swap_stx_for_qbtc oracle s.qbtc t.now t.user t.stx_amount
          t.price_update).2.2 ∧
    ((SwapSystem.mk t other s).interleave oracle
      [false, false, false, false, false]).shared.mutex_held = false := by
  obtain ⟨pc, now, user, a, u⟩ := t
  obtain ⟨b, q, held⟩ := s
  simp only [] at hpc hfree
  subst hpc
  subst hfree
  simp only [SwapSystem.interleave, List.foldl, SwapSystem.schedule, Bool.false_eq_true, if_false]
  unfold CrossChainBridge.swap_stx_for_qbtc
  cases hr : b.requireActive user with
  | threw msg => simp [SwapThread.advance, hr]
  | returned x =>
    by_cases hp : oracle.is_emergency_paused = true
    · simp [SwapThread.advance, hr, hp]
    · by_cases hmin : a < qOracleConfig.MIN_SWAP_AMOUNT
      · simp [SwapThread.advance, hr, hp, hmin]
      · by_cases hvol : ((b.reset_daily_volume_if_needed now).daily_volume + a) % U64
            > qOracleConfig.MAX_DAILY_VOLUME
        · simp [SwapThread.advance, hr, hp, hmin, hvol]
        · simp only [SwapThread.advance, hr, hp, hmin, hvol, if_false, Bool.false_eq_true]
          cases hm : q.mint oracle user
              ((a * u.message.price) % U64 / qOracleConfig.QUSD_DECIMAL_MULTIPLIER) u with
          | mk o q1 =>
            cases o with
            | threw msg => simp
            | returned v => cases v <;> simp

end RC2

/-! ## Lemmas on the price held by the committee -/

namespace RC2

open qOracle

/-- One call keeps the default validator and a current price that is 0 or
within the default bounds. -/
theorem QOracleCommittee.step_price_bounds (env : Crypto) (c : QOracleCommittee)
    (call : QOracleCommittee.Call)
    (h : c.validator = {} ∧ (c.last_price.price = 0 ∨
      (1 ≤ c.last_price.price ∧ c.last_price.price ≤ 100000000000000000))) :
    (c.step env call).validator = {} ∧ ((c.step env call).last_price.price = 0 ∨
      (1 ≤ (c.step env call).last_price.price ∧
        (c.step env call).last_price.price ≤ 100000000000000000)) := by
  cases call with
  | submit_price_update now update =>
    simp only [QOracleCommittee.step]
    unfold QOracleCommittee.submit_price_update
    cases hreq : c.requireActive "oracle_committee" with
    | threw msg => exact h
    | returned x =>
      cases hp : c.emergency_paused <;>
      cases hv : c.validator.validate_price_update update.message now c.last_price.price <;>
      cases hs : c.verifier.verify_price_update env update <;>
      simp only [Bool.not_true, Bool.not_false, Bool.false_eq_true, if_true, if_false]
      all_goals first
        | exact h
        | (refine ⟨h.1, Or.inr ?_⟩
           rw [h.1] at hv
           simp only [PriceValidator.validate_price_update, PriceValidator.validate_price_bounds,
             Bool.and_eq_true, decide_eq_true_eq] at hv
           exact hv.1.1)
  | emergency_pause sender =>
    simp only [QOracleCommittee.step, QOracleCommittee.emergency_pause]
    cases c.requireAdmin sender <;> exact h
  | resume_operations sender =>
    simp only [QOracleCommittee.step, QOracleCommittee.resume_operations]
    cases c.requireAdmin sender <;> exact h
  | finalizeLaunch sender => exact h
  | burnKey sender => exact h

/-- A sequence of calls keeps the default validator and a current price that is
0 or within the default bounds. -/
theorem QOracleCommittee.run_price_bounds (env : Crypto) (calls : List QOracleCommittee.Call) :
    ∀ c : QOracleCommittee,
      (c.validator = {} ∧ (c.last_price.price = 0 ∨
        (1 ≤ c.last_price.price ∧ c.last_price.price ≤ 100000000000000000))) →
      (c.run env calls).validator = {} ∧ ((c.run env calls).last_price.price = 0 ∨
        (1 ≤ (c.run env calls).last_price.price ∧
          (c.run env calls).last_price.price ≤ 100000000000000000)) := by
  induction calls with
  | nil => intro c h; exact h
  | cons call rest ih =>
    intro c h
    simp only [QOracleCommittee.run, List.foldl_cons] at ih ⊢
    exact ih (c.step env call) (c.step_price_bounds env call h)

end RC2

/-! ## Lemmas on the RC1 committee -/

namespace RC1

/-- What an accepting `submit_price_update` has tested and leaves behind. -/
theorem QOracleCommittee.submit_true (dilithium_verify : Bytes → Bytes → Bytes → Bool)
    (c : QOracleCommittee) (now : Nat) (u : PriceUpdate)
    (h : (c.submit_price_update dilithium_verify now u).1 = .returned true) :
    c.requireActive "oracle_committee" = .returned () ∧
    c.last_price.timestamp < u.message.timestamp ∧
    (c.submit_price_update dilithium_verify now u).2
      = { c with last_price := u.message
                 price_history :=
                   (if c.price_history.length = c.max_history then c.price_history.tail
                    else c.price_history) ++ [u.message] } := by
  unfold QOracleCommittee.submit_price_update at h ⊢
  cases hreq : c.requireActive "oracle_committee" with
  | threw msg => rw [hreq] at h; simp at h
  | returned x =>
    rw [hreq] at h
    simp only [] at h ⊢
    cases hv : c.validate_update dilithium_verify now u with
    | false => rw [hv] at h; simp at h
    | true =>
      simp only [Bool.not_true, Bool.false_eq_true, if_false]
      refine ⟨trivial, ?_, trivial⟩
      unfold QOracleCommittee.validate_update at hv
      by_contra hle
      have hle2 : u.message.timestamp ≤ c.last_price.timestamp := by omega
      simp [hle2] at hv

/-- A `submit_price_update` that does not return true leaves the committee as it was. -/
theorem QOracleCommittee.submit_not_true (dilithium_verify : Bytes → Bytes → Bytes → Bool)
    (c : QOracleCommittee) (now : Nat) (u : PriceUpdate)
    (h : ¬ (c.submit_price_update dilithium_verify now u).1 = .returned true) :
    (c.submit_price_update dilithium_verify now u).2 = c := by
  unfold QOracleCommittee.submit_price_update at h ⊢
  cases hreq : c.requireActive "oracle_committee" with
  | threw msg => rfl
  | returned x =>
    rw [hreq] at h
    simp only [] at h ⊢
    cases hv : c.validate_update dilithium_verify now u with
    | false => simp
    | true => rw [hv] at h; simp at h

/-- The history fields after one call: unchanged, or one accepted message
stored and pushed. -/
theorem QOracleCommittee.step_accepted (dilithium_verify : Bytes → Bytes → Bytes → Bool)
    (c : QOracleCommittee) (call : QOracleCommittee.Call) :
    (c.step dilithium_verify call).max_history = c.max_history ∧
    ((QOracleCommittee.accepted dilithium_verify c [call] = [] ∧
        (c.step dilithium_verify call).last_price = c.last_price ∧
        (c.step dilithium_verify call).price_history = c.price_history) ∨
      ∃ m, QOracleCommittee.accepted dilithium_verify c [call] = [m] ∧
        c.last_price.timestamp < m.timestamp ∧
        (c.step dilithium_verify call).last_price = m ∧
        (c.step dilithium_verify call).price_history
          = (if c.price_history.length = c.max_history then c.price_history.tail
             else c.price_history) ++ [m]) := by
  cases call with
  | submit_price_update now u =>
    simp only [QOracleCommittee.step, QOracleCommittee.accepted, List.append_nil]
    by_cases h : (c.submit_price_update dilithium_verify now u).1 = .returned true
    · obtain ⟨_, hlt, hst⟩ := c.submit_true dilithium_verify now u h
      rw [if_pos h, hst]
      exact ⟨rfl, Or.inr ⟨u.message, rfl, hlt, rfl, rfl⟩⟩
    · rw [if_neg h, c.submit_not_true dilithium_verify now u h]
      exact ⟨rfl, Or.inl ⟨rfl, rfl, rfl⟩⟩
  | finalizeLaunch sender => exact ⟨rfl, Or.inl ⟨rfl, rfl, rfl⟩⟩
  | burnKey sender => exact ⟨rfl, Or.inl ⟨rfl, rfl, rfl⟩⟩

/-- The accepted messages of a sequence are those of its first call followed by
those of the rest. -/
theorem QOracleCommittee.accepted_cons (dilithium_verify : Bytes → Bytes → Bytes → Bool)
    (c : QOracleCommittee) (call : QOracleCommittee.Call) (rest : List QOracleCommittee.Call) :
    QOracleCommittee.accepted dilithium_verify c (call :: rest)
      = QOracleCommittee.accepted dilithium_verify c [call]
        ++ QOracleCommittee.accepted dilithium_verify (c.step dilithium_verify call) rest := by
  cases call <;> simp [QOracleCommittee.accepted]

/-- Along a sequence of calls the accepted timestamps increase strictly from
the current one, and the current price afterwards is the last accepted message. -/
theorem QOracleCommittee.accepted_increasing (dilithium_verify : Bytes → Bytes → Bytes → Bool)
    (calls : List QOracleCommittee.Call) :
    ∀ c : QOracleCommittee,
      ((QOracleCommittee.accepted dilithium_verify c calls).map PriceMessage.timestamp).Pairwise
        (· < ·) ∧
      (∀ m ∈ QOracleCommittee.accepted dilithium_verify c calls,
        c.last_price.timestamp < m.timestamp) ∧
      (QOracleCommittee.accepted dilithium_verify c calls = [] →
        (c.run dilithium_verify calls).last_price = c.last_price) ∧
      (QOracleCommittee.accepted dilithium_verify c calls ≠ [] →
        (QOracleCommittee.accepted dilithium_verify c calls).getLast?
          = some (c.run dilithium_verify calls).last_price) := by
  induction calls with
  | nil =>
    intro c
    simp [QOracleCommittee.accepted, QOracleCommittee.run]
  | cons call rest ih =>
    intro c
    have hrun : c.run dilithium_verify (call :: rest)
        = (c.step dilithium_verify call).run dilithium_verify rest := rfl
    rw [QOracleCommittee.accepted_cons, hrun]
    obtain ⟨i1, i2, i3, i4⟩ := ih (c.step dilithium_verify call)
    rcases (c.step_accepted dilithium_verify call).2 with ⟨h1, h2, _⟩ | ⟨m, h1, h2, h3, _⟩
    · rw [h1, List.nil_append]
      rw [h2] at i2 i3
      exact ⟨i1, i2, i3, i4⟩
    · rw [h1, List.singleton_append]
      rw [h3] at i2 i3
      refine ⟨?_, ?_, ?_, ?_⟩
      · rw [List.map_cons, List.pairwise_cons]
        refine ⟨?_, i1⟩
        intro t ht
        rw [List.mem_map] at ht
        obtain ⟨m', hm', rfl⟩ := ht
        exact i2 m' hm'
      · intro m' hm'
        rcases List.mem_cons.1 hm' with rfl | hm'
        · exact h2
        · exact Nat.lt_trans h2 (i2 m' hm')
      · intro hnil
        exact absurd hnil (List.cons_ne_nil _ _)
      · intro _
        by_cases hrest : QOracleCommittee.accepted dilithium_verify
            (c.step dilithium_verify call) rest = []
        · rw [hrest, i3 hrest]
          rfl
        · obtain ⟨a, t, hat⟩ := List.exists_cons_of_ne_nil hrest
          have hlast := i4 hrest
          rw [hat] at hlast ⊢
          rw [List.getLast?_cons_cons]
          exact hlast

/-- One call keeps the history strictly increasing in time and not later than
the current price. -/
theorem QOracleCommittee.step_history_sorted (dilithium_verify : Bytes → Bytes → Bytes → Bool)
    (c : QOracleCommittee) (call : QOracleCommittee.Call)
    (h : (c.price_history.map PriceMessage.timestamp).Pairwise (· < ·) ∧
      ∀ m ∈ c.price_history, m.timestamp ≤ c.last_price.timestamp) :
    ((c.step dilithium_verify call).price_history.map PriceMessage.timestamp).Pairwise (· < ·) ∧
      ∀ m ∈ (c.step dilithium_verify call).price_history,
        m.timestamp ≤ (c.step dilithium_verify call).last_price.timestamp := by
  rcases (c.step_accepted dilithium_verify call).2 with ⟨_, h2, h3⟩ | ⟨m, _, h2, h3, h4⟩
  · rw [h2, h3]; exact h
  · rw [h3, h4]
    have hsub : ∀ x ∈ (if c.price_history.length = c.max_history then c.price_history.tail
        else c.price_history), x ∈ c.price_history := by
      intro x hx
      split_ifs at hx
      · exact List.mem_of_mem_tail hx
      · exact hx
    have hpw : ((if c.price_history.length = c.max_history then c.price_history.tail
        else c.price_history).map PriceMessage.timestamp).Pairwise (· < ·) := by
      split_ifs
      · rw [List.map_tail]
        exact List.Pairwise.tail h.1
      · exact h.1
    constructor
    · rw [List.map_append, List.pairwise_append]
      refine ⟨hpw, by simp, ?_⟩
      intro a ha b hb
      rw [List.mem_map] at ha
      obtain ⟨x, hx, rfl⟩ := ha
      simp only [List.map_cons, List.map_nil, List.mem_singleton] at hb
      rw [hb]
      exact Nat.lt_of_le_of_lt (h.2 x (hsub x hx)) h2
    · intro x hx
      rcases List.mem_append.1 hx with hx | hx
      · exact Nat.le_of_lt (Nat.lt_of_le_of_lt (h.2 x (hsub x hx)) h2)
      · simp only [List.mem_singleton] at hx
        rw [hx]

/-- A sequence of calls keeps the history strictly increasing in time, and the
history afterwards is a suffix of the old history followed by the accepted
messages. -/
theorem QOracleCommittee.run_history_sorted (dilithium_verify : Bytes → Bytes → Bytes → Bool)
    (calls : List QOracleCommittee.Call) :
    ∀ c : QOracleCommittee,
      ((c.price_history.map PriceMessage.timestamp).Pairwise (· < ·) ∧
        ∀ m ∈ c.price_history, m.timestamp ≤ c.last_price.timestamp) →
      (((c.run dilithium_verify calls).price_history.map PriceMessage.timestamp).Pairwise
          (· < ·) ∧
        ∀ m ∈ (c.run dilithium_verify calls).price_history,
          m.timestamp ≤ (c.run dilithium_verify calls).last_price.timestamp) ∧
      (c.run dilithium_verify calls).price_history
        <:+ c.price_history ++ QOracleCommittee.accepted dilithium_verify c calls := by
  induction calls with
  | nil =>
    intro c h
    exact ⟨h, by simp [QOracleCommittee.run, QOracleCommittee.accepted]⟩
  | cons call rest ih =>
    intro c h
    have hrun : c.run dilithium_verify (call :: rest)
        = (c.step dilithium_verify call).run dilithium_verify rest := rfl
    rw [hrun, QOracleCommittee.accepted_cons]
    obtain ⟨i1, i2⟩ := ih (c.step dilithium_verify call)
      (c.step_history_sorted dilithium_verify call h)
    refine ⟨i1, ?_⟩
    apply List.IsSuffix.trans i2
    rw [← List.append_assoc]
    have hstep : (c.step dilithium_verify call).price_history
        <:+ c.price_history ++ QOracleCommittee.accepted dilithium_verify c [call] := by
      rcases (c.step_accepted dilithium_verify call).2 with ⟨h1, _, h3⟩ | ⟨m, h1, _, _, h4⟩
      · rw [h1, h3, List.append_nil]
      · rw [h1, h4]
        have hx : (if c.price_history.length = c.max_history then c.price_history.tail
            else c.price_history) <:+ c.price_history := by
          split_ifs
          · exact List.tail_suffix _
          · exact List.suffix_refl _
        obtain ⟨t, ht⟩ := hx
        exact ⟨t, by rw [← List.append_assoc, ht]⟩
    obtain ⟨t, ht⟩ := hstep
    exact ⟨t, by rw [← List.append_assoc, ht]⟩

/-- The committee `c1` accepts `upd1`, refuses it a second time and accepts
the later `upd2`. -/
theorem accepted_fixture :
    QOracleCommittee.accepted Fixture.stub Fixture.c1
        [.submit_price_update 1700000000 Fixture.upd1,
         .submit_price_update 1700000100 Fixture.upd1,
         .submit_price_update 1700000100 Fixture.upd2]
      = [Fixture.upd1.message, Fixture.upd2.message] := by
  decide

end RC1

/-! ## Lemmas on the RC1 bridge and multisig -/

namespace RC1

/-- An update that was accepted is not accepted a second time. -/
theorem QOracleCommittee.submit_twice (dilithium_verify : Bytes → Bytes → Bytes → Bool)
    (c : QOracleCommittee) (now later : Nat) (u : PriceUpdate)
    (h : (c.submit_price_update dilithium_verify now u).1 = .returned true) :
    ¬ ((c.submit_price_update dilithium_verify now u).2.submit_price_update dilithium_verify
      later u).1 = .returned true := by
  intro h2
  obtain ⟨_, hlt, _⟩ := QOracleCommittee.submit_true dilithium_verify _ later u h2
  rw [(c.submit_true dilithium_verify now u h).2.2] at hlt
  exact Nat.lt_irrefl _ hlt

/-- A `mint` that does not return true leaves the ledger as it was. -/
theorem QBTCSynthetic.mint_not_true (dilithium_verify : Bytes → Bytes → Bytes → Bool)
    (q : QBTCSynthetic) (oracle : QOracleCommittee) (now : Nat) (user : String) (n : Nat)
    (u : PriceUpdate)
    (h : ¬ (oracle.submit_price_update dilithium_verify now u).1 = .returned true) :
    (q.mint dilithium_verify oracle now user n u).1 ≠ .returned true ∧
    (q.mint dilithium_verify oracle now user n u).2.1 = q := by
  unfold QBTCSynthetic.mint
  cases q.requireActive user with
  | threw msg => exact ⟨by simp, rfl⟩
  | returned x =>
    simp only []
    by_cases hn : n = 0
    · rw [if_pos hn]; exact ⟨by simp, rfl⟩
    · rw [if_neg hn]
      cases hs : oracle.submit_price_update dilithium_verify now u with
      | mk o o1 =>
        rw [hs] at h
        cases o with
        | threw msg => exact ⟨by simp, rfl⟩
        | returned v =>
          cases v with
          | false => exact ⟨by simp, rfl⟩
          | true => exact absurd rfl h

/-- A `swap_stx_for_qbtc` that returns true has raised the bridge balance and
left the qBTC ledger as it was: the inner `mint` submits the update that the
bridge has just had accepted. -/
theorem CrossChainBridge.swap_true_no_mint (dilithium_verify : Bytes → Bytes → Bytes → Bool)
    (b : CrossChainBridge) (oracle : QOracleCommittee) (qbtc : QBTCSynthetic)
    (now now_mint : Nat) (user : String) (a : Nat) (u : PriceUpdate)
    (h : (b.swap_stx_for_qbtc dilithium_verify oracle qbtc now now_mint user a u).1
      = .returned true) :
    (b.swap_stx_for_qbtc dilithium_verify oracle qbtc now now_mint user a u).2.2.1 = qbtc ∧
    (b.swap_stx_for_qbtc dilithium_verify oracle qbtc now now_mint user a u).2.1.bridge_balances
      = b.bridge_balances.set user ((b.bridge_balances.get user + a) % U64) ∧
    (oracle.submit_price_update dilithium_verify now u).1 = .returned true := by
  unfold CrossChainBridge.swap_stx_for_qbtc at h ⊢
  cases hr : b.requireActive user with
  | threw msg => rw [hr] at h; simp at h
  | returned x =>
    rw [hr] at h
    simp only [] at h ⊢
    by_cases hmin : a < qOracleConfig.MIN_SWAP_AMOUNT
    · rw [if_pos hmin] at h; simp at h
    · rw [if_neg hmin] at h ⊢
      have htw := QOracleCommittee.submit_twice dilithium_verify oracle now now_mint u
      cases hs : oracle.submit_price_update dilithium_verify now u with
      | mk o o1 =>
        rw [hs] at h htw
        cases o with
        | threw msg => simp at h
        | returned v =>
          cases v with
          | false => simp at h
          | true =>
            simp only [] at h htw ⊢
            have htw2 := htw trivial
            by_cases hp0 : o1.get_current_price.price = 0
            · rw [if_pos hp0] at h; simp at h
            · rw [if_neg hp0] at h ⊢
              by_cases hq0 : (a * (o1.get_current_price.price * 100000000 % U64)) % U64
                  / o1.get_current_price.price = 0
              · rw [if_pos hq0] at h; simp at h
              · rw [if_neg hq0] at h ⊢
                have hm := QBTCSynthetic.mint_not_true dilithium_verify qbtc o1 now_mint user
                  ((a * (o1.get_current_price.price * 100000000 % U64)) % U64
                    / o1.get_current_price.price) u htw2
                cases hmint : qbtc.mint dilithium_verify o1 now_mint user
                    ((a * (o1.get_current_price.price * 100000000 % U64)) % U64
                      / o1.get_current_price.price) u with
                | mk r rest =>
                  obtain ⟨q1, o2⟩ := rest
                  rw [hmint] at h hm
                  cases r with
                  | threw msg => simp at h
                  | returned v => exact ⟨hm.2, rfl, trivial⟩

end RC1

/-! ## The claims -/

namespace RC2

open qOracle

/-- C1. Whenever `submit_price_update(u)` returns true there are at least 4
distinct oracle indices below 7, each active, with an entry in `u.signatures`
carrying that index which the verifier accepts under that oracle's public key
over the SHA-256 digest of `serialize(u.message)`. -/
theorem submit_price_update_true_quorum (env : Crypto) (c : QOracleCommittee) (now : Nat)
    (u : PriceUpdate) (h : (c.submit_price_update env now u).1 = .returned true) :
    ∃ S : Finset (Fin 7), 4 ≤ S.card ∧ ∀ i ∈ S,
      (c.verifier.oracles i).active = true ∧
      ∃ sig ∈ u.signatures, sig.oracle_index = i.val ∧
        env.verify_dilithium3_signature (c.verifier.oracles i).public_key
          (env.sha256 u.message.serialize) sig.signature = true := by
  have hv : c.verifier.verify_price_update env u = true := by
    unfold QOracleCommittee.submit_price_update at h
    split at h
    · simp at h
    · split_ifs at h with h1 h2 h3
      · simp at h
      · simp at h
      · simp at h
      · simpa using h3
  rw [verify_price_update_eq] at hv
  refine ⟨counted env c.verifier u.message u.signatures [], by simpa using hv, ?_⟩
  intro i hi
  simp only [counted, Finset.mem_filter, Finset.mem_univ, true_and] at hi
  exact ⟨hi.2.1, first_entry_verifies_mem env c.verifier u.message u.signatures i hi.2.2⟩

/-- Witness for C1: scenario 1 is accepted and yields the quorum. -/
theorem submit_price_update_true_quorum_witness :
    (Fixture.c1.submit_price_update Fixture.stub 1700000000 Fixture.upd1).1 = .returned true ∧
    ∃ S : Finset (Fin 7), 4 ≤ S.card ∧ ∀ i ∈ S,
      (Fixture.c1.verifier.oracles i).active = true ∧
      ∃ sig ∈ Fixture.upd1.signatures, sig.oracle_index = i.val ∧
        Fixture.stub.verify_dilithium3_signature (Fixture.c1.verifier.oracles i).public_key
          (Fixture.stub.sha256 Fixture.upd1.message.serialize) sig.signature = true :=
  ⟨by decide,
    submit_price_update_true_quorum Fixture.stub Fixture.c1 1700000000 Fixture.upd1 (by decide)⟩

/-- C2 (the code at the failing input). The committee `c2` rejects the
envelope `upd_unsigned`, which passes price validation but carries no
signature, yet `mint("alice", 2000, upd_unsigned)` returns true and credits
2000 to alice and to the total supply. In general the result of `mint` is the
same whatever signatures the envelope carries. -/
theorem mint_succeeds_on_rejected_update :
    (Fixture.c2.submit_price_update Fixture.stub 1700000100 Fixture.upd_unsigned).1
      = .returned false ∧
    Fixture.c2.validator.validate_price_update Fixture.upd_unsigned.message 1700000100
      Fixture.c2.get_current_price.price = true ∧
    Fixture.upd_unsigned.signatures = [] ∧
    Fixture.q1.balanceOf "alice" = 0 ∧ Fixture.q1.totalSupply = 0 ∧
    (Fixture.q1.mint Fixture.c2 "alice" 2000 Fixture.upd_unsigned).1 = .returned true ∧
    (Fixture.q1.mint Fixture.c2 "alice" 2000 Fixture.upd_unsigned).2.balanceOf "alice" = 2000 ∧
    (Fixture.q1.mint Fixture.c2 "alice" 2000 Fixture.upd_unsigned).2.totalSupply = 2000 ∧
    (∀ (q : QBTCSynthetic) (oracle : QOracleCommittee) (user : String) (n : Nat)
        (m : PriceMessage) (sigs : List OracleSignature),
      q.mint oracle user n ⟨m, sigs⟩ = q.mint oracle user n ⟨m, []⟩) := by
  refine ⟨by decide, by decide, by decide, by decide, by decide, by decide, by decide,
    by decide, ?_⟩
  intro q oracle user n m sigs
  rfl

/-- C3 (the code at the failing input). The committee `c2` rejects the
unsigned envelope `upd_unsigned`, yet both swaps of 100_000_000 units bundled
with it return true and move balances (5 qBTC minted, 100_000_000 qBTC burned);
the committee is only read, so its current price stays `msg1` and differs from
the bundled message. -/
theorem swap_succeeds_on_rejected_update :
    (Fixture.c2.submit_price_update Fixture.stub 1700000100 Fixture.upd_unsigned).1
      = .returned false ∧
    (Fixture.b1.swap_stx_for_qbtc Fixture.c2 Fixture.q1 1700000100 "alice" 100000000
      Fixture.upd_unsigned).1 = .returned true ∧
    (Fixture.b1.swap_stx_for_qbtc Fixture.c2 Fixture.q1 1700000100 "alice" 100000000
      Fixture.upd_unsigned).2.2.balanceOf "alice" = 5 ∧
    Fixture.q2.balanceOf "alice" = 100000000 ∧
    (Fixture.b1.swap_qbtc_for_stx Fixture.c2 Fixture.q2 1700000100 "alice" 100000000
      Fixture.upd_unsigned).1 = .returned true ∧
    (Fixture.b1.swap_qbtc_for_stx Fixture.c2 Fixture.q2 1700000100 "alice" 100000000
      Fixture.upd_unsigned).2.2.balanceOf "alice" = 0 ∧
    Fixture.c2.get_current_price = Fixture.msg1 ∧
    Fixture.c2.get_current_price ≠ Fixture.upd_unsigned.message := by
  decide

/-- C4 (the code at the failing input). After `upd1` has been accepted, the
same envelope, whose timestamp equals the one of the current price, is accepted
again: the call returns true, the history holds the message twice and the
failure counter is 0. -/
theorem replayed_update_is_accepted :
    (Fixture.c1.submit_price_update Fixture.stub 1700000000 Fixture.upd1).1 = .returned true ∧
    Fixture.c2.isInitialized = true ∧ Fixture.c2.isKeyBurned = false ∧
    Fixture.c2.is_emergency_paused = false ∧
    Fixture.upd1.message.timestamp ≤ Fixture.c2.get_current_price.timestamp ∧
    (Fixture.c2.submit_price_update Fixture.stub 1700000000 Fixture.upd1).1 = .returned true ∧
    (Fixture.c2.submit_price_update Fixture.stub 1700000000 Fixture.upd1).2.price_history
      = [Fixture.msg1, Fixture.msg1] ∧
    (Fixture.c2.submit_price_update Fixture.stub 1700000000 Fixture.upd1).2.get_failed_updates
      = 0 := by
  decide

/-- C5 (the code at the failing input). Three consecutive submissions with
three valid signatures are each rejected and bring the failure counter to 3,
the committee is still not paused, and a fourth, well-formed update is
accepted without any `resume_operations`. -/
theorem three_failures_do_not_pause :
    Fixture.c2.get_failed_updates = 0 ∧ Fixture.c2.is_emergency_paused = false ∧
    (Fixture.c2.submit_price_update Fixture.stub 1700000100 Fixture.upd_short).1
      = .returned false ∧
    (Fixture.c3.submit_price_update Fixture.stub 1700000100 Fixture.upd_short).1
      = .returned false ∧
    (Fixture.c4.submit_price_update Fixture.stub 1700000100 Fixture.upd_short).1
      = .returned false ∧
    Fixture.c5.get_failed_updates = 3 ∧
    Fixture.c5.is_emergency_paused = false ∧
    (Fixture.c5.submit_price_update Fixture.stub 1700000100 Fixture.upd2).1
      = .returned true := by
  decide

/-- C6. After a successful `burnKey(admin)` the admin address is the sentinel
`0x…dead`; after any later sequence of calls the guard is still burned with the
sentinel as admin, `requireAdmin` throws for every sender (the former admin and
the sentinel included), and `finalizeLaunch`, `burnKey`, the committee's
`emergency_pause` and `resume_operations` and the token's
`mint_initial_supply` throw and leave the component as it was. The other
member functions of the qBTC and qUSD ledgers, the bridge and the multisig
hand back the guard they were given, so no call sequence on them resets it. -/
theorem burnKey_locks_admin_forever (lp : LaunchProtect) (admin : String)
    (h : (lp.burnKey admin).1 = .returned ()) :
    (lp.burnKey admin).2.adminAddress = DEAD ∧
    (∀ (calls : List LaunchProtect.Call) (sender : String),
      ((lp.burnKey admin).2.run calls).isKeyBurned = true ∧
      ((lp.burnKey admin).2.run calls).adminAddress = DEAD ∧
      (∃ msg, ((lp.burnKey admin).2.run calls).requireAdmin sender = .threw msg) ∧
      (∃ msg, ((lp.burnKey admin).2.run calls).finalizeLaunch sender
        = (.threw msg, (lp.burnKey admin).2.run calls)) ∧
      (∃ msg, ((lp.burnKey admin).2.run calls).burnKey sender
        = (.threw msg, (lp.burnKey admin).2.run calls))) ∧
    (∀ (env : Crypto) (c : QOracleCommittee), c.toLaunchProtect = (lp.burnKey admin).2 →
      ∀ (calls : List QOracleCommittee.Call) (sender : String),
        (c.run env calls).isKeyBurned = true ∧
        (c.run env calls).adminAddress = DEAD ∧
        (∃ msg, (c.run env calls).requireAdmin sender = .threw msg) ∧
        (∃ msg, (c.run env calls).emergency_pause sender = (.threw msg, c.run env calls)) ∧
        (∃ msg, (c.run env calls).resume_operations sender = (.threw msg, c.run env calls)) ∧
        (∃ msg, (c.run env calls).finalizeLaunch sender = (.threw msg, c.run env calls)) ∧
        (∃ msg, (c.run env calls).burnKey sender = (.threw msg, c.run env calls))) ∧
    (∀ (t : BankonPythaiToken), t.toLaunchProtect = (lp.burnKey admin).2 →
      ∀ (calls : List BankonPythaiToken.Call) (sender : String),
        (t.run calls).isKeyBurned = true ∧
        (t.run calls).adminAddress = DEAD ∧
        (∃ msg, (t.run calls).requireAdmin sender = .threw msg) ∧
        (∃ msg, (t.run calls).mint_initial_supply sender = (.threw msg, t.run calls)) ∧
        (∃ msg, (t.run calls).finalizeLaunch sender = (.threw msg, t.run calls)) ∧
        (∃ msg, (t.run calls).burnKey sender = (.threw msg, t.run calls))) ∧
    (∀ (q : QBTCSynthetic) (s : QUSDStablecoin) (b : CrossChainBridge) (g : QnosisMultisig)
        (oracle : QOracleCommittee) (u : PriceUpdate) (now n : Nat) (x y data action : String),
      (q.mint oracle x n u).2.toLaunchProtect = q.toLaunchProtect ∧
      (q.burn x n).2.toLaunchProtect = q.toLaunchProtect ∧
      (q.transfer x y n).2.toLaunchProtect = q.toLaunchProtect ∧
      (s.mint x y n).2.toLaunchProtect = s.toLaunchProtect ∧
      (s.burn x y n).2.toLaunchProtect = s.toLaunchProtect ∧
      (s.transfer x y n).2.toLaunchProtect = s.toLaunchProtect ∧
      (b.swap_stx_for_qbtc oracle q now x n u).2.1.toLaunchProtect = b.toLaunchProtect ∧
      (b.swap_stx_for_qbtc oracle q now x n u).2.2.toLaunchProtect = q.toLaunchProtect ∧
      (b.swap_qbtc_for_stx oracle q now x n u).2.1.toLaunchProtect = b.toLaunchProtect ∧
      (b.swap_qbtc_for_stx oracle q now x n u).2.2.toLaunchProtect = q.toLaunchProtect ∧
      (b.reset_daily_volume_if_needed now).toLaunchProtect = b.toLaunchProtect ∧
      (g.propose now x y n data action data).2.toLaunchProtect = g.toLaunchProtect ∧
      (g.sign n x).2.toLaunchProtect = g.toLaunchProtect ∧
      (g.execute now n).2.toLaunchProtect = g.toLaunchProtect) := by
  obtain ⟨hb, ha, _⟩ := lp.burnKey_returned admin h
  refine ⟨ha, ?_, ?_, ?_, ?_⟩
  rotate_right
  · intro q s b g oracle u now n x y data action
    exact ⟨q.qbtc_mint_guard oracle x n u, q.qbtc_burn_guard x n, q.qbtc_transfer_guard x y n,
      s.qusd_mint_guard x y n, s.qusd_burn_guard x y n, s.qusd_transfer_guard x y n,
      (b.swap_stx_for_qbtc_guard oracle q now x n u).1,
      (b.swap_stx_for_qbtc_guard oracle q now x n u).2,
      (b.swap_qbtc_for_stx_guard oracle q now x n u).1,
      (b.swap_qbtc_for_stx_guard oracle q now x n u).2,
      b.reset_guard now, g.propose_guard now x y n data action data, g.sign_guard n x,
      g.execute_guard now n⟩
  · intro calls sender
    rw [LaunchProtect.guard_run_of_burned _ calls hb]
    exact ⟨hb, ha, LaunchProtect.requireAdmin_of_burned _ sender hb,
      LaunchProtect.finalizeLaunch_of_burned _ sender hb,
      LaunchProtect.burnKey_of_burned _ sender hb⟩
  · intro env c hc calls sender
    have hcb : c.burned = true := by rw [hc]; exact hb
    have hca : c.admin = DEAD := by rw [hc]; exact ha
    rw [QOracleCommittee.committee_run_of_burned env c calls hcb]
    obtain ⟨m1, h1⟩ := c.toLaunchProtect.requireAdmin_of_burned sender hcb
    obtain ⟨m2, h2⟩ := c.toLaunchProtect.finalizeLaunch_of_burned sender hcb
    obtain ⟨m3, h3⟩ := c.toLaunchProtect.burnKey_of_burned sender hcb
    refine ⟨hcb, hca, ⟨m1, h1⟩, ⟨m1, ?_⟩, ⟨m1, ?_⟩, ⟨m2, ?_⟩, ⟨m3, ?_⟩⟩
    · simp [QOracleCommittee.emergency_pause, h1]
    · simp [QOracleCommittee.resume_operations, h1]
    · simp [QOracleCommittee.finalizeLaunch, h2]
    · simp [QOracleCommittee.burnKey, h3]
  · intro t ht calls sender
    have htb : t.burned = true := by rw [ht]; exact hb
    have hta : t.admin = DEAD := by rw [ht]; exact ha
    rw [BankonPythaiToken.token_run_of_burned t calls htb]
    obtain ⟨m1, h1⟩ := t.toLaunchProtect.requireAdmin_of_burned sender htb
    obtain ⟨m2, h2⟩ := t.toLaunchProtect.finalizeLaunch_of_burned sender htb
    obtain ⟨m3, h3⟩ := t.toLaunchProtect.burnKey_of_burned sender htb
    refine ⟨htb, hta, ⟨m1, h1⟩, ⟨m1, ?_⟩, ⟨m2, ?_⟩, ⟨m3, ?_⟩⟩
    · simp [BankonPythaiToken.mint_initial_supply, h1]
    · simp [BankonPythaiToken.finalizeLaunch, h2]
    · simp [BankonPythaiToken.burnKey, h3]

/-- Witness for C6: the launched guard of admin "admin", after
`burnKey("admin")` and the later calls `finalizeLaunch("admin")` and
`burnKey(0x…dead)`, rejects `requireAdmin("admin")`. -/
theorem burnKey_locks_admin_forever_witness :
    ((⟨true, false, "admin"⟩ : LaunchProtect).burnKey "admin").1 = .returned () ∧
    (((⟨true, false, "admin"⟩ : LaunchProtect).burnKey "admin").2.adminAddress = DEAD ∧
     ∃ msg, ((((⟨true, false, "admin"⟩ : LaunchProtect).burnKey "admin").2.run
        [.finalizeLaunch "admin", .burnKey DEAD]).requireAdmin "admin") = .threw msg) :=
  ⟨by decide,
    (burnKey_locks_admin_forever ⟨true, false, "admin"⟩ "admin" (by decide)).1,
    ((burnKey_locks_admin_forever ⟨true, false, "admin"⟩ "admin" (by decide)).2.1
      [.finalizeLaunch "admin", .burnKey DEAD] "admin").2.2.1⟩

/-- C7 (counterexample). The token `t_burned` was launched and its key burned;
alice holds 100 units, yet `transfer("alice", "bob", 10)` throws and changes
nothing. -/
theorem transfer_throws_after_burnKey :
    Fixture.t_burned.isInitialized = true ∧ Fixture.t_burned.isKeyBurned = true ∧
    "alice" ≠ "bob" ∧ 0 < 10 ∧ 10 ≤ Fixture.t_burned.balanceOf "alice" ∧
    Fixture.t_burned.transfer "alice" "bob" 10
      = (.threw "Admin key burned - contract immutable", Fixture.t_burned) := by
  decide

/-- C7 (amended). For a token reached from its constructor that is launched
and whose key is NOT burned, for accounts A ≠ B and 0 < x ≤ balance(A),
`transfer(A, B, x)` returns true, lowers balance(A) by x and raises balance(B)
by x; from that same state `burnKey(admin)` succeeds and afterwards the same
transfer throws "Admin key burned - contract immutable" and changes nothing. -/
theorem transfer_succeeds_until_burnKey (t : BankonPythaiToken) (A B : String) (x : Nat)
    (hreach : t.Reachable) (hinit : t.isInitialized = true) (hnb : t.isKeyBurned = false)
    (hAB : A ≠ B) (hx : 0 < x) (hbal : x ≤ t.balanceOf A) :
    (t.transfer A B x).1 = .returned true ∧
    (t.transfer A B x).2.balanceOf A = t.balanceOf A - x ∧
    (t.transfer A B x).2.balanceOf B = t.balanceOf B + x ∧
    (t.burnKey t.adminAddress).1 = .returned () ∧
    (t.burnKey t.adminAddress).2.transfer A B x
      = (.threw "Admin key burned - contract immutable", (t.burnKey t.adminAddress).2) := by
  have hsum := BankonPythaiToken.Reachable.sum_le t hreach
  have hlt := BKPY_TOTAL_SUPPLY_lt_U64
  simp only [LaunchProtect.isInitialized, LaunchProtect.isKeyBurned] at hinit hnb
  simp only [BankonPythaiToken.balanceOf] at hbal ⊢
  have hact : t.requireActive A = .returned () := by
    simp [LaunchProtect.requireActive, hinit, hnb]
  have hx0 : ¬ x = 0 := by omega
  have hnlt : ¬ t.balances.get A < x := by omega
  have hmod := (Ledger_transfer_sum t.balances A B x hbal (by omega)).2
  have htr : t.transfer A B x = (.returned true,
      { t with balances := Ledger.set (t.balances.set A (t.balances.get A - x)) B
                             ((t.balances.set A (t.balances.get A - x)).get B + x) }) := by
    simp only [BankonPythaiToken.transfer, hact, if_neg hx0, if_neg hnlt, hmod]
  have hadm : t.requireAdmin t.adminAddress = .returned () := by
    simp [LaunchProtect.requireAdmin, LaunchProtect.adminAddress, hnb]
  refine ⟨by rw [htr], ?_, ?_, ?_, ?_⟩
  · rw [htr]
    simp only []
    rw [Ledger.get_set_other _ B A _ (Ne.symm hAB), Ledger.get_set_same]
  · rw [htr]
    simp only []
    rw [Ledger.get_set_same, Ledger.get_set_other _ A B _ hAB]
  · simp [BankonPythaiToken.burnKey, LaunchProtect.burnKey, hadm]
  · simp [BankonPythaiToken.burnKey, LaunchProtect.burnKey, hadm, BankonPythaiToken.transfer,
      LaunchProtect.requireActive, hinit]

/-- Witness for C7 (amended): the launched token `t_active`, alice to bob, 10 units. -/
theorem transfer_succeeds_until_burnKey_witness :
    (Fixture.t_active.transfer "alice" "bob" 10).1 = .returned true ∧
    (Fixture.t_active.transfer "alice" "bob" 10).2.balanceOf "alice"
      = Fixture.t_active.balanceOf "alice" - 10 ∧
    (Fixture.t_active.transfer "alice" "bob" 10).2.balanceOf "bob"
      = Fixture.t_active.balanceOf "bob" + 10 ∧
    (Fixture.t_active.burnKey Fixture.t_active.adminAddress).1 = .returned () ∧
    (Fixture.t_active.burnKey Fixture.t_active.adminAddress).2.transfer "alice" "bob" 10
      = (.threw "Admin key burned - contract immutable",
          (Fixture.t_active.burnKey Fixture.t_active.adminAddress).2) :=
  transfer_succeeds_until_burnKey Fixture.t_active "alice" "bob" 10
    ⟨"admin", [.mint_initial_supply "admin", .finalizeLaunch "admin",
      .transfer "admin" "alice" 100], rfl⟩
    (by decide) (by decide) (by decide) (by decide) (by decide)

/-- C8 (the code at the failing input). After `burnKey(admin)` has succeeded,
`propose` and `sign` throw, but `execute(1)` at time 87_400 still sets the
executed flag of proposal 1. -/
theorem execute_mutates_after_burnKey :
    (Fixture.g_signed.burnKey "admin").1 = .returned () ∧
    Fixture.g_burned.isKeyBurned = true ∧
    Fixture.g_burned.isExecuted 1 = false ∧
    (Fixture.g_burned.propose 87400 "o1" "target" 0 "" "generic" "").1
      = .threw "Admin key burned - contract immutable" ∧
    (Fixture.g_burned.sign 1 "o1").1 = .threw "Admin key burned - contract immutable" ∧
    (Fixture.g_burned.execute 87400 1).1 = .returned () ∧
    (Fixture.g_burned.execute 87400 1).2.isExecuted 1 = true ∧
    (Fixture.g_burned.execute 87400 1).2.proposals ≠ Fixture.g_burned.proposals := by
  decide

/-- C9 (counterexample). On a freshly constructed guard `burnKey(admin)`
succeeds at once: the state is burned and not initialised. -/
theorem burnKey_succeeds_before_finalizeLaunch :
    ((LaunchProtect.new "admin").burnKey "admin").1 = .returned () ∧
    ((LaunchProtect.new "admin").run [.burnKey "admin"]).burned = true ∧
    ((LaunchProtect.new "admin").run [.burnKey "admin"]).initialized = false := by
  decide

/-- C9 (amended). From the constructed state, under any sequence of
`finalizeLaunch` and `burnKey` calls by any senders, no call resets a flag: an
initialised guard stays initialised and a burned guard stays burned; a burned
guard is not changed at all by a further call, so a guard burned before
`finalizeLaunch` stays uninitialised. -/
theorem lifecycle_flags_never_reset (admin : String) (calls : List LaunchProtect.Call)
    (call : LaunchProtect.Call) :
    (((LaunchProtect.new admin).run calls).initialized = true →
      (((LaunchProtect.new admin).run calls).step call).initialized = true) ∧
    (((LaunchProtect.new admin).run calls).burned = true →
      (((LaunchProtect.new admin).run calls).step call).burned = true) ∧
    (((LaunchProtect.new admin).run calls).burned = true →
      ((LaunchProtect.new admin).run calls).step call = (LaunchProtect.new admin).run calls) := by
  refine ⟨fun h => LaunchProtect.step_initialized _ call h, fun h => ?_,
    fun h => LaunchProtect.guard_step_of_burned _ call h⟩
  rw [LaunchProtect.guard_step_of_burned _ call h]
  exact h

/-- Witness for C9 (amended): a guard burned before `finalizeLaunch` is left
unchanged, hence uninitialised, by a later `finalizeLaunch(admin)`. -/
theorem lifecycle_flags_never_reset_witness :
    ((LaunchProtect.new "admin").run [.burnKey "admin"]).burned = true ∧
    ((LaunchProtect.new "admin").run [.burnKey "admin"]).step (.finalizeLaunch "admin")
      = (LaunchProtect.new "admin").run [.burnKey "admin"] :=
  ⟨by decide,
    (lifecycle_flags_never_reset "admin" [.burnKey "admin"] (.finalizeLaunch "admin")).2.2
      (by decide)⟩

end RC2

namespace qOracle

/-- C10. `verify_price_update` returns true exactly when at least 4 of the
seven indices belong to an active oracle whose FIRST entry in `u.signatures`
verifies over the message digest; entries with index 7 or more, entries of
inactive oracles and later entries repeating an index are not counted. On the
fixtures: valid entries of 0,1,2,3 and an invalid one of 4 are accepted, and an
update whose valid entry for oracle 0 comes after an invalid one for oracle 0
is rejected. -/
theorem verify_price_update_iff_first_entries :
    (∀ (env : Crypto) (v : QuantumSignatureVerifier) (u : PriceUpdate),
      v.verify_price_update env u = true ↔
        4 ≤ (Finset.univ.filter (fun i : Fin 7 =>
          (v.oracles i).active = true ∧
            first_entry_verifies env v u.message u.signatures i = true)).card) ∧
    Fixture.c1.verifier.verify_price_update Fixture.stub Fixture.upd1 = true ∧
    Fixture.c1.verifier.verify_price_update Fixture.stub Fixture.upd_dup = false := by
  refine ⟨?_, by decide, by decide⟩
  intro env v u
  rw [verify_price_update_eq, counted_nil_seen]
  simp

end qOracle

namespace RC2

open qOracle

/-- C11. In a committee state reached from the constructor, whenever
`submit_price_update(u)` returns true: the current price is `u.message`, the
failure counter is 0, and the new history is the last min(n + 1, 1024)
elements of `old_history ++ [u.message]`: the oldest entry is dropped exactly
when the old history held 1024 entries, and an empty history becomes one of
length 1. The history holds at most 1024 entries before and after, and its
last element is the current price. -/
theorem submit_price_update_commit (env : Crypto) (c : QOracleCommittee) (now : Nat)
    (u : PriceUpdate) (hreach : c.Reachable env)
    (h : (c.submit_price_update env now u).1 = .returned true) :
    (c.submit_price_update env now u).2.get_current_price = u.message ∧
    (c.submit_price_update env now u).2.get_failed_updates = 0 ∧
    (c.submit_price_update env now u).2.price_history
      = (c.price_history ++ [u.message]).drop
          ((c.price_history ++ [u.message]).length - min (c.price_history.length + 1) 1024) ∧
    (c.submit_price_update env now u).2.price_history.length
      = min (c.price_history.length + 1) 1024 ∧
    (c.price_history.length = 1024 →
      (c.submit_price_update env now u).2.price_history = c.price_history.tail ++ [u.message]) ∧
    (c.price_history.length < 1024 →
      (c.submit_price_update env now u).2.price_history = c.price_history ++ [u.message]) ∧
    (c.price_history = [] → (c.submit_price_update env now u).2.price_history.length = 1) ∧
    c.price_history.length ≤ 1024 ∧
    (c.submit_price_update env now u).2.price_history.length ≤ 1024 ∧
    (c.price_history ≠ [] → c.price_history.getLast? = some c.get_current_price) ∧
    (c.submit_price_update env now u).2.price_history.getLast?
      = some (c.submit_price_update env now u).2.get_current_price := by
  obtain ⟨hmax, hlen, hlast⟩ := QOracleCommittee.Reachable.history_inv env c hreach
  have hb := history_push_bound c.price_history u.message hlen
  rw [QOracleCommittee.submit_true_state env c now u h]
  simp only [QOracleCommittee.get_current_price, QOracleCommittee.get_failed_updates, hmax]
  refine ⟨trivial, trivial, hb.2.2, hb.1, ?_, ?_, ?_, hlen, ?_, hlast, hb.2.1⟩
  · intro hfull
    have hgt : (c.price_history ++ [u.message]).length > 1024 := by simp [hfull]
    rw [if_pos hgt]
    cases hc : c.price_history with
    | nil => rw [hc] at hfull; simp at hfull
    | cons a rest => simp
  · intro hlt
    have hle : ¬ (c.price_history ++ [u.message]).length > 1024 := by
      simp only [List.length_append, List.length_singleton]
      omega
    rw [if_neg hle]
  · intro hnil
    rw [hb.1, hnil]
    simp
  · rw [hb.1]
    omega

/-- Witness for C11: scenario 1 on the freshly launched committee. -/
theorem submit_price_update_commit_witness :
    (Fixture.c1.submit_price_update Fixture.stub 1700000000 Fixture.upd1).2.get_current_price
      = Fixture.upd1.message ∧
    (Fixture.c1.submit_price_update Fixture.stub 1700000000 Fixture.upd1).2.get_failed_updates
      = 0 ∧
    (Fixture.c1.submit_price_update Fixture.stub 1700000000 Fixture.upd1).2.price_history.length
      = 1 :=
  ⟨(submit_price_update_commit Fixture.stub Fixture.c1 1700000000 Fixture.upd1
      ⟨"admin", Fixture.keys, Fixture.addrs, [.finalizeLaunch "admin"], rfl⟩ (by decide)).1,
   (submit_price_update_commit Fixture.stub Fixture.c1 1700000000 Fixture.upd1
      ⟨"admin", Fixture.keys, Fixture.addrs, [.finalizeLaunch "admin"], rfl⟩ (by decide)).2.1,
   (submit_price_update_commit Fixture.stub Fixture.c1 1700000000 Fixture.upd1
      ⟨"admin", Fixture.keys, Fixture.addrs, [.finalizeLaunch "admin"], rfl⟩
      (by decide)).2.2.2.2.2.2.1 rfl⟩

/-- C12 (counterexample). A committee paused by its admin before
`finalizeLaunch` is paused, yet `submit_price_update` does not return false: it
throws "Contract not initialized". -/
theorem paused_submit_throws_before_launch :
    Fixture.c_paused_early.is_emergency_paused = true ∧
    Fixture.c_paused_early.isInitialized = false ∧
    (Fixture.c_paused_early.submit_price_update Fixture.stub 1700000000 Fixture.upd1).1
      = .threw "Contract not initialized" ∧
    (Fixture.c_paused_early.submit_price_update Fixture.stub 1700000000 Fixture.upd1).1
      ≠ .returned false := by
  decide

/-- C12 (amended). While the committee is paused, `submit_price_update`
changes nothing (price, history, performance counters and failure counter
stay): it returns false when `requireActive` lets the call through, as on an
initialised committee whose key is not burned, and otherwise throws what
`requireActive` throws. `emergency_pause` and `resume_operations` by the admin
of a committee whose key is not burned return true and change only the pause
flag; by any other sender they throw "Admin access required" and change
nothing. -/
theorem paused_submit_changes_nothing (env : Crypto) (c : QOracleCommittee) (now : Nat)
    (u : PriceUpdate) (sender : String) :
    (c.is_emergency_paused = true →
      (c.submit_price_update env now u).2 = c ∧
      (c.isInitialized = true → c.isKeyBurned = false →
        (c.submit_price_update env now u).1 = .returned false) ∧
      (c.requireActive "oracle_committee" = .returned () →
        (c.submit_price_update env now u).1 = .returned false) ∧
      (∀ msg, c.requireActive "oracle_committee" = .threw msg →
        (c.submit_price_update env now u).1 = .threw msg)) ∧
    (sender = c.adminAddress → c.isKeyBurned = false →
      c.emergency_pause sender = (.returned true, { c with emergency_paused := true }) ∧
      c.resume_operations sender = (.returned true, { c with emergency_paused := false })) ∧
    (sender ≠ c.adminAddress →
      c.emergency_pause sender = (.threw "Admin access required", c) ∧
      c.resume_operations sender = (.threw "Admin access required", c)) := by
  simp only [QOracleCommittee.is_emergency_paused, LaunchProtect.isInitialized,
    LaunchProtect.isKeyBurned, LaunchProtect.adminAddress]
  refine ⟨fun hp => ⟨?_, ?_, ?_, ?_⟩, ?_, ?_⟩
  · unfold QOracleCommittee.submit_price_update
    cases c.requireActive "oracle_committee" <;> simp [hp]
  · intro hi hb
    simp [QOracleCommittee.submit_price_update, LaunchProtect.requireActive, hi, hb, hp]
  · intro hr
    simp [QOracleCommittee.submit_price_update, hr, hp]
  · intro msg hr
    simp [QOracleCommittee.submit_price_update, hr]
  · intro hs hb
    simp [QOracleCommittee.emergency_pause, QOracleCommittee.resume_operations,
      LaunchProtect.requireAdmin, hs, hb]
  · intro hs
    simp [QOracleCommittee.emergency_pause, QOracleCommittee.resume_operations,
      LaunchProtect.requireAdmin, hs]

/-- Witness for C12 (amended): the launched committee `c_paused`. -/
theorem paused_submit_changes_nothing_witness :
    (Fixture.c_paused.submit_price_update Fixture.stub 1700000100 Fixture.upd2).2
      = Fixture.c_paused ∧
    (Fixture.c_paused.submit_price_update Fixture.stub 1700000100 Fixture.upd2).1
      = .returned false ∧
    Fixture.c_paused.resume_operations "admin"
      = (.returned true, { Fixture.c_paused with emergency_paused := false }) ∧
    Fixture.c_paused.resume_operations "mallory"
      = (.threw "Admin access required", Fixture.c_paused) :=
  ⟨((paused_submit_changes_nothing Fixture.stub Fixture.c_paused 1700000100 Fixture.upd2
      "admin").1 (by decide)).1,
   ((paused_submit_changes_nothing Fixture.stub Fixture.c_paused 1700000100 Fixture.upd2
      "admin").1 (by decide)).2.1 (by decide) (by decide),
   ((paused_submit_changes_nothing Fixture.stub Fixture.c_paused 1700000100 Fixture.upd2
      "admin").2.1 (by decide) (by decide)).2,
   ((paused_submit_changes_nothing Fixture.stub Fixture.c_paused 1700000100 Fixture.upd2
      "mallory").2.2 (by decide)).2⟩

end RC2

namespace qOracle

/-- C13. For an index `i < 7`: after `deactivate_oracle(i)` every signature
carrying index `i` fails `verify_oracle_signature` whatever the verifier says;
`verify_price_update` then holds exactly when at least 4 of the OTHER indices
are active with a verifying first entry (the threshold stays 4), and a
verifier with fewer than 4 active oracles accepts nothing; `activate_oracle(i)`
after the deactivation gives what `activate_oracle(i)` alone gives, which is
the verifier before the deactivation when oracle `i` was active; both calls
with an index of 7 or more change nothing. -/
theorem deactivate_oracle_keeps_threshold (env : Crypto) (v : QuantumSignatureVerifier) (i : Nat)
    (hi : i < 7) :
    (∀ (sig : OracleSignature) (msg : PriceMessage), sig.oracle_index = i →
      (v.deactivate_oracle i).verify_oracle_signature env sig msg = false) ∧
    (∀ u : PriceUpdate, (v.deactivate_oracle i).verify_price_update env u = true ↔
      4 ≤ (Finset.univ.filter (fun j : Fin 7 =>
        j.val ≠ i ∧ (v.oracles j).active = true ∧
          first_entry_verifies env v u.message u.signatures j = true)).card) ∧
    (∀ (w : QuantumSignatureVerifier) (u : PriceUpdate), w.active_oracle_count < 4 →
      w.verify_price_update env u = false) ∧
    (v.deactivate_oracle i).activate_oracle i = v.activate_oracle i ∧
    ((v.oracles ⟨i, hi⟩).active = true → (v.deactivate_oracle i).activate_oracle i = v) ∧
    (∀ k : Nat, 7 ≤ k → v.deactivate_oracle k = v ∧ v.activate_oracle k = v) := by
  have h7 : i < NUM_ORACLES := hi
  refine ⟨?_, ?_, fun w u h => verify_price_update_needs_four_active env w u h, ?_, ?_, ?_⟩
  · intro sig msg hsig
    have hlt : sig.oracle_index < 7 := by omega
    rw [verify_oracle_signature_eq env _ msg sig hlt,
      (deactivate_oracle_oracles v i hi ⟨sig.oracle_index, hlt⟩).2]
    simp [hsig]
  · intro u
    rw [verify_price_update_eq, counted_nil_seen]
    simp only [decide_eq_true_eq]
    have hset : (Finset.univ.filter (fun j : Fin 7 =>
        ((v.deactivate_oracle i).oracles j).active = true ∧
          first_entry_verifies env (v.deactivate_oracle i) u.message u.signatures j = true))
        = Finset.univ.filter (fun j : Fin 7 =>
            j.val ≠ i ∧ (v.oracles j).active = true ∧
              first_entry_verifies env v u.message u.signatures j = true) := by
      apply Finset.filter_congr
      intro j _
      rw [first_entry_verifies_deactivate env v i hi, (deactivate_oracle_oracles v i hi j).2]
      simp [and_assoc]
    rw [hset]
  · unfold QuantumSignatureVerifier.activate_oracle QuantumSignatureVerifier.deactivate_oracle
    simp only [h7, if_true]
    congr 1
    funext j
    by_cases hj : j.val = i <;> simp [hj]
  · intro hact
    unfold QuantumSignatureVerifier.activate_oracle QuantumSignatureVerifier.deactivate_oracle
    simp only [h7, if_true]
    cases v with
    | mk oracles last_nonce =>
      simp only [QuantumSignatureVerifier.mk.injEq, and_true]
      funext j
      by_cases hj : j.val = i
      · have hji : j = ⟨i, hi⟩ := Fin.ext hj
        subst hji
        simp only [if_true]
        simp only [] at hact
        cases ho : oracles ⟨i, hi⟩ with
        | mk idx pk addr act =>
          rw [ho] at hact
          simp only [] at hact
          simp [hact]
      · simp [hj]
  · intro k hk
    have hk7 : ¬ k < NUM_ORACLES := by unfold NUM_ORACLES; omega
    simp [QuantumSignatureVerifier.deactivate_oracle, QuantumSignatureVerifier.activate_oracle, hk7]

/-- Witness for C13: oracle 2 deactivated; with oracles 0..3 deactivated the
envelope of scenario 1 no longer verifies. -/
theorem deactivate_oracle_keeps_threshold_witness :
    (2 < 7) ∧
    (Fixture.c1.verifier.deactivate_oracle 2).verify_oracle_signature Fixture.stub
      (Fixture.good 2 1700000000) Fixture.msg1 = false ∧
    Fixture.v_three_active.verify_price_update Fixture.stub Fixture.upd1 = false :=
  ⟨by decide,
   (deactivate_oracle_keeps_threshold Fixture.stub Fixture.c1.verifier 2 (by decide)).1
     (Fixture.good 2 1700000000) Fixture.msg1 rfl,
   (deactivate_oracle_keeps_threshold Fixture.stub Fixture.c1.verifier 2 (by decide)).2.2.1
     Fixture.v_three_active Fixture.upd1 (by decide)⟩

/-- C14. For every message, `serialize` is `BE64(price) ++ BE64(timestamp) ++
[decimals] ++ BE64(nonce) ++ asset` and has length 25 + |asset|, where `BE64 x`
has 8 bytes and its byte `j` is `(x >> 8 * (7 - j)) & 0xFF`. -/
theorem serialize_layout (m : PriceMessage) :
    m.serialize
      = BE64 m.price ++ BE64 m.timestamp ++ [m.decimals] ++ BE64 m.nonce ++ m.asset ∧
    m.serialize.length = 25 + m.asset.length ∧
    (∀ x : Nat, (BE64 x).length = 8) ∧
    (∀ x j : Nat, j < 8 → (BE64 x)[j]? = some ((x >>> (8 * (7 - j))) &&& 0xFF)) := by
  refine ⟨serialize_eq m, ?_, BE64_length, ?_⟩
  · rw [serialize_eq]
    simp only [List.length_append, BE64_length, List.length_singleton]
  · intro x j hj
    simp [BE64, List.getElem?_map, List.getElem?_range hj]

/-- C15. For messages whose fields are in the range of their C++ types,
equal serializations mean equal messages in all five fields (and equal
messages serialize equally); a message whose asset is extended by a blank and
anything after it never shares the serialization. -/
theorem serialize_unambiguous (m1 m2 : PriceMessage) (h1 : m1.wf) (h2 : m2.wf) :
    (m1.serialize = m2.serialize ↔ m1 = m2) ∧
    (∀ blanks : Bytes, m2 = { m1 with asset := m1.asset ++ 32 :: blanks } →
      m1.serialize ≠ m2.serialize) := by
  have hinj : m1.serialize = m2.serialize → m1 = m2 := by
    intro h
    rw [serialize_eq, serialize_eq] at h
    have e1 := List.append_inj h (by simp [BE64_length])
    have e2 := List.append_inj e1.1 (by simp [BE64_length])
    have e3 := List.append_inj e2.1 (by simp [BE64_length])
    have e4 := List.append_inj e3.1 (by simp [BE64_length])
    have hp := BE64_injective _ _ h1.1 h2.1 e4.1
    have ht := BE64_injective _ _ h1.2.1 h2.2.1 e4.2
    have hd : m1.decimals = m2.decimals := by simpa using e3.2
    have hn := BE64_injective _ _ h1.2.2.2.1 h2.2.2.2.1 e2.2
    cases m1; cases m2
    simp only [PriceMessage.mk.injEq]
    exact ⟨hp, ht, hd, hn, e1.2⟩
  refine ⟨⟨hinj, fun h => by rw [h]⟩, ?_⟩
  intro blanks hm heq
  have := hinj heq
  rw [hm] at this
  have ha := congrArg PriceMessage.asset this
  simp at ha

/-- Witness for C15: the assets "BTC" and "BTC " give different serializations. -/
theorem serialize_unambiguous_witness :
    Fixture.msg_btc.wf ∧ Fixture.msg_btc_blank.wf ∧
    Fixture.msg_btc.serialize ≠ Fixture.msg_btc_blank.serialize :=
  ⟨by decide, by decide,
    (serialize_unambiguous Fixture.msg_btc Fixture.msg_btc_blank (by decide) (by decide)).2 []
      rfl⟩

/-- C16 (counterexample). With the default skew of 600 s, the timestamp
2^64 - 1 at clock value 2^64 - 1 has absolute difference 0, yet
`validate_timestamp` returns false: `current_time + max_timestamp_skew` wraps
to 599. -/
theorem validate_timestamp_wraps :
    (18446744073709551615 : Nat) < U64 ∧ (600 : Nat) < U64 ∧
    |((18446744073709551615 : Nat) : Int) - ((18446744073709551615 : Nat) : Int)|
      ≤ ((600 : Nat) : Int) ∧
    ({} : PriceValidator).max_timestamp_skew = 600 ∧
    ({} : PriceValidator).validate_timestamp 18446744073709551615 18446744073709551615
      = false := by
  refine ⟨by decide, by decide, by norm_num, rfl, by decide⟩

/-- C16 (amended). When neither `now + max_timestamp_skew` nor
`ts + max_timestamp_skew` reaches 2^64, `validate_timestamp(ts, now)` returns
true iff `now == 0` or |ts − now| ≤ max_timestamp_skew over the integers. -/
theorem validate_timestamp_iff_no_wrap (p : PriceValidator) (ts now : Nat)
    (hnow : now + p.max_timestamp_skew < U64) (hts : ts + p.max_timestamp_skew < U64) :
    p.validate_timestamp ts now = true ↔
      now = 0 ∨ |(ts : Int) - (now : Int)| ≤ (p.max_timestamp_skew : Int) := by
  unfold PriceValidator.validate_timestamp
  rw [Nat.mod_eq_of_lt hnow, Nat.mod_eq_of_lt hts, abs_le]
  by_cases h0 : now = 0
  · simp [h0]
  · simp only [h0, if_false, Bool.and_eq_true, decide_eq_true_eq, false_or, ge_iff_le]
    omega

/-- Witness for C16 (amended): timestamp 1_700_000_600 at clock 1_700_000_000. -/
theorem validate_timestamp_iff_no_wrap_witness :
    (1700000000 + ({} : PriceValidator).max_timestamp_skew < U64) ∧
    (1700000600 + ({} : PriceValidator).max_timestamp_skew < U64) ∧
    (({} : PriceValidator).validate_timestamp 1700000600 1700000000 = true ↔
      (1700000000 : Nat) = 0 ∨
        |((1700000600 : Nat) : Int) - ((1700000000 : Nat) : Int)|
          ≤ ((({} : PriceValidator).max_timestamp_skew : Nat) : Int)) :=
  ⟨by decide, by decide,
    validate_timestamp_iff_no_wrap {} 1700000600 1700000000 (by decide) (by decide)⟩

/-- C17 (counterexample). With the default 50 percent, the step from price 1
to price 2^62 + 1 is accepted by `validate_price_deviation`, because
2^62 * 100 wraps to 0, while the integer deviation is far above 50. -/
theorem validate_price_deviation_wraps :
    (4611686018427387905 : Nat) < U64 ∧
    ({} : PriceValidator).max_deviation_percent = 50 ∧
    ({} : PriceValidator).validate_price_deviation 4611686018427387905 1 = true ∧
    ¬ ((1 : Nat) = 0 ∨
      Int.natAbs (((4611686018427387905 : Nat) : Int) - ((1 : Nat) : Int)) * 100 / 1 ≤ 50) := by
  refine ⟨by decide, rfl, by decide, by decide⟩

/-- C17 (amended). When |new − old| * 100 is below 2^64,
`validate_price_deviation(new, old)` returns true iff `old == 0` or
floor(|new − old| * 100 / old) ≤ max_deviation_percent over the integers. -/
theorem validate_price_deviation_iff_no_wrap (p : PriceValidator) (new_price old_price : Nat)
    (h : Int.natAbs ((new_price : Int) - (old_price : Int)) * 100 < U64) :
    p.validate_price_deviation new_price old_price = true ↔
      old_price = 0 ∨
        Int.natAbs ((new_price : Int) - (old_price : Int)) * 100 / old_price
          ≤ p.max_deviation_percent := by
  unfold PriceValidator.validate_price_deviation
  by_cases h0 : old_price = 0
  · simp [h0]
  · simp only [h0, if_false, false_or, decide_eq_true_eq]
    by_cases hgt : new_price > old_price
    · have e : Int.natAbs ((new_price : Int) - (old_price : Int)) = new_price - old_price := by
        omega
      rw [e] at h ⊢
      rw [if_pos hgt, Nat.mod_eq_of_lt h]
    · have e : Int.natAbs ((new_price : Int) - (old_price : Int)) = old_price - new_price := by
        omega
      rw [e] at h ⊢
      rw [if_neg hgt, Nat.mod_eq_of_lt h]

/-- Witness for C17 (amended): from 50_000_000 to 75_000_000. -/
theorem validate_price_deviation_iff_no_wrap_witness :
    (Int.natAbs (((75000000 : Nat) : Int) - ((50000000 : Nat) : Int)) * 100 < U64) ∧
    (({} : PriceValidator).validate_price_deviation 75000000 50000000 = true ↔
      (50000000 : Nat) = 0 ∨
        Int.natAbs (((75000000 : Nat) : Int) - ((50000000 : Nat) : Int)) * 100 / 50000000
          ≤ ({} : PriceValidator).max_deviation_percent) :=
  ⟨by decide, validate_price_deviation_iff_no_wrap {} 75000000 50000000 (by decide)⟩

end qOracle

namespace RC2

open qOracle

/-- C18 (the code at the failing input). The product 100000 * 10^15 is 10^20,
which is not below 2^64; as a 64-bit product it is 7766279631452241920. That
is what `totalSupply()` returns for every token and what the admin holds right
after `mint_initial_supply(admin)`, not 10^20. -/
theorem BKPY_TOTAL_SUPPLY_is_wrapped :
    (100000 * 1000000000000000 : Nat) = 100000000000000000000 ∧
    ¬ (100000000000000000000 : Nat) < U64 ∧
    (∀ t : BankonPythaiToken, t.totalSupply = 7766279631452241920) ∧
    (BankonPythaiToken.new "admin").totalSupply ≠ 100000000000000000000 ∧
    ((BankonPythaiToken.new "admin").mint_initial_supply "admin").1 = .returned true ∧
    ((BankonPythaiToken.new "admin").mint_initial_supply "admin").2.balanceOf "admin"
      = 7766279631452241920 ∧
    ((BankonPythaiToken.new "admin").mint_initial_supply "admin").2.balanceOf "admin"
      ≠ 100000000000000000000 := by
  refine ⟨by decide, by decide, fun _ => ?_, by decide, by decide, by decide, by decide⟩
  unfold BankonPythaiToken.totalSupply
  decide

/-- C19. After a successful `mint_initial_supply(admin)` and any intervening
calls other than `burnKey` (transfers, burns, further mint attempts,
`finalizeLaunch`), `mint_initial_supply(admin)` returns false and leaves the
token as it was; after any calls at all, a further `mint_initial_supply` by
anyone never returns true and changes nothing; a call by a sender other than
the admin throws "Admin access required" and changes nothing. -/
theorem mint_initial_supply_one_shot (t : BankonPythaiToken) (admin : String)
    (calls : List BankonPythaiToken.Call)
    (h : (t.mint_initial_supply admin).1 = .returned true)
    (hcalls : ∀ call ∈ calls, call.isBurnKey = false) :
    ((t.mint_initial_supply admin).2.run calls).mint_initial_supply admin
      = (.returned false, (t.mint_initial_supply admin).2.run calls) ∧
    (∀ (later : List BankonPythaiToken.Call) (sender : String),
      (((t.mint_initial_supply admin).2.run later).mint_initial_supply sender).2
        = (t.mint_initial_supply admin).2.run later ∧
      (((t.mint_initial_supply admin).2.run later).mint_initial_supply sender).1
        ≠ .returned true) ∧
    (∀ (s : BankonPythaiToken) (sender : String), sender ≠ s.adminAddress →
      s.mint_initial_supply sender = (.threw "Admin access required", s)) := by
  have hfacts : t.requireAdmin admin = .returned () ∧ t.minted = false := by
    unfold BankonPythaiToken.mint_initial_supply at h
    cases hr : t.requireAdmin admin with
    | threw msg => rw [hr] at h; simp at h
    | returned x =>
      rw [hr] at h
      cases hm : t.minted with
      | true => simp [hm] at h
      | false => exact ⟨rfl, rfl⟩
  have hstate : (t.mint_initial_supply admin).2 =
      { t with balances := t.balances.set admin qOracleConfig.BKPY_TOTAL_SUPPLY, minted := true } := by
    simp [BankonPythaiToken.mint_initial_supply, hfacts.1, hfacts.2]
  have hadmin : t.admin = admin ∧ t.burned = false := by
    have hr := hfacts.1
    unfold LaunchProtect.requireAdmin at hr
    by_cases h1 : (admin != t.admin) = true
    · rw [if_pos h1] at hr; simp at hr
    · rw [if_neg h1] at hr
      cases hb : t.burned with
      | true => simp [hb] at hr
      | false =>
        refine ⟨?_, rfl⟩
        simp only [bne_iff_ne, ne_eq, not_not] at h1
        exact h1.symm
  have hminted : (t.mint_initial_supply admin).2.minted = true := by rw [hstate]
  refine ⟨?_, ?_, ?_⟩
  · have hm := BankonPythaiToken.run_minted _ calls hminted
    have ha := BankonPythaiToken.run_admin (t.mint_initial_supply admin).2 calls hcalls
    have ha1 : ((t.mint_initial_supply admin).2.run calls).admin = admin := by
      rw [ha.1, hstate]; exact hadmin.1
    have ha2 : ((t.mint_initial_supply admin).2.run calls).burned = false := by
      rw [ha.2, hstate]; exact hadmin.2
    exact BankonPythaiToken.mint_again_false _ admin hm ha1 ha2
  · intro later sender
    exact BankonPythaiToken.mint_of_minted _ sender
      (BankonPythaiToken.run_minted _ later hminted)
  · intro s sender hs
    simp only [LaunchProtect.adminAddress] at hs
    simp [BankonPythaiToken.mint_initial_supply, LaunchProtect.requireAdmin, hs]

/-- Witness for C19: mint, launch, move 100 units to alice, then mint again. -/
theorem mint_initial_supply_one_shot_witness :
    ((BankonPythaiToken.new "admin").mint_initial_supply "admin").1 = .returned true ∧
    Fixture.t_active.mint_initial_supply "admin" = (.returned false, Fixture.t_active) ∧
    Fixture.t_active.balanceOf "admin" = 7766279631452241820 :=
  ⟨by decide,
   (mint_initial_supply_one_shot (BankonPythaiToken.new "admin") "admin"
      [.finalizeLaunch "admin", .transfer "admin" "alice" 100] (by decide) (by decide)).1,
   by decide⟩

/-- C20 (the code at the failing input). On the launched token `t_active`,
where alice holds 100 units, `transfer("alice", "alice", 10)` returns true
(alice still holds 100 afterwards). -/
theorem self_transfer_returns_true :
    Fixture.t_active.isInitialized = true ∧ Fixture.t_active.isKeyBurned = false ∧
    Fixture.t_active.balanceOf "alice" = 100 ∧
    (Fixture.t_active.transfer "alice" "alice" 10).1 = .returned true ∧
    (Fixture.t_active.transfer "alice" "alice" 10).2.balanceOf "alice" = 100 := by
  decide

end RC2

namespace RC2

open qOracle

/-- C21. On an active (initialised, not burned) token, for all accounts A and
B, `transfer(A, B, 0)` returns false and leaves the token, hence `balanceOf` of
every account, as it was. -/
theorem transfer_zero_rejected (t : BankonPythaiToken) (A B : String)
    (hinit : t.isInitialized = true) (hnb : t.isKeyBurned = false) :
    t.transfer A B 0 = (.returned false, t) ∧
    ∀ X : String, (t.transfer A B 0).2.balanceOf X = t.balanceOf X := by
  simp only [LaunchProtect.isInitialized, LaunchProtect.isKeyBurned] at hinit hnb
  have h : t.transfer A B 0 = (.returned false, t) := by
    simp [BankonPythaiToken.transfer, LaunchProtect.requireActive, hinit, hnb]
  exact ⟨h, fun X => by rw [h]⟩

/-- Witness for C21: alice to bob, amount 0, on `t_active`. -/
theorem transfer_zero_rejected_witness :
    Fixture.t_active.transfer "alice" "bob" 0 = (.returned false, Fixture.t_active) :=
  (transfer_zero_rejected Fixture.t_active "alice" "bob" (by decide) (by decide)).1

/-- C22. On an active token `burn(A, x)` returns true iff 0 < x ≤ balance(A);
on success balance(A) drops by exactly x, every other balance is unchanged and
`totalSupply()` is the same genesis constant; otherwise the call returns false
and nothing changes. -/
theorem burn_iff_funded (t : BankonPythaiToken) (A : String) (x : Nat)
    (hinit : t.isInitialized = true) (hnb : t.isKeyBurned = false) :
    ((t.burn A x).1 = .returned true ↔ 0 < x ∧ x ≤ t.balanceOf A) ∧
    ((t.burn A x).1 = .returned true →
      (t.burn A x).2.balanceOf A = t.balanceOf A - x ∧
      (∀ B : String, B ≠ A → (t.burn A x).2.balanceOf B = t.balanceOf B) ∧
      (t.burn A x).2.totalSupply = t.totalSupply ∧
      (t.burn A x).2.totalSupply = qOracleConfig.BKPY_TOTAL_SUPPLY) ∧
    (¬ (t.burn A x).1 = .returned true → t.burn A x = (.returned false, t)) := by
  simp only [LaunchProtect.isInitialized, LaunchProtect.isKeyBurned] at hinit hnb
  have hact : t.requireActive A = .returned () := by
    simp [LaunchProtect.requireActive, hinit, hnb]
  simp only [BankonPythaiToken.balanceOf, BankonPythaiToken.totalSupply]
  by_cases h0 : x = 0
  · have hb : t.burn A x = (.returned false, t) := by
      simp [BankonPythaiToken.burn, hact, h0]
    rw [hb]
    simp [h0]
  · by_cases hlt : t.balances.get A < x
    · have hb : t.burn A x = (.returned false, t) := by
        simp [BankonPythaiToken.burn, hact, h0, hlt]
      rw [hb]
      simp
      omega
    · have hb : t.burn A x = (.returned true,
          { t with balances := t.balances.set A (t.balances.get A - x) }) := by
        simp [BankonPythaiToken.burn, hact, h0, hlt]
      rw [hb]
      refine ⟨⟨fun _ => ⟨by omega, by omega⟩, fun _ => rfl⟩, fun _ => ⟨?_, ?_, trivial, trivial⟩,
        fun hn => absurd rfl hn⟩
      · exact Ledger.get_set_same _ _ _
      · intro B hB
        exact Ledger.get_set_other _ A B _ (Ne.symm hB)

/-- Witness for C22: alice burns 30 of her 100 units; a burn of 101 fails. -/
theorem burn_iff_funded_witness :
    (Fixture.t_active.burn "alice" 30).1 = .returned true ∧
    (Fixture.t_active.burn "alice" 30).2.balanceOf "alice" = Fixture.t_active.balanceOf "alice" - 30 ∧
    Fixture.t_active.burn "alice" 101 = (.returned false, Fixture.t_active) :=
  ⟨by decide,
   ((burn_iff_funded Fixture.t_active "alice" 30 (by decide) (by decide)).2.1 (by decide)).1,
   (burn_iff_funded Fixture.t_active "alice" 101 (by decide) (by decide)).2.2 (by decide)⟩

/-- C23. After a successful `mint_initial_supply` on a token reached from its
constructor, for every later sequence of calls, the sum of all account
balances plus the amounts of the successful burns equals `totalSupply()`; the
accounts of the ledger are distinct, so that sum is the sum of `balanceOf`
over them; a transfer that succeeds debits no more than the sender holds and
its credit stays below 2^64, and a burn that succeeds debits no more than the
sender holds. -/
theorem bkpy_sum_tracks_burns (t0 : BankonPythaiToken) (admin : String)
    (calls : List BankonPythaiToken.Call) (hreach : t0.Reachable)
    (h : (t0.mint_initial_supply admin).1 = .returned true) :
    ((t0.mint_initial_supply admin).2.run calls).balances.sum
        + (t0.mint_initial_supply admin).2.burned_in calls
      = ((t0.mint_initial_supply admin).2.run calls).totalSupply ∧
    (((t0.mint_initial_supply admin).2.run calls).balances.map Prod.fst).Nodup ∧
    ((t0.mint_initial_supply admin).2.run calls).balances.sum
      = ((((t0.mint_initial_supply admin).2.run calls).balances.map Prod.fst).map
          ((t0.mint_initial_supply admin).2.run calls).balanceOf).sum ∧
    (∀ (A B : String) (x : Nat),
      (((t0.mint_initial_supply admin).2.run calls).transfer A B x).1 = .returned true →
        x ≤ ((t0.mint_initial_supply admin).2.run calls).balanceOf A ∧
        (Ledger.set ((t0.mint_initial_supply admin).2.run calls).balances A
          (((t0.mint_initial_supply admin).2.run calls).balanceOf A - x)).get B + x < U64) ∧
    (∀ (A : String) (x : Nat),
      (((t0.mint_initial_supply admin).2.run calls).burn A x).1 = .returned true →
        x ≤ ((t0.mint_initial_supply admin).2.run calls).balanceOf A) := by
  have hlt := BKPY_TOTAL_SUPPLY_lt_U64
  obtain ⟨hm0, hstate⟩ := t0.bkpy_mint_true_state admin h
  obtain ⟨deployer, pre, rfl⟩ := hreach
  have hinv := (BankonPythaiToken.new deployer).run_sum pre
    ⟨by simp [BankonPythaiToken.new, Ledger.sum],
     fun _ => by simp [BankonPythaiToken.new, Ledger.sum]⟩
  have hnd0 := (BankonPythaiToken.new deployer).bkpy_run_nodup pre
    (by simp [BankonPythaiToken.new])
  set t0 := (BankonPythaiToken.new deployer).run pre with ht0
  set t1 := (t0.mint_initial_supply admin).2 with ht1
  have hsum0 : t0.balances.sum = 0 := hinv.2 hm0
  have hm1 : t1.minted = true := by rw [hstate]
  have hsum1 : t1.balances.sum = qOracleConfig.BKPY_TOTAL_SUPPLY := by
    rw [hstate]
    have h1 := Ledger.sum_set t0.balances admin qOracleConfig.BKPY_TOTAL_SUPPLY
    have h2 := Ledger.get_le_sum t0.balances admin
    simp only []
    omega
  have hnd1 : (t1.balances.map Prod.fst).Nodup := by
    rw [hstate]
    exact Ledger.set_nodup _ _ _ hnd0
  have hrun := t1.run_sum_burned calls hm1 (by omega)
  have hnd := t1.bkpy_run_nodup calls hnd1
  have hle : (t1.run calls).balances.sum ≤ qOracleConfig.BKPY_TOTAL_SUPPLY := by omega
  refine ⟨?_, hnd, ?_, ?_, ?_⟩
  · simp only [BankonPythaiToken.totalSupply]
    omega
  · exact Ledger.sum_eq_sum_get _ hnd
  · intro A B x hx
    obtain ⟨_, hbal⟩ := (t1.run calls).bkpy_transfer_true A B x hx
    refine ⟨hbal, ?_⟩
    have h1 := Ledger.sum_set (t1.run calls).balances A ((t1.run calls).balances.get A - x)
    have h3 := Ledger.get_le_sum
      (Ledger.set (t1.run calls).balances A ((t1.run calls).balances.get A - x)) B
    simp only [BankonPythaiToken.balanceOf]
    omega
  · intro A x hx
    rcases (t1.run calls).bkpy_burn_cases A x with ⟨_, _, h3, _⟩ | ⟨h1, _⟩
    · exact h3
    · exact absurd hx h1

/-- Witness for C23: launch, 100 units to alice, a burn of 30, a failed burn of 500. -/
theorem bkpy_sum_tracks_burns_witness :
    ((BankonPythaiToken.new "admin").mint_initial_supply "admin").1 = .returned true ∧
    (((BankonPythaiToken.new "admin").mint_initial_supply "admin").2.run
        [.finalizeLaunch "admin", .transfer "admin" "alice" 100, .burn "alice" 30,
         .burn "alice" 500]).balances.sum
      + ((BankonPythaiToken.new "admin").mint_initial_supply "admin").2.burned_in
        [.finalizeLaunch "admin", .transfer "admin" "alice" 100, .burn "alice" 30,
         .burn "alice" 500]
      = (((BankonPythaiToken.new "admin").mint_initial_supply "admin").2.run
        [.finalizeLaunch "admin", .transfer "admin" "alice" 100, .burn "alice" 30,
         .burn "alice" 500]).totalSupply ∧
    ((BankonPythaiToken.new "admin").mint_initial_supply "admin").2.burned_in
        [.finalizeLaunch "admin", .transfer "admin" "alice" 100, .burn "alice" 30,
         .burn "alice" 500] = 30 :=
  ⟨by decide,
   (bkpy_sum_tracks_burns (BankonPythaiToken.new "admin") "admin"
      [.finalizeLaunch "admin", .transfer "admin" "alice" 100, .burn "alice" 30,
       .burn "alice" 500] ⟨"admin", [], rfl⟩ (by decide)).1,
   by decide⟩

/-- C24 (the code at the failing input). From construction the deployer mints
2^63, transfers 2^63 to bob and mints 2^63 again; all three calls return true.
The two balances sum to 2^64 while `totalSupply()` is 0. -/
theorem qbtc_supply_wraps_below_sum :
    ((QBTCSynthetic.new "admin").mint Fixture.c2 "admin" 9223372036854775808
      Fixture.upd_unsigned).1 = .returned true ∧
    (((QBTCSynthetic.new "admin").run
        [.mint Fixture.c2 "admin" 9223372036854775808 Fixture.upd_unsigned]).transfer
      "admin" "bob" 9223372036854775808).1 = .returned true ∧
    (((QBTCSynthetic.new "admin").run
        [.mint Fixture.c2 "admin" 9223372036854775808 Fixture.upd_unsigned,
         .transfer "admin" "bob" 9223372036854775808]).mint Fixture.c2 "admin"
      9223372036854775808 Fixture.upd_unsigned).1 = .returned true ∧
    Fixture.q_wrapped.balanceOf "admin" = 9223372036854775808 ∧
    Fixture.q_wrapped.balanceOf "bob" = 9223372036854775808 ∧
    Fixture.q_wrapped.balances.map Prod.fst = ["admin", "bob"] ∧
    Fixture.q_wrapped.balances.sum = 18446744073709551616 ∧
    Fixture.q_wrapped.totalSupply = 0 ∧
    Fixture.q_wrapped.balances.sum ≠ Fixture.q_wrapped.totalSupply := by
  decide

/-- C25 (the code at the failing input). From construction, one mint of
2_100_000_000_000_001 satoshis returns true and `totalSupply()` is above
`QBTC_TOTAL_SUPPLY`. -/
theorem qbtc_mint_exceeds_cap :
    (QBTCSynthetic.new "admin").totalSupply = 0 ∧
    ((QBTCSynthetic.new "admin").mint Fixture.c2 "admin" 2100000000000001
      Fixture.upd_unsigned).1 = .returned true ∧
    Fixture.q_over_cap.totalSupply = 2100000000000001 ∧
    qOracleConfig.QBTC_TOTAL_SUPPLY = 2100000000000000 ∧
    ¬ Fixture.q_over_cap.totalSupply ≤ qOracleConfig.QBTC_TOTAL_SUPPLY := by
  decide

/-- C26. On an active qUSD ledger, for a sender other than `bridge_authority`,
`mint` and `burn` return false and leave the whole ledger as it was, for all
targets and amounts; a transfer of 0 < amount ≤ balance(sender) by that sender
returns true, and the result of a transfer does not depend on who the
authority is. -/
theorem qusd_mint_burn_need_authority (q : QUSDStablecoin) (sender : String)
    (hinit : q.isInitialized = true) (hnb : q.isKeyBurned = false)
    (hs : sender ≠ q.bridge_authority) :
    (∀ (to_addr : String) (amount : Nat), q.mint sender to_addr amount = (.returned false, q)) ∧
    (∀ (from_addr : String) (amount : Nat),
      q.burn sender from_addr amount = (.returned false, q)) ∧
    (∀ (to_addr : String) (amount : Nat), 0 < amount → amount ≤ q.balanceOf sender →
      (q.transfer sender to_addr amount).1 = .returned true) ∧
    (∀ (authority to_addr : String) (amount : Nat),
      (({ q with bridge_authority := authority } : QUSDStablecoin).transfer sender to_addr amount).1
        = (q.transfer sender to_addr amount).1 ∧
      (({ q with bridge_authority := authority } : QUSDStablecoin).transfer sender to_addr
        amount).2.balances = (q.transfer sender to_addr amount).2.balances) := by
  simp only [LaunchProtect.isInitialized, LaunchProtect.isKeyBurned] at hinit hnb
  have hact : q.requireActive sender = .returned () := by
    simp [LaunchProtect.requireActive, hinit, hnb]
  refine ⟨?_, ?_, ?_, ?_⟩
  · intro to_addr amount
    simp [QUSDStablecoin.mint, hact, hs]
  · intro from_addr amount
    simp [QUSDStablecoin.burn, hact, hs]
  · intro to_addr amount h0 hbal
    simp only [QUSDStablecoin.balanceOf] at hbal
    have h0' : ¬ amount = 0 := by omega
    have hlt : ¬ q.balances.get sender < amount := by omega
    simp [QUSDStablecoin.transfer, hact, h0', hlt]
  · intro authority to_addr amount
    unfold QUSDStablecoin.transfer
    simp only [hact]
    split_ifs <;> exact ⟨rfl, rfl⟩

/-- Witness for C26: alice, who is not the authority, on the ledger `s1`. -/
theorem qusd_mint_burn_need_authority_witness :
    Fixture.s1.mint "alice" "alice" 5 = (.returned false, Fixture.s1) ∧
    Fixture.s1.burn "alice" "alice" 5 = (.returned false, Fixture.s1) ∧
    (Fixture.s1.transfer "alice" "bob" 5).1 = .returned true :=
  ⟨(qusd_mint_burn_need_authority Fixture.s1 "alice" (by decide) (by decide) (by decide)).1
      "alice" 5,
   (qusd_mint_burn_need_authority Fixture.s1 "alice" (by decide) (by decide) (by decide)).2.1
      "alice" 5,
   (qusd_mint_burn_need_authority Fixture.s1 "alice" (by decide) (by decide) (by decide)).2.2.1
      "bob" 5 (by decide) (by decide)⟩

/-- C27 (counterexample). On the active ledger `q1`, with the unpaused
committee `c2` whose current timestamp is 1_700_000_000, an update stamped
1_700_001_000, which is 1000 s away, passes the freshness check: the mint
returns true. With the fresh committee `c0`, whose current timestamp is 0, an
update stamped 100, which is within 300 s, is refused. -/
theorem mint_admits_future_update :
    Fixture.q1.isInitialized = true ∧ Fixture.q1.isKeyBurned = false ∧
    Fixture.c2.is_emergency_paused = false ∧
    Fixture.c2.get_current_price.timestamp = 1700000000 ∧
    Fixture.upd_future.message.timestamp = 1700001000 ∧
    ¬ |((1700001000 : Nat) : Int) - ((1700000000 : Nat) : Int)| ≤ 300 ∧
    (Fixture.q1.mint Fixture.c2 "alice" 5 Fixture.upd_future).1 = .returned true ∧
    Fixture.c0.is_emergency_paused = false ∧
    Fixture.c0.get_current_price.timestamp = 0 ∧
    Fixture.upd_early.message.timestamp = 100 ∧
    |((100 : Nat) : Int) - ((0 : Nat) : Int)| ≤ 300 ∧
    (Fixture.q1.mint Fixture.c0 "alice" 5 Fixture.upd_early).1 = .returned false := by
  refine ⟨by decide, by decide, by decide, by decide, by decide, by norm_num, by decide,
    by decide, by decide, by decide, by norm_num, by decide⟩

/-- C27 (amended). With the ledger active, the committee not paused,
amount > 0 and a current accepted timestamp of at least 300, the freshness
check of `mint` is a one-sided age test: `mint` returns true iff the update is
at most 300 s OLDER than the current accepted timestamp (current − update ≤ 300
over the integers, so every newer update passes); otherwise it returns false
and changes nothing. -/
theorem mint_freshness_is_an_age_test (q : QBTCSynthetic) (oracle : QOracleCommittee)
    (user : String) (n : Nat) (u : PriceUpdate)
    (hinit : q.isInitialized = true) (hnb : q.isKeyBurned = false)
    (hp : oracle.is_emergency_paused = false) (hn : 0 < n)
    (hcur : 300 ≤ oracle.get_current_price.timestamp)
    (hu64 : oracle.get_current_price.timestamp < U64) :
    ((q.mint oracle user n u).1 = .returned true ↔
      (oracle.get_current_price.timestamp : Int) - (u.message.timestamp : Int) ≤ 300) ∧
    (¬ (q.mint oracle user n u).1 = .returned true →
      q.mint oracle user n u = (.returned false, q)) := by
  simp only [LaunchProtect.isInitialized, LaunchProtect.isKeyBurned,
    QOracleCommittee.is_emergency_paused, QOracleCommittee.get_current_price] at *
  obtain ⟨h1, h2⟩ := q.qbtc_mint_true_iff oracle user n u hinit hnb hp hn
  refine ⟨?_, h2⟩
  rw [h1]
  have hmod : (oracle.last_price.timestamp + U64 - qOracleConfig.PRICE_UPDATE_TIMEOUT) % U64
      = oracle.last_price.timestamp - 300 := by
    unfold qOracleConfig.PRICE_UPDATE_TIMEOUT
    have : oracle.last_price.timestamp + U64 - 300
        = (oracle.last_price.timestamp - 300) + U64 := by
      unfold U64 at *
      omega
    rw [this, Nat.add_mod_right, Nat.mod_eq_of_lt (by omega)]
  rw [hmod]
  omega

/-- Witness for C27 (amended): against the committee `c2`, whose current
timestamp is 1_700_000_000, an update 100_000_000 s older is refused and
changes nothing. -/
theorem mint_freshness_is_an_age_test_witness :
    ((Fixture.q1.mint Fixture.c2 "alice" 5 Fixture.upd_stale).1 = .returned true ↔
      (Fixture.c2.get_current_price.timestamp : Int)
        - (Fixture.upd_stale.message.timestamp : Int) ≤ 300) ∧
    Fixture.q1.mint Fixture.c2 "alice" 5 Fixture.upd_stale = (.returned false, Fixture.q1) :=
  ⟨(mint_freshness_is_an_age_test Fixture.q1 Fixture.c2 "alice" 5 Fixture.upd_stale
      (by decide) (by decide) (by decide) (by decide) (by decide) (by decide)).1,
   (mint_freshness_is_an_age_test Fixture.q1 Fixture.c2 "alice" 5 Fixture.upd_stale
      (by decide) (by decide) (by decide) (by decide) (by decide) (by decide)).2 (by decide)⟩

/-- C28 (the code at the failing input). At price p = 10^15 (1.0) the swap of
a = 20000 returns true and credits 1553 qBTC, while floor(a * p / 10^15) is
20000: the product 2 * 10^19 does not fit 64 bits. Likewise the swap of
a = 2000 at p = 10^17 credits 15532 instead of 200000. -/
theorem swap_output_wraps :
    (20000 : Nat) < U64 ∧ Fixture.upd_unit.message.price = 1000000000000000 ∧
    Fixture.q1.balanceOf "alice" = 0 ∧
    (Fixture.b1.swap_stx_for_qbtc Fixture.c2 Fixture.q1 1700000100 "alice" 20000
      Fixture.upd_unit).1 = .returned true ∧
    (Fixture.b1.swap_stx_for_qbtc Fixture.c2 Fixture.q1 1700000100 "alice" 20000
      Fixture.upd_unit).2.2.balanceOf "alice" = 1553 ∧
    20000 * Fixture.upd_unit.message.price / 1000000000000000 = 20000 ∧
    (2000 : Nat) < U64 ∧ Fixture.upd_high.message.price < U64 ∧
    (Fixture.b1.swap_stx_for_qbtc Fixture.c2 Fixture.q1 1700000100 "alice" 2000
      Fixture.upd_high).1 = .returned true ∧
    (Fixture.b1.swap_stx_for_qbtc Fixture.c2 Fixture.q1 1700000100 "alice" 2000
      Fixture.upd_high).2.2.balanceOf "alice" = 15532 ∧
    2000 * Fixture.upd_high.message.price / 1000000000000000 = 200000 := by
  decide

/-- C29 (the code at the failing input). With price 1 the output of
`swap_qbtc_for_stx("alice", 1000, u)` is (1000 * 1) / 10^15 = 0, yet the swap
returns true: 1000 of alice's 5000 qBTC are burned and her bridge balance
stays 0. -/
theorem zero_output_swap_succeeds :
    (1000 * Fixture.upd_low.message.price) % U64 / qOracleConfig.QUSD_DECIMAL_MULTIPLIER = 0 ∧
    Fixture.q_alice.balanceOf "alice" = 5000 ∧
    (Fixture.b1.swap_qbtc_for_stx Fixture.c2 Fixture.q_alice 1700000100 "alice" 1000
      Fixture.upd_low).1 = .returned true ∧
    (Fixture.b1.swap_qbtc_for_stx Fixture.c2 Fixture.q_alice 1700000100 "alice" 1000
      Fixture.upd_low).2.2.balanceOf "alice" = 4000 ∧
    (Fixture.b1.swap_qbtc_for_stx Fixture.c2 Fixture.q_alice 1700000100 "alice" 1000
      Fixture.upd_low).2.1.getBridgeBalance "alice" = 0 := by
  decide

/-- C30 (the code at the failing input). On the bridge `b_used` (alice's
bridge balance 2000, daily volume 2000, volume counter reset at this clock
value) a `swap_stx_for_qbtc("alice", 2000, u)` with a stale update returns
false because the inner mint returns false, yet alice's bridge balance and the
daily volume are 4000 afterwards; the qBTC ledger is unchanged. -/
theorem failed_swap_keeps_bridge_credit :
    Fixture.b_used.getBridgeBalance "alice" = 2000 ∧ Fixture.b_used.getDailyVolume = 2000 ∧
    Fixture.b_used.last_volume_reset = 1700000100 ∧
    (Fixture.q_used.mint Fixture.c2 "alice" 2000 Fixture.upd_stale).1 = .returned false ∧
    (Fixture.b_used.swap_stx_for_qbtc Fixture.c2 Fixture.q_used 1700000100 "alice" 2000
      Fixture.upd_stale).1 = .returned false ∧
    (Fixture.b_used.swap_stx_for_qbtc Fixture.c2 Fixture.q_used 1700000100 "alice" 2000
      Fixture.upd_stale).2.1.getBridgeBalance "alice" = 4000 ∧
    (Fixture.b_used.swap_stx_for_qbtc Fixture.c2 Fixture.q_used 1700000100 "alice" 2000
      Fixture.upd_stale).2.1.getDailyVolume = 4000 ∧
    (Fixture.b_used.swap_stx_for_qbtc Fixture.c2 Fixture.q_used 1700000100 "alice" 2000
      Fixture.upd_stale).2.2 = Fixture.q_used := by
  decide

end RC2

namespace RC2

open qOracle

/-- C31. From the constructor of the bridge, after every sequence of
`swap_stx_for_qbtc`, `swap_qbtc_for_stx` and `reset_daily_volume_if_needed`
calls (lifecycle calls included), whatever the amounts, prices, clock values
and the committee and qBTC ledger found by each call, `getDailyVolume()` is at
most `MAX_DAILY_VOLUME` = 10^15. -/
theorem daily_volume_within_limit (deployer : String) (calls : List CrossChainBridge.Call) :
    ((CrossChainBridge.new deployer).run calls).getDailyVolume
      ≤ qOracleConfig.MAX_DAILY_VOLUME ∧
    qOracleConfig.MAX_DAILY_VOLUME = 10 ^ 15 := by
  refine ⟨?_, by decide⟩
  exact CrossChainBridge.run_volume_le calls (CrossChainBridge.new deployer) (Nat.zero_le _)

/-- C32 (the code at the failing input). On the bridge `b_used` the volume
counter is 2000 and no reset is due at clock 1_700_000_100. A
`swap_stx_for_qbtc` of a = 2^64 − 1000 makes 2000 + a exceed 10^15 over the
integers, yet it returns true: the 64-bit sum is 1000, which is the counter
afterwards, and the counter was not reset. The STX amounts of the two
successful swaps since the last reset sum to 2^64 + 1000. -/
theorem volume_test_wraps :
    Fixture.b_used.getDailyVolume = 2000 ∧
    Fixture.b_used.reset_daily_volume_if_needed 1700000100 = Fixture.b_used ∧
    (18446744073709550616 : Nat) < U64 ∧
    Fixture.b_used.getDailyVolume + 18446744073709550616 > 10 ^ 15 ∧
    (Fixture.b_used.swap_stx_for_qbtc Fixture.c2 Fixture.q_used 1700000100 "alice"
      18446744073709550616 Fixture.upd_unit).1 = .returned true ∧
    (Fixture.b_used.swap_stx_for_qbtc Fixture.c2 Fixture.q_used 1700000100 "alice"
      18446744073709550616 Fixture.upd_unit).2.1.getDailyVolume = 1000 ∧
    (Fixture.b_used.swap_stx_for_qbtc Fixture.c2 Fixture.q_used 1700000100 "alice"
      18446744073709550616 Fixture.upd_unit).2.1.last_volume_reset
        = Fixture.b_used.last_volume_reset ∧
    ([CrossChainBridge.Call.swap_stx_for_qbtc Fixture.c2 Fixture.q1 1700000100 "alice" 2000
        Fixture.upd_unit,
      CrossChainBridge.Call.swap_stx_for_qbtc Fixture.c2 Fixture.q_used 1700000100 "alice"
        18446744073709550616 Fixture.upd_unit].foldl CrossChainBridge.track (Fixture.b1, 0)).2
      = 18446744073709552616 := by
  decide

/-- C33. In every state reached from the constructor, `execute(id)` at clock
`now` turns the executed flag of proposal `id` from false to true iff the
proposal exists, is not executed, has at least `threshold` signatures and
`now` is at least the 64-bit sum created_time + execution_delay; it then
changes nothing but that flag, and in every other case it changes nothing. The
delay of every stored proposal is 86_400, and for created_time + 86_400 < 2^64
the sum is the integer sum. An executed proposal is not executed again, and an
execute at created_time + 3600 changes nothing. -/
theorem execute_marks_iff (g : QnosisMultisig) (now id : Nat) (hreach : g.Reachable) :
    ((g.isExecuted id = false ∧ (g.execute now id).2.isExecuted id = true) ↔
      ∃ p, proposals_find g.proposals id = some p ∧ p.executed = false ∧
        g.getThreshold ≤ p.signatures.length ∧
        (p.created_time + p.execution_delay) % U64 ≤ now) ∧
    (∀ p, proposals_find g.proposals id = some p → p.executed = false →
      g.getThreshold ≤ p.signatures.length →
      (p.created_time + p.execution_delay) % U64 ≤ now →
      g.execute now id
        = (.returned (),
            { g with proposals := proposals_put g.proposals id { p with executed := true } })) ∧
    (¬ (∃ p, proposals_find g.proposals id = some p ∧ p.executed = false ∧
        g.getThreshold ≤ p.signatures.length ∧
        (p.created_time + p.execution_delay) % U64 ≤ now) →
      g.execute now id = (.returned (), g)) ∧
    (∀ p, proposals_find g.proposals id = some p →
      p.execution_delay = 86400 ∧
      (p.created_time + 86400 < U64 →
        ((p.created_time + p.execution_delay) % U64 ≤ now ↔ p.created_time + 86400 ≤ now))) ∧
    (∀ later : Nat,
      (g.execute now id).2.isExecuted id = true →
      (g.execute now id).2.execute later id = (.returned (), (g.execute now id).2)) ∧
    (∀ p, proposals_find g.proposals id = some p → p.created_time + 86400 < U64 →
      g.execute (p.created_time + 3600) id = (.returned (), g)) := by
  have hsound : g.Sound := by
    obtain ⟨deployer, owners, thresh, calls, rfl⟩ := hreach
    apply QnosisMultisig.run_sound
    intro k p hf
    simp [QnosisMultisig.new, proposals_find] at hf
  have hsucc : ∀ t p, proposals_find g.proposals id = some p → p.executed = false →
      g.getThreshold ≤ p.signatures.length →
      (p.created_time + p.execution_delay) % U64 ≤ t →
      g.execute t id
        = (.returned (),
            { g with proposals := proposals_put g.proposals id { p with executed := true } }) := by
    intro t p hf he ht hd
    unfold QnosisMultisig.getThreshold at ht
    unfold QnosisMultisig.execute
    rw [hf]
    simp only [he, Bool.false_eq_true, if_false]
    rw [if_neg (by omega), if_neg (by omega)]
  have hfail : ∀ t, ¬ (∃ p, proposals_find g.proposals id = some p ∧ p.executed = false ∧
        g.getThreshold ≤ p.signatures.length ∧
        (p.created_time + p.execution_delay) % U64 ≤ t) →
      g.execute t id = (.returned (), g) := by
    intro t hno
    unfold QnosisMultisig.execute
    cases hf : proposals_find g.proposals id with
    | none => rfl
    | some p =>
      simp only []
      by_cases he : p.executed = true
      · rw [if_pos he]
      · rw [if_neg he]
        by_cases ht : p.signatures.length < g.threshold
        · rw [if_pos ht]
        · rw [if_neg ht]
          by_cases hd : t < (p.created_time + p.execution_delay) % U64
          · rw [if_pos hd]
          · exfalso
            apply hno
            refine ⟨p, hf, by simpa using he, ?_, by omega⟩
            unfold QnosisMultisig.getThreshold
            omega
  refine ⟨?_, hsucc now, hfail now, ?_, ?_, ?_⟩
  · constructor
    · rintro ⟨h1, h2⟩
      by_contra hno
      rw [hfail now hno] at h2
      simp only [] at h2
      rw [h1] at h2
      exact Bool.false_ne_true h2
    · rintro ⟨p, hf, he, ht, hd⟩
      constructor
      · unfold QnosisMultisig.isExecuted
        rw [hf]
        exact he
      · rw [hsucc now p hf he ht hd]
        unfold QnosisMultisig.isExecuted
        simp only [proposals_find_put, if_true]
  · intro p hf
    refine ⟨(hsound id p hf).2, ?_⟩
    intro hlt
    rw [(hsound id p hf).2, Nat.mod_eq_of_lt hlt]
  · intro later h
    exact QnosisMultisig.execute_of_executed _ later id h
  · intro p hf hlt
    apply hfail
    rintro ⟨p', hf', _, _, hd⟩
    rw [hf] at hf'
    cases hf'
    rw [(hsound id p hf).2, Nat.mod_eq_of_lt hlt] at hd
    omega

/-- Witness for C33: on `g_signed` (proposal 1 created at 1000, three
signatures, threshold 3) an execute at 4600 changes nothing, an execute at
87_400 sets the flag, and a second execute changes nothing. -/
theorem execute_marks_iff_witness :
    Fixture.g_signed.execute 4600 1 = (.returned (), Fixture.g_signed) ∧
    (Fixture.g_signed.execute 87400 1).2.isExecuted 1 = true ∧
    (Fixture.g_signed.execute 87400 1).2.execute 87401 1
      = (.returned (), (Fixture.g_signed.execute 87400 1).2) :=
  ⟨(execute_marks_iff Fixture.g_signed 87400 1
      ⟨"admin", ["admin", "o1", "o2"], 3,
        [.finalizeLaunch "admin", .propose 1000 "admin" "target" 0 "" "generic" "",
         .sign 1 "admin", .sign 1 "o1", .sign 1 "o2"], by decide⟩).2.2.2.2.2
      ⟨"target", 0, "", 1, false, ["admin", "o1", "o2"], "generic", "", 1000, 86400⟩
      (by decide) (by decide),
   by decide,
   (execute_marks_iff Fixture.g_signed 87400 1
      ⟨"admin", ["admin", "o1", "o2"], 3,
        [.finalizeLaunch "admin", .propose 1000 "admin" "target" 0 "" "generic" "",
         .sign 1 "admin", .sign 1 "o1", .sign 1 "o2"], by decide⟩).2.2.2.2.1 87401 (by decide)⟩

/-- C34 (the code at the failing input). With owners admin, o1, o2, o3 and
threshold 3, the `change_threshold` proposal with parameter "4", signed by
three owners and executed at created_time + 86_400, is marked executed while
`getThreshold()` is still 3. No `execute` ever changes the threshold or the
owners. -/
theorem execute_ignores_change_threshold :
    Fixture.g_four.getOwners = ["admin", "o1", "o2", "o3"] ∧
    Fixture.g_four.getThreshold = 3 ∧
    proposals_find Fixture.g_four.proposals 1
      = some ⟨"target", 0, "", 1, false, ["admin", "o1", "o2"], "change_threshold", "4",
          1000, 86400⟩ ∧
    (Fixture.g_four.execute 87400 1).2.isExecuted 1 = true ∧
    (Fixture.g_four.execute 87400 1).2.getThreshold = 3 ∧
    (∀ (g : QnosisMultisig) (now id : Nat),
      (g.execute now id).2.getThreshold = g.getThreshold ∧
      (g.execute now id).2.getOwners = g.getOwners) := by
  refine ⟨by decide, by decide, by decide, by decide, by decide, ?_⟩
  intro g now id
  exact ⟨(g.step_owners (.execute now id)).2, (g.step_owners (.execute now id)).1⟩

end RC2

namespace RC1

end RC1

namespace RC2

open qOracle

end RC2

namespace RC1

/-- C37. From the constructor of the RC1 committee, for every verifier and
every sequence of calls with arbitrary updates and clock values: the
timestamps of the accepted updates increase strictly, the timestamps of
`price_history` increase strictly, the history is a suffix of the accepted
updates, the current price is the last accepted update and its timestamp is
above that of every earlier accepted update, and a further update that is
accepted has a timestamp above all of them. -/
theorem accepted_timestamps_increase (dilithium_verify : Bytes → Bytes → Bytes → Bool)
    (admin : String) (oracles : Fin 7 → Bytes) (calls : List QOracleCommittee.Call) :
    ((QOracleCommittee.accepted dilithium_verify (QOracleCommittee.new admin oracles)
      calls).map PriceMessage.timestamp).Pairwise (· < ·) ∧
    ((((QOracleCommittee.new admin oracles).run dilithium_verify
      calls).get_price_history).map PriceMessage.timestamp).Pairwise (· < ·) ∧
    ((QOracleCommittee.new admin oracles).run dilithium_verify calls).get_price_history
      <:+ QOracleCommittee.accepted dilithium_verify (QOracleCommittee.new admin oracles) calls ∧
    (QOracleCommittee.accepted dilithium_verify (QOracleCommittee.new admin oracles) calls ≠ [] →
      (QOracleCommittee.accepted dilithium_verify (QOracleCommittee.new admin oracles)
        calls).getLast?
        = some ((QOracleCommittee.new admin oracles).run dilithium_verify
            calls).get_current_price) ∧
    (∀ m ∈ (QOracleCommittee.accepted dilithium_verify (QOracleCommittee.new admin oracles)
        calls).dropLast,
      m.timestamp < ((QOracleCommittee.new admin oracles).run dilithium_verify
        calls).get_current_price.timestamp) ∧
    (∀ (now : Nat) (u : PriceUpdate),
      (((QOracleCommittee.new admin oracles).run dilithium_verify calls).submit_price_update
        dilithium_verify now u).1 = .returned true →
      ∀ m ∈ QOracleCommittee.accepted dilithium_verify (QOracleCommittee.new admin oracles)
          calls,
        m.timestamp < u.message.timestamp) := by
  obtain ⟨a1, _, a3, a4⟩ := QOracleCommittee.accepted_increasing dilithium_verify calls
    (QOracleCommittee.new admin oracles)
  obtain ⟨⟨b1, _⟩, b3⟩ := QOracleCommittee.run_history_sorted dilithium_verify calls
    (QOracleCommittee.new admin oracles)
    ⟨by simp [QOracleCommittee.new], by simp [QOracleCommittee.new]⟩
  have hnil : (QOracleCommittee.new admin oracles).price_history = [] := rfl
  rw [hnil, List.nil_append] at b3
  simp only [QOracleCommittee.get_price_history, QOracleCommittee.get_current_price]
  generalize QOracleCommittee.accepted dilithium_verify (QOracleCommittee.new admin oracles)
    calls = acc at a1 a3 a4 b3 ⊢
  generalize (QOracleCommittee.new admin oracles).run dilithium_verify calls = c at a3 a4 b1 b3 ⊢
  have hdrop : ∀ m ∈ acc.dropLast, m.timestamp < c.last_price.timestamp := by
    intro m hm
    rcases List.eq_nil_or_concat acc with h | ⟨L, b, h⟩
    · rw [h] at hm; simp at hm
    · subst h
      have hlast := a4 (by simp)
      have hb : (L.concat b).getLast? = some b := by simp
      rw [hb, Option.some.injEq] at hlast
      rw [List.concat_eq_append, List.dropLast_concat] at hm
      rw [List.concat_eq_append, List.map_append, List.pairwise_append] at a1
      rw [← hlast]
      exact a1.2.2 m.timestamp (List.mem_map_of_mem _ hm) b.timestamp (by simp)
  refine ⟨a1, b1, b3, a4, hdrop, ?_⟩
  intro now u htrue m hm
  obtain ⟨_, hlt, _⟩ := c.submit_true dilithium_verify now u htrue
  rcases List.eq_nil_or_concat acc with h | ⟨L, b, h⟩
  · rw [h] at hm; simp at hm
  · have hlast := a4 (by rw [h]; simp)
    rw [h] at hm hlast hdrop
    have hb : (L.concat b).getLast? = some b := by simp
    rw [hb, Option.some.injEq] at hlast
    rw [List.concat_eq_append] at hm
    rw [List.concat_eq_append, List.dropLast_concat] at hdrop
    rcases List.mem_append.1 hm with hm | hm
    · exact Nat.lt_trans (hdrop m hm) hlt
    · simp only [List.mem_singleton] at hm
      rw [hm, hlast]
      exact hlt

end RC1

namespace RC2

open qOracle

/-- C38 (the code at the failing input). Two threads enter
`swap_stx_for_qbtc` with 6 * 10^14 STX each on a bridge whose counter is 0.
When both pass the volume test before either takes `bridge_mutex`, both swaps
return true and `getDailyVolume()` is 1.2 * 10^15, above `MAX_DAILY_VOLUME`.
When the first thread finishes before the second starts, the second swap
returns false and the counter is 6 * 10^14. -/
theorem concurrent_swaps_exceed_volume :
    Fixture.sys0.shared.bridge.getDailyVolume = 0 ∧
    Fixture.sys0.shared.mutex_held = false ∧
    Fixture.sys0.first.pc = .entry ∧ Fixture.sys0.second.pc = .entry ∧
    Fixture.sys0.first.stx_amount = 600000000000000 ∧
    Fixture.sys0.second.stx_amount = 600000000000000 ∧
    (Fixture.sys0.interleave Fixture.c2 Fixture.picks_race).first.pc = .done (.returned true) ∧
    (Fixture.sys0.interleave Fixture.c2 Fixture.picks_race).second.pc = .done (.returned true) ∧
    (Fixture.sys0.interleave Fixture.c2 Fixture.picks_race).shared.bridge.getDailyVolume
      = 1200000000000000 ∧
    ¬ (Fixture.sys0.interleave Fixture.c2 Fixture.picks_race).shared.bridge.getDailyVolume
      ≤ qOracleConfig.MAX_DAILY_VOLUME ∧
    (Fixture.sys0.interleave Fixture.c2 Fixture.picks_serial).first.pc = .done (.returned true) ∧
    (Fixture.sys0.interleave Fixture.c2 Fixture.picks_serial).second.pc
      = .done (.returned false) ∧
    (Fixture.sys0.interleave Fixture.c2 Fixture.picks_serial).shared.bridge.getDailyVolume
      = 600000000000000 := by
  decide

/-- C39. With the default validator, for every new price that passes
`validate_price_bounds` and every previous price of at most 10^17, the product
|new − old| * 100 is below 2^64 and `validate_price_deviation` is the integer
test; and in every state reached from the constructor of the committee the
validator is the default one and `last_price.price` is 0 or within [1, 10^17],
so the product formed for an update that passed the bounds test never wraps. -/
theorem deviation_product_never_wraps (env : Crypto) (c : QOracleCommittee)
    (hreach : c.Reachable env) :
    (∀ new_price old_price : Nat,
      ({} : PriceValidator).validate_price_bounds new_price = true →
      old_price ≤ 100000000000000000 →
      (if new_price > old_price then new_price - old_price else old_price - new_price) * 100
        < U64 ∧
      (({} : PriceValidator).validate_price_deviation new_price old_price = true ↔
        old_price = 0 ∨
        (if new_price > old_price then new_price - old_price else old_price - new_price) * 100
          / old_price ≤ 50)) ∧
    c.validator = {} ∧
    (c.last_price.price = 0 ∨
      (1 ≤ c.last_price.price ∧ c.last_price.price ≤ 100000000000000000)) ∧
    (∀ u : PriceUpdate, c.validator.validate_price_bounds u.message.price = true →
      (if u.message.price > c.last_price.price then u.message.price - c.last_price.price
        else c.last_price.price - u.message.price) * 100 < U64) := by
  have hgen : ∀ new_price old_price : Nat,
      ({} : PriceValidator).validate_price_bounds new_price = true →
      old_price ≤ 100000000000000000 →
      (if new_price > old_price then new_price - old_price else old_price - new_price) * 100
        < U64 ∧
      (({} : PriceValidator).validate_price_deviation new_price old_price = true ↔
        old_price = 0 ∨
        (if new_price > old_price then new_price - old_price else old_price - new_price) * 100
          / old_price ≤ 50) := by
    intro new_price old_price hb hold
    simp only [PriceValidator.validate_price_bounds, Bool.and_eq_true, decide_eq_true_eq] at hb
    have hU : U64 = 18446744073709551616 := rfl
    have hlt : (if new_price > old_price then new_price - old_price
        else old_price - new_price) * 100 < U64 := by
      split_ifs <;> omega
    refine ⟨hlt, ?_⟩
    unfold PriceValidator.validate_price_deviation
    by_cases h0 : old_price = 0
    · simp [h0]
    · rw [if_neg h0]
      simp only [h0, false_or, decide_eq_true_eq]
      by_cases hgt : new_price > old_price
      · rw [if_pos hgt] at hlt ⊢
        rw [if_pos hgt, Nat.mod_eq_of_lt hlt]
      · rw [if_neg hgt] at hlt ⊢
        rw [if_neg hgt, Nat.mod_eq_of_lt hlt]
  have hinv : c.validator = {} ∧ (c.last_price.price = 0 ∨
      (1 ≤ c.last_price.price ∧ c.last_price.price ≤ 100000000000000000)) := by
    obtain ⟨admin, keys, addrs, calls, rfl⟩ := hreach
    exact QOracleCommittee.run_price_bounds env calls _ ⟨rfl, Or.inl rfl⟩
  refine ⟨hgen, hinv.1, hinv.2, ?_⟩
  intro u hb
  rw [hinv.1] at hb
  exact (hgen u.message.price c.last_price.price hb (by rcases hinv.2 with h | h <;> omega)).1

/-- Witness for C39: the committee `c2`, which holds the price 50_000_000. -/
theorem deviation_product_never_wraps_witness :
    Fixture.c2.validator = {} ∧
    (Fixture.c2.last_price.price = 0 ∨
      (1 ≤ Fixture.c2.last_price.price ∧ Fixture.c2.last_price.price ≤ 100000000000000000)) ∧
    Fixture.c2.last_price.price = 50000000 :=
  ⟨(deviation_product_never_wraps Fixture.stub Fixture.c2
      ⟨"admin", Fixture.keys, Fixture.addrs,
        [.finalizeLaunch "admin", .submit_price_update 1700000000 Fixture.upd1], rfl⟩).2.1,
   (deviation_product_never_wraps Fixture.stub Fixture.c2
      ⟨"admin", Fixture.keys, Fixture.addrs,
        [.finalizeLaunch "admin", .submit_price_update 1700000000 Fixture.upd1], rfl⟩).2.2.1,
   by decide⟩

end RC2

namespace RC1

/-- C40 (the code at the failing input). On launched RC1 components, with an
update signed by four oracles, `swap_stx_for_qbtc("alice", 2000, u)` returns
true and raises alice's bridge balance from 0 to 2000, while her qBTC balance
and the qBTC supply stay 0: the inner `mint` of 200_000_000_000 returns false,
because it submits the update that the bridge has just had accepted. The same
mint against the committee before the swap returns true. No successful
`swap_stx_for_qbtc` changes the qBTC ledger. -/
theorem swap_returns_true_without_mint :
    Fixture.q1.balanceOf "alice" = 0 ∧ Fixture.q1.totalSupply = 0 ∧
    Fixture.b1.getBridgeBalance "alice" = 0 ∧
    (Fixture.b1.swap_stx_for_qbtc Fixture.stub Fixture.c1 Fixture.q1 1700000000 1700000000
      "alice" 2000 Fixture.upd1).1 = .returned true ∧
    (2000 * (50000 * 100000000 % U64)) % U64 / 50000 = 200000000000 ∧
    (Fixture.b1.swap_stx_for_qbtc Fixture.stub Fixture.c1 Fixture.q1 1700000000 1700000000
      "alice" 2000 Fixture.upd1).2.1.getBridgeBalance "alice" = 2000 ∧
    (Fixture.b1.swap_stx_for_qbtc Fixture.stub Fixture.c1 Fixture.q1 1700000000 1700000000
      "alice" 2000 Fixture.upd1).2.2.1.balanceOf "alice" = 0 ∧
    (Fixture.b1.swap_stx_for_qbtc Fixture.stub Fixture.c1 Fixture.q1 1700000000 1700000000
      "alice" 2000 Fixture.upd1).2.2.1.totalSupply = 0 ∧
    (Fixture.q1.mint Fixture.stub
      (Fixture.c1.submit_price_update Fixture.stub 1700000000 Fixture.upd1).2 1700000000
      "alice" 200000000000 Fixture.upd1).1 = .returned false ∧
    (Fixture.q1.mint Fixture.stub Fixture.c1 1700000000 "alice" 200000000000 Fixture.upd1).1
      = .returned true ∧
    (∀ (dilithium_verify : Bytes → Bytes → Bytes → Bool) (b : CrossChainBridge)
        (oracle : QOracleCommittee) (qbtc : QBTCSynthetic) (now now_mint : Nat) (user : String)
        (a : Nat) (u : PriceUpdate),
      (b.swap_stx_for_qbtc dilithium_verify oracle qbtc now now_mint user a u).1
          = .returned true →
      (b.swap_stx_for_qbtc dilithium_verify oracle qbtc now now_mint user a u).2.2.1 = qbtc) := by
  refine ⟨by decide, by decide, by decide, by decide, by decide, by decide, by decide,
    by decide, by decide, by decide, ?_⟩
  intro dilithium_verify b oracle qbtc now now_mint user a u h
  exact (CrossChainBridge.swap_true_no_mint dilithium_verify b oracle qbtc now now_mint user a u
    h).1

end RC1
